import Mathlib

/-!
Shallow embedding of the chess move-generation core in src/chess_lib
(bitboard.c, move_gen.c, chess-util.h), together with theorems checking
the natural-language specification against it.

Modelling conventions:
* C `uint64_t` bitboards are `Nat` kept below `2 ^ 64` (shifts that can
  overflow 64 bits are truncated with an explicit mask, mirroring C).
* C `uint32_t` flags words are `Nat` below `2 ^ 32`; C `int` values that
  can be negative (piece codes with the `-1` sentinel, coordinates) are
  `Int`; casts to unsigned types are modelled with explicit `% 2 ^ w`.
* `assert` corresponds to debug builds only (compiled out under NDEBUG)
  and is modelled as a no-op, except on the string-parsing input paths
  (`board_pos_from_str`, `move_from_str`, the FEN reader) where an
  assertion failure is the function's only error signalling; there the
  function returns `Option` and an assertion failure is `none`.
* The magic-bitboard lookup tables are filled from `gen_rook_moves` /
  `gen_bishop_moves` at initialization; the constant tables themselves
  (found_magics.c) are not part of the sources, so the slider lookups
  are modelled from the spec (see `rook_move_lookup`).
-/

def MASK64 : Nat := 0xffffffffffffffff

def MASK32 : Nat := 0xffffffff

/-- Cast of a C `int` value to `uint64_t` (two's complement wraparound). -/
def u64ofInt (i : Int) : Nat := (i % (18446744073709551616 : Int)).toNat

/-- Cast of a C `int` value to `uint32_t` (two's complement wraparound). -/
def u32ofInt (i : Int) : Nat := (i % (4294967296 : Int)).toNat

/-- Auxiliary 64-step loop for `bitboard_popcount`. -/
def popcountAux : Nat → Nat → Nat
  | 0, _ => 0
  | fuel + 1, n => (n &&& 1) + popcountAux fuel (n >>> 1)

/-- Embeds `bitboard_popcount` (bitboard.c): population count of a 64-bit board. -/
def bitboard_popcount (b : Nat) : Nat := popcountAux 64 b

/-- Auxiliary 64-step loop for `bitboard_scan_lsb`. -/
def scanLsbAux : Nat → Nat → Nat
  | 0, _ => 0
  | fuel + 1, n => if n &&& 1 = 1 then 0 else 1 + scanLsbAux fuel (n >>> 1)

/-- Embeds `bitboard_scan_lsb` (bitboard.c): index of the least significant
set bit.  `__builtin_ctzll` is undefined on zero; the model returns 64. -/
def bitboard_scan_lsb (b : Nat) : Nat := scanLsbAux 64 b

/-- Embeds `bitboard_check_square` (bitboard.c): `(board >> square) & 1`. -/
def bitboard_check_square (b : Nat) (square : Nat) : Nat := (b >>> square) &&& 1

/-- Embeds `bitboard_set_square` (bitboard.c): `board | (1 << square)`. -/
def bitboard_set_square (b : Nat) (square : Nat) : Nat := b ||| (1 <<< square)

/-- Embeds `bitboard_clear_square` (bitboard.c): `board & ~(1 << square)`
(the complement is with respect to the 64-bit word). -/
def bitboard_clear_square (b : Nat) (square : Nat) : Nat :=
  b &&& (MASK64 ^^^ (1 <<< square))

/-- Embeds `bitboard_flip_square` (bitboard.c): `board ^ (1 << square)`. -/
def bitboard_flip_square (b : Nat) (square : Nat) : Nat := b ^^^ (1 <<< square)

def shift_w_mask : Nat := 0xfefefefefefefefe

def shift_e_mask : Nat := 0x7f7f7f7f7f7f7f7f

/-- Embeds `bitboard_shift_n`: `board << 8` truncated to 64 bits. -/
def bitboard_shift_n (b : Nat) : Nat := (b <<< 8) &&& MASK64

/-- Embeds `bitboard_shift_s`: `board >> 8`. -/
def bitboard_shift_s (b : Nat) : Nat := b >>> 8

/-- Embeds `bitboard_shift_w`: `(board << 1) & 0xfefe...`. -/
def bitboard_shift_w (b : Nat) : Nat := (b <<< 1) &&& shift_w_mask

/-- Embeds `bitboard_shift_e`: `(board >> 1) & 0x7f7f...`. -/
def bitboard_shift_e (b : Nat) : Nat := (b >>> 1) &&& shift_e_mask

def bitboard_shift_nw (b : Nat) : Nat := bitboard_shift_w (bitboard_shift_n b)

def bitboard_shift_ne (b : Nat) : Nat := bitboard_shift_e (bitboard_shift_n b)

def bitboard_shift_sw (b : Nat) : Nat := bitboard_shift_w (bitboard_shift_s b)

def bitboard_shift_se (b : Nat) : Nat := bitboard_shift_e (bitboard_shift_s b)

def BOARD_POS_INVALID : Nat := 255

/-- Embeds `board_pos_from_xy` (bitboard.c). -/
def board_pos_from_xy (x y : Int) : Nat :=
  if x < 0 ∨ y < 0 ∨ 8 ≤ x ∨ 8 ≤ y then BOARD_POS_INVALID
  else (x + y * 8).toNat

/-- Embeds `board_pos_to_x` (bitboard.c): `pos & 0x07`. -/
def board_pos_to_x (pos : Nat) : Nat := pos &&& 7

/-- Embeds `board_pos_to_y` (bitboard.c): `(pos >> 3) & 0x07`. -/
def board_pos_to_y (pos : Nat) : Nat := (pos >>> 3) &&& 7

/-- Embeds `board_pos_to_str` (bitboard.c); result as the two characters
written into the buffer. -/
def board_pos_to_str (pos : Nat) : List Char :=
  [Char.ofNat (board_pos_to_x pos + 'a'.toNat),
   Char.ofNat (board_pos_to_y pos + '1'.toNat)]

/-- Embeds `board_pos_from_str` (bitboard.c).  The C function asserts on a
character outside the expected ranges and on a missing terminator; those
aborts are modelled as `none`. -/
def board_pos_from_str (s : List Char) : Option Nat :=
  match s with
  | [c0, c1] =>
    if 'a' ≤ c0 ∧ c0 ≤ 'h' then
      if '1' ≤ c1 ∧ c1 ≤ '8' then
        some (board_pos_from_xy ((c0.toNat : Int) - 'a'.toNat) ((c1.toNat : Int) - '1'.toNat))
      else none
    else if 'A' ≤ c0 ∧ c0 ≤ 'H' then
      if '1' ≤ c1 ∧ c1 ≤ '8' then
        some (board_pos_from_xy ((c0.toNat : Int) - 'A'.toNat) ((c1.toNat : Int) - '1'.toNat))
      else none
    else none
  | _ => none

/-- Embeds `struct __chess_util_board` (chess-util.h): `players[2]`,
`pieces[6]` and the 32-bit flags word, with the arrays spread into named
fields (`pieces[KING]` is `piecesKing`, and so on, in the header's
index order KING, PAWN, KNIGHT, ROOK, BISHOP, QUEEN). -/
structure Board where
  playersWhite : Nat
  playersBlack : Nat
  piecesKing : Nat
  piecesPawn : Nat
  piecesKnight : Nat
  piecesRook : Nat
  piecesBishop : Nat
  piecesQueen : Nat
  flags : Nat
deriving DecidableEq, Repr

def WHITE : Int := 0

def BLACK : Int := 1

def KING : Int := 0

def PAWN : Int := 1

def KNIGHT : Int := 2

def ROOK : Int := 3

def BISHOP : Int := 4

def QUEEN : Int := 5

def BOARD_FLAGS_EP_SQUARE : Nat := 63

def BOARD_FLAGS_EP_PRESENT : Nat := 64

def BOARD_FLAGS_TURN : Nat := 128

def BOARD_FLAGS_W_CASTLE_KING : Nat := 256

def BOARD_FLAGS_W_CASTLE_QUEEN : Nat := 512

def BOARD_FLAGS_B_CASTLE_KING : Nat := 1024

def BOARD_FLAGS_B_CASTLE_QUEEN : Nat := 2048

def BOARD_FLAGS_TURN_NUM : Nat := 0xffff0000

def BOARD_FLAGS_TURN_NUM_SHIFT : Nat := 16

def BOARD_FLAGS_LOW : Nat := 0x0000ffff

/-- C logical negation `!player` on the {0, 1} player encoding. -/
def cNot (i : Int) : Int := if i = 0 then 1 else 0

/-- Array read `board->players[p]` for `p` in {WHITE, BLACK}. -/
def players (b : Board) (p : Int) : Nat :=
  if p = 0 then b.playersWhite else b.playersBlack

/-- Array write `board->players[p] = v`. -/
def setPlayers (b : Board) (p : Int) (v : Nat) : Board :=
  if p = 0 then { b with playersWhite := v } else { b with playersBlack := v }

/-- Array read `board->pieces[i]` for `i` in 0..5 (KING..QUEEN). -/
def pieces (b : Board) (i : Int) : Nat :=
  if i = 0 then b.piecesKing
  else if i = 1 then b.piecesPawn
  else if i = 2 then b.piecesKnight
  else if i = 3 then b.piecesRook
  else if i = 4 then b.piecesBishop
  else b.piecesQueen

/-- Array write `board->pieces[i] = v`. -/
def setPieces (b : Board) (i : Int) (v : Nat) : Board :=
  if i = 0 then { b with piecesKing := v }
  else if i = 1 then { b with piecesPawn := v }
  else if i = 2 then { b with piecesKnight := v }
  else if i = 3 then { b with piecesRook := v }
  else if i = 4 then { b with piecesBishop := v }
  else { b with piecesQueen := v }

/-- Embeds `board_player_to_move` (bitboard.c). -/
def board_player_to_move (b : Board) : Int :=
  if b.flags &&& BOARD_FLAGS_TURN ≠ 0 then 1 else 0

/-- Embeds `board_get_full_turn_number` (bitboard.c). -/
def board_get_full_turn_number (b : Board) : Nat :=
  (b.flags &&& BOARD_FLAGS_TURN_NUM) >>> BOARD_FLAGS_TURN_NUM_SHIFT

/-- Embeds `board_get_en_passant_target` (bitboard.c). -/
def board_get_en_passant_target (b : Board) : Nat :=
  if b.flags &&& BOARD_FLAGS_EP_PRESENT = 0 then BOARD_POS_INVALID
  else b.flags &&& BOARD_FLAGS_EP_SQUARE

/-- Embeds `board_piece_on_square` (bitboard.c): first piece array (in index
order) whose bit for the square is set, `-1` if none. -/
def board_piece_on_square (b : Board) (square : Nat) : Int :=
  if bitboard_check_square b.piecesKing square = 1 then 0
  else if bitboard_check_square b.piecesPawn square = 1 then 1
  else if bitboard_check_square b.piecesKnight square = 1 then 2
  else if bitboard_check_square b.piecesRook square = 1 then 3
  else if bitboard_check_square b.piecesBishop square = 1 then 4
  else if bitboard_check_square b.piecesQueen square = 1 then 5
  else -1

/-- Embeds `board_player_on_square` (bitboard.c). -/
def board_player_on_square (b : Board) (square : Nat) : Int :=
  if bitboard_check_square b.playersWhite square = 1 then 0
  else if bitboard_check_square b.playersBlack square = 1 then 1
  else -1

/-- Embeds `board_can_castle` (bitboard.c). -/
def board_can_castle (b : Board) (player side : Int) : Bool :=
  if player = WHITE ∧ side = KING then b.flags &&& BOARD_FLAGS_W_CASTLE_KING ≠ 0
  else if player = WHITE ∧ side = QUEEN then b.flags &&& BOARD_FLAGS_W_CASTLE_QUEEN ≠ 0
  else if player = BLACK ∧ side = KING then b.flags &&& BOARD_FLAGS_B_CASTLE_KING ≠ 0
  else if player = BLACK ∧ side = QUEEN then b.flags &&& BOARD_FLAGS_B_CASTLE_QUEEN ≠ 0
  else false

/-- Embeds the checks of `board_invariants` (bitboard.c): player occupancies
disjoint, piece occupancies pairwise disjoint, exactly one king per side,
and the en-passant target present only on the proper rank and unoccupied.
(The C function asserts these in debug builds.) -/
def board_invariants_holds (b : Board) : Prop :=
  b.playersWhite &&& b.playersBlack = 0 ∧
  (∀ i j : Fin 6, i ≠ j → pieces b i.val &&& pieces b j.val = 0) ∧
  bitboard_popcount (b.playersWhite &&& b.piecesKing) = 1 ∧
  bitboard_popcount (b.playersBlack &&& b.piecesKing) = 1 ∧
  (b.flags &&& BOARD_FLAGS_EP_PRESENT ≠ 0 →
    ((board_player_to_move b = WHITE ∧ board_pos_to_y (b.flags &&& BOARD_FLAGS_EP_SQUARE) = 5) ∨
     (board_player_to_move b = BLACK ∧ board_pos_to_y (b.flags &&& BOARD_FLAGS_EP_SQUARE) = 2)) ∧
    bitboard_check_square (b.playersWhite &&& b.playersBlack)
      (b.flags &&& BOARD_FLAGS_EP_SQUARE) ≠ 1)

instance (b : Board) : Decidable (board_invariants_holds b) := by
  unfold board_invariants_holds
  infer_instance

/-- Embeds `board_piece_char_to_piece` (bitboard.c); `assert(0)` on an
unknown character is `none`. -/
def board_piece_char_to_piece (c : Char) : Option Int :=
  if c = 'P' ∨ c = 'p' then some PAWN
  else if c = 'N' ∨ c = 'n' then some KNIGHT
  else if c = 'B' ∨ c = 'b' then some BISHOP
  else if c = 'R' ∨ c = 'r' then some ROOK
  else if c = 'Q' ∨ c = 'q' then some QUEEN
  else if c = 'k' ∨ c = 'K' then some KING
  else none

/-- Embeds `board_piece_char_to_player` (bitboard.c). -/
def board_piece_char_to_player (c : Char) : Option Int :=
  if c = 'P' ∨ c = 'N' ∨ c = 'B' ∨ c = 'R' ∨ c = 'Q' ∨ c = 'K' then some WHITE
  else if c = 'p' ∨ c = 'n' ∨ c = 'b' ∨ c = 'r' ∨ c = 'q' ∨ c = 'k' then some BLACK
  else none

/-- Embeds the `piece_str` table and `board_piece_char_from_piece_player`
(bitboard.c). -/
def board_piece_char_from_piece_player (piece player : Int) : Char :=
  if player = WHITE then
    if piece = 0 then 'K' else if piece = 1 then 'P' else if piece = 2 then 'N'
    else if piece = 3 then 'R' else if piece = 4 then 'B' else 'Q'
  else
    if piece = 0 then 'k' else if piece = 1 then 'p' else if piece = 2 then 'n'
    else if piece = 3 then 'r' else if piece = 4 then 'b' else 'q'

/-- C `isspace` on the characters that can occur in FEN strings. -/
def isspace (c : Char) : Bool :=
  c = ' ' ∨ c = '\t' ∨ c = '\n' ∨ c = '\r'

/-- Skip of a `while (isspace(*p)) p++;` loop. -/
def skip_spaces : List Char → List Char
  | [] => []
  | c :: rest => if isspace c then skip_spaces rest else c :: rest

/-- Skip of the `while (!isspace(*p)) p++;` loop used to ignore the
halfmove-clock field (stopping at end of string, where C would read the
terminator). -/
def skip_nonspaces : List Char → List Char
  | [] => []
  | c :: rest => if isspace c then c :: rest else skip_nonspaces rest

/-- One rank of the FEN placement loop in `board_from_fen_str` (bitboard.c):
consume characters until `/` or whitespace, adding pieces; stops without
consuming the terminator.  An unknown piece character aborts (`none`). -/
def fen_rank_chars : List Char → Int → Int → Board → Option (List Char × Board)
  | [], _, _, b => some ([], b)
  | c :: rest, file, rank, b =>
    if c = '/' ∨ isspace c then some (c :: rest, b)
    else if '1' ≤ c ∧ c ≤ '8' then
      fen_rank_chars rest (file + ((c.toNat : Int) - '0'.toNat)) rank b
    else
      match board_piece_char_to_player c, board_piece_char_to_piece c with
      | some player, some piece =>
        let b1 := setPlayers b player
          (bitboard_set_square (players b player) (board_pos_from_xy file rank))
        let b2 := setPieces b1 piece
          (bitboard_set_square (pieces b1 piece) (board_pos_from_xy file rank))
        fen_rank_chars rest (file + 1) rank b2
      | _, _ => none

/-- The outer placement loop of `board_from_fen_str`: ranks 7 down to 0,
consuming one separator character after each rank. -/
def fen_ranks : Nat → List Char → Board → Option (List Char × Board)
  | 0, s, b => some (s, b)
  | n + 1, s, b =>
    match fen_rank_chars s 0 (n : Int) b with
    | some (rest, b2) => fen_ranks n (rest.drop 1) b2
    | none => none

/-- The castling-availability loop of `board_from_fen_str`. -/
def fen_castling : List Char → Board → List Char × Board
  | [], b => ([], b)
  | c :: rest, b =>
    if c = 'K' then fen_castling rest { b with flags := b.flags ||| BOARD_FLAGS_W_CASTLE_KING }
    else if c = 'Q' then fen_castling rest { b with flags := b.flags ||| BOARD_FLAGS_W_CASTLE_QUEEN }
    else if c = 'k' then fen_castling rest { b with flags := b.flags ||| BOARD_FLAGS_B_CASTLE_KING }
    else if c = 'q' then fen_castling rest { b with flags := b.flags ||| BOARD_FLAGS_B_CASTLE_QUEEN }
    else if c = '-' then fen_castling rest b
    else (c :: rest, b)

/-- The turn-counter read of `board_from_fen_str`: up to 5 characters that
are neither the terminator nor whitespace. -/
def fen_turn_chars : Nat → List Char → List Char
  | 0, _ => []
  | _, [] => []
  | n + 1, c :: rest => if isspace c then [] else c :: fen_turn_chars n rest

/-- Digit-run accumulator for `c_atoi`. -/
def atoi_digits : List Char → Int → Int
  | [], acc => acc
  | c :: rest, acc =>
    if '0' ≤ c ∧ c ≤ '9' then atoi_digits rest (acc * 10 + ((c.toNat : Int) - '0'.toNat))
    else acc

/-- C `atoi` restricted to the strings the FEN reader builds (no leading
whitespace; optional sign; leading digit run). -/
def c_atoi (s : List Char) : Int :=
  match s with
  | '-' :: rest => -(atoi_digits rest 0)
  | '+' :: rest => atoi_digits rest 0
  | _ => atoi_digits s 0

/-- Embeds `board_from_fen_str` (bitboard.c).  The board is cleared, then
placement, side to move, castling rights, en-passant target and the
full-turn counter are read; the halfmove clock is skipped.  Assertion
failures on malformed input are `none`. -/
def board_from_fen_str (fen : List Char) : Option Board :=
  let b0 : Board := ⟨0, 0, 0, 0, 0, 0, 0, 0, 0⟩
  match fen_ranks 8 fen b0 with
  | none => none
  | some (s1, b1) =>
    let s2 := skip_spaces s1
    match s2 with
    | [] => none
    | c :: s3 =>
      match (if c = 'b' then some { b1 with flags := b1.flags ||| BOARD_FLAGS_TURN }
             else if c = 'w' then some { b1 with flags := b1.flags &&& (MASK32 ^^^ BOARD_FLAGS_TURN) }
             else none) with
      | none => none
      | some b2 =>
        let s4 := skip_spaces s3
        let (s5, b3) := fen_castling s4 b2
        let s6 := skip_spaces s5
        match s6 with
        | [] => none
        | e0 :: s7 =>
          match (if e0 = '-' then some (s7, b3)
                 else match s7 with
                   | e1 :: s8 =>
                     match board_pos_from_str [e0, e1] with
                     | some sq => some (s8,
                         { b3 with flags := (b3.flags ||| BOARD_FLAGS_EP_PRESENT) |||
                             (sq &&& BOARD_FLAGS_EP_SQUARE) })
                     | none => none
                   | [] => none) with
          | none => none
          | some (s9, b4) =>
            let s10 := skip_spaces (skip_nonspaces (skip_spaces s9))
            let turn_count := c_atoi (fen_turn_chars 5 s10)
            some { b4 with flags := b4.flags |||
                     (u32ofInt (turn_count * 65536) &&& BOARD_FLAGS_TURN_NUM) }

/-- Decimal digits of a natural number (for the `%i` of `snprintf` and the
empty-square counters of FEN emission). -/
def nat_dec_digits : Nat → Nat → List Char
  | 0, _ => []
  | fuel + 1, n =>
    if n < 10 then [Char.ofNat (n + '0'.toNat)]
    else nat_dec_digits fuel (n / 10) ++ [Char.ofNat (n % 10 + '0'.toNat)]

/-- One rank of the FEN emission loop in `board_to_fen_str` (bitboard.c):
`x` counts files already emitted, `empty_counter` pending empty squares. -/
def fen_emit_rank : Nat → Board → Nat → Nat → Nat → List Char
  | 0, _, _, _, empty_counter =>
    if 0 < empty_counter then [Char.ofNat (empty_counter + '0'.toNat)] else []
  | remaining + 1, b, y, x, empty_counter =>
    let player := board_player_on_square b (board_pos_from_xy (x : Int) (y : Int))
    let piece := board_piece_on_square b (board_pos_from_xy (x : Int) (y : Int))
    if player = -1 then fen_emit_rank remaining b y (x + 1) (empty_counter + 1)
    else
      (if 0 < empty_counter then [Char.ofNat (empty_counter + '0'.toNat)] else []) ++
      board_piece_char_from_piece_player piece player ::
      fen_emit_rank remaining b y (x + 1) 0

/-- The placement part of `board_to_fen_str`, ranks 7 down to 0 separated
by `/`. -/
def fen_emit_ranks : Nat → Board → List Char
  | 0, _ => []
  | n + 1, b =>
    fen_emit_rank 8 b n 0 0 ++ (if 0 < n then ['/'] else []) ++ fen_emit_ranks n b

/-- Embeds `board_castling_to_str` (bitboard.c). -/
def board_castling_to_str (b : Board) : List Char :=
  let s :=
    (if b.flags &&& BOARD_FLAGS_W_CASTLE_KING ≠ 0 then ['K'] else []) ++
    (if b.flags &&& BOARD_FLAGS_W_CASTLE_QUEEN ≠ 0 then ['Q'] else []) ++
    (if b.flags &&& BOARD_FLAGS_B_CASTLE_KING ≠ 0 then ['k'] else []) ++
    (if b.flags &&& BOARD_FLAGS_B_CASTLE_QUEEN ≠ 0 then ['q'] else [])
  if s = [] then ['-'] else s

/-- Embeds `board_ep_to_str` (bitboard.c). -/
def board_ep_to_str (b : Board) : List Char :=
  if b.flags &&& BOARD_FLAGS_EP_PRESENT ≠ 0 then
    board_pos_to_str (b.flags &&& BOARD_FLAGS_EP_SQUARE)
  else ['-']

/-- Embeds `board_to_fen_str` (bitboard.c).  The final
`snprintf(res_str, 4, "%i", turn)` writes at most three characters of the
full-turn counter, so the emitted counter is truncated to its first three
decimal digits. -/
def board_to_fen_str (b : Board) : List Char :=
  fen_emit_ranks 8 b ++
  [' '] ++ (if board_player_to_move b = WHITE then ['w'] else ['b']) ++
  [' '] ++ board_castling_to_str b ++
  [' '] ++ board_ep_to_str b ++
  [' ', '0', ' '] ++
  (nat_dec_digits 8 (board_get_full_turn_number b)).take 3

/-- Add a square to a move mask if it is on the board, as in the guarded
`bitboard_set_square` calls of the table initializers (move_gen.c). -/
def addSquareIfValid (m : Nat) (s : Nat) : Nat :=
  if s = BOARD_POS_INVALID then m else bitboard_set_square m s

def knight_offsets : List (Int × Int) :=
  [(-1, -2), (-2, -1), (-1, 2), (-2, 1), (1, -2), (2, -1), (1, 2), (2, 1)]

/-- Embeds the `move_gen_knights` table (move_gen.c, `move_gen_init_knights`):
for each square, the L-shaped targets that are on the board. -/
def move_gen_knights (pos : Nat) : Nat :=
  knight_offsets.foldl
    (fun m d =>
      addSquareIfValid m
        (board_pos_from_xy ((board_pos_to_x pos : Int) + d.1)
          ((board_pos_to_y pos : Int) + d.2))) 0

def king_offsets : List (Int × Int) :=
  [(-1, -1), (-1, 0), (-1, 1), (0, -1), (0, 1), (1, -1), (1, 0), (1, 1)]

/-- Embeds the `move_gen_kings` table (move_gen.c, `move_gen_init_kings`). -/
def move_gen_kings (pos : Nat) : Nat :=
  king_offsets.foldl
    (fun m d =>
      addSquareIfValid m
        (board_pos_from_xy ((board_pos_to_x pos : Int) + d.1)
          ((board_pos_to_y pos : Int) + d.2))) 0

/-- Embeds one entry of the `move_gen_pawns` table (move_gen.c,
`move_gen_init_pawns`), indexed `[player][double_ahead][ahead][square]`. -/
def move_gen_pawns (player : Int) (double_ahead ahead pos : Nat) : Nat :=
  let x : Int := board_pos_to_x pos
  let y : Int := board_pos_to_y pos
  let dir : Int := if player = WHITE then 1 else -1
  let m0 : Nat :=
    if ahead &&& 2 = 0 ∧ (0 ≤ y + dir ∧ y + dir < 8) then
      let m := bitboard_set_square 0 (board_pos_from_xy x (y + dir))
      if double_ahead = 0 ∧ ((player = WHITE ∧ y = 1) ∨ (player = BLACK ∧ y = 6)) then
        bitboard_set_square m (board_pos_from_xy x (y + 2 * dir))
      else m
    else 0
  let m1 :=
    if 1 ≤ x ∧ ahead &&& 1 ≠ 0 ∧ (0 ≤ y + dir ∧ y + dir < 8) then
      bitboard_set_square m0 (board_pos_from_xy (x - 1) (y + dir))
    else m0
  if x ≤ 6 ∧ ahead &&& 4 ≠ 0 ∧ (0 ≤ y + dir ∧ y + dir < 8) then
    bitboard_set_square m1 (board_pos_from_xy (x + 1) (y + dir))
  else m1

/-- Embeds `pawn_move_lookup` (move_gen.c).  C shifts a `uint64_t` by the
computed amounts; for the squares where the shift distance reaches 64 the C
shift is undefined but the selected table entry does not depend on the
extracted bits, so plain `Nat` shifts are used. -/
def pawn_move_lookup (occupancy : Nat) (square : Nat) (player : Int) : Nat :=
  let dir : Int := if player = WHITE then 1 else -1
  let forward_shift : Int := (square : Int) - 1 + dir * 8
  let forward_rank : Nat :=
    if 0 ≤ forward_shift then (occupancy >>> forward_shift.toNat) &&& 0x07
    else (occupancy <<< (-forward_shift).toNat) &&& 0x07
  let double_forward_shift : Int := (square : Int) + dir * 16
  let double_forward_rank : Nat :=
    if 0 < double_forward_shift then (occupancy >>> double_forward_shift.toNat) &&& 0x01
    else (occupancy <<< (-double_forward_shift).toNat) &&& 0x01
  move_gen_pawns player double_forward_rank forward_rank square

/-- The `while` loop of `gen_ray_moves` (move_gen.c); at most 7 steps are
ever taken, `fuel = 8` suffices. -/
def gen_ray_go : Nat → Nat → Int → Int → Int → Int → Nat
  | 0, _, _, _, _, _ => 0
  | fuel + 1, occupancy, x, y, dx, dy =>
    if x ≤ 7 ∧ y ≤ 7 ∧ 0 ≤ x ∧ 0 ≤ y then
      let m := bitboard_set_square 0 (board_pos_from_xy x y)
      if bitboard_check_square occupancy (board_pos_from_xy x y) = 1 then m
      else m ||| gen_ray_go fuel occupancy (x + dx) (y + dy) dx dy
    else 0

/-- Embeds `gen_ray_moves` (move_gen.c). -/
def gen_ray_moves (occupancy : Nat) (x y dx dy : Int) : Nat :=
  gen_ray_go 8 occupancy (x + dx) (y + dy) dx dy

/-- Embeds `gen_rook_moves` (move_gen.c). -/
def gen_rook_moves (occupancy : Nat) (square : Nat) : Nat :=
  let x : Int := board_pos_to_x square
  let y : Int := board_pos_to_y square
  gen_ray_moves occupancy x y 1 0 ||| gen_ray_moves occupancy x y (-1) 0 |||
  gen_ray_moves occupancy x y 0 1 ||| gen_ray_moves occupancy x y 0 (-1)

/-- Embeds `gen_bishop_moves` (move_gen.c). -/
def gen_bishop_moves (occupancy : Nat) (square : Nat) : Nat :=
  let x : Int := board_pos_to_x square
  let y : Int := board_pos_to_y square
  gen_ray_moves occupancy x y 1 1 ||| gen_ray_moves occupancy x y (-1) 1 |||
  gen_ray_moves occupancy x y 1 (-1) ||| gen_ray_moves occupancy x y (-1) (-1)

/-- Embeds `rook_move_lookup` (move_gen.c).  Modelled from the spec: the
magic constant tables (found_magics.c) are not among the sources; per the
spec the only externally visible property of the magic lookup is that it
returns the correct attack set for every occupancy, and
`move_gen_init_sliders` fills every reachable entry with `gen_rook_moves`
of the masked occupancy, which has the same attack set as the full
occupancy (blockers on the excluded board edges cannot shorten a ray). -/
def rook_move_lookup (occupancy : Nat) (square : Nat) : Nat :=
  gen_rook_moves occupancy square

/-- Embeds `bishop_move_lookup` (move_gen.c); modelled from the spec, see
`rook_move_lookup`. -/
def bishop_move_lookup (occupancy : Nat) (square : Nat) : Nat :=
  gen_bishop_moves occupancy square

/-- Embeds `queen_magic_lookup` (move_gen.c). -/
def queen_magic_lookup (occupancy : Nat) (square : Nat) : Nat :=
  rook_move_lookup occupancy square ||| bishop_move_lookup occupancy square

/-- Embeds `move_gen_reg_moves_mask` (move_gen.c). -/
def move_gen_reg_moves_mask (occupancy_for_sliders occupancy_for_pawns : Nat)
    (piece player : Int) (square : Nat) : Nat :=
  if piece = KING then move_gen_kings square
  else if piece = KNIGHT then move_gen_knights square
  else if piece = PAWN then pawn_move_lookup occupancy_for_pawns square player
  else if piece = ROOK then rook_move_lookup occupancy_for_sliders square
  else if piece = BISHOP then bishop_move_lookup occupancy_for_sliders square
  else if piece = QUEEN then queen_magic_lookup occupancy_for_sliders square
  else 0

/-- Embeds `board_occupancy_for_sliders_lookups` (move_gen.c). -/
def board_occupancy_for_sliders_lookups (b : Board) : Nat :=
  b.playersWhite ||| b.playersBlack

/-- Embeds `board_occupancy_for_pawns_lookups` (move_gen.c). -/
def board_occupancy_for_pawns_lookups (b : Board) : Nat :=
  let occupancy := b.playersWhite ||| b.playersBlack
  if b.flags &&& BOARD_FLAGS_EP_PRESENT ≠ 0 then
    bitboard_set_square occupancy (b.flags &&& BOARD_FLAGS_EP_SQUARE)
  else occupancy

def MOVE_END : Nat := 0xffffffffffffffff

def MOVE_FLAGS_PREV_FLAGS : Nat := 0xffff

def MOVE_FLAGS_SRC : Nat := 0x3f0000

def MOVE_SHIFT_SRC : Nat := 16

def MOVE_FLAGS_DST : Nat := 0xfc00000

def MOVE_SHIFT_DST : Nat := 22

def MOVE_FLAGS_IS_PROMOTE : Nat := 0x10000000

def MOVE_SHIFT_IS_PROMOTE : Nat := 28

def MOVE_FLAGS_PROMOTE_PIECE : Nat := 0xe0000000

def MOVE_SHIFT_PROMOTE_PIECE : Nat := 29

def MOVE_FLAGS_IS_CAPTURE : Nat := 0x100000000

def MOVE_SHIFT_IS_CAPTURE : Nat := 32

def MOVE_FLAGS_CAPTURE_PIECE : Nat := 0xe00000000

def MOVE_SHIFT_CAPTURE_PIECE : Nat := 33

def MOVE_FLAGS_CAPTURE_SQUARE : Nat := 0x3f000000000

def MOVE_SHIFT_CAPTURE_SQUARE : Nat := 36

def MOVE_FLAGS_IS_CASTLE : Nat := 0x40000000000

def MOVE_SHIFTS_IS_CASTLE : Nat := 42

/-- Embeds `move_source_square` (move_gen.c). -/
def move_source_square (m : Nat) : Nat := (m &&& MOVE_FLAGS_SRC) >>> MOVE_SHIFT_SRC

/-- Embeds `move_destination_square` (move_gen.c). -/
def move_destination_square (m : Nat) : Nat := (m &&& MOVE_FLAGS_DST) >>> MOVE_SHIFT_DST

/-- Embeds `move_is_promotion` (move_gen.c); C returns int 1/0. -/
def move_is_promotion (m : Nat) : Int :=
  if m &&& MOVE_FLAGS_IS_PROMOTE ≠ 0 then 1 else 0

/-- Embeds `move_promotion_piece` (move_gen.c). -/
def move_promotion_piece (m : Nat) : Int :=
  if move_is_promotion m = 0 then -1
  else ((m &&& MOVE_FLAGS_PROMOTE_PIECE) >>> MOVE_SHIFT_PROMOTE_PIECE : Nat)

/-- Embeds `move_is_capture` (move_gen.c); C returns int 1/0. -/
def move_is_capture (m : Nat) : Int :=
  if m &&& MOVE_FLAGS_IS_CAPTURE ≠ 0 then 1 else 0

/-- Embeds `move_capture_piece` (move_gen.c). -/
def move_capture_piece (m : Nat) : Int :=
  if move_is_capture m = 0 then -1
  else ((m &&& MOVE_FLAGS_CAPTURE_PIECE) >>> MOVE_SHIFT_CAPTURE_PIECE : Nat)

/-- Embeds `move_capture_square` (move_gen.c). -/
def move_capture_square (m : Nat) : Nat :=
  if move_is_capture m = 0 then BOARD_POS_INVALID
  else (m &&& MOVE_FLAGS_CAPTURE_SQUARE) >>> MOVE_SHIFT_CAPTURE_SQUARE

/-- Embeds `move_is_castle` (move_gen.c). -/
def move_is_castle (m : Nat) : Int :=
  ((m &&& MOVE_FLAGS_IS_CASTLE) >>> MOVE_SHIFTS_IS_CASTLE : Nat)

/-- Embeds `construct_move` (move_gen.c).  `board_flags` is the `uint16_t`
parameter (already truncated at the call boundary in C); the int flag
parameters are normalized with `!= 0` exactly as in the source, and the int
piece codes are cast to `uint64_t` before shifting. -/
def construct_move (board_flags : Nat) (src dst : Nat) (is_promotion promote_piece : Int)
    (is_capture capture_piece : Int) (capture_pos : Nat) (is_castle : Int) : Nat :=
  (board_flags &&& MOVE_FLAGS_PREV_FLAGS) +
  ((src <<< MOVE_SHIFT_SRC) &&& MOVE_FLAGS_SRC) +
  ((dst <<< MOVE_SHIFT_DST) &&& MOVE_FLAGS_DST) +
  ((if is_promotion ≠ 0 then 1 else 0) <<< MOVE_SHIFT_IS_PROMOTE) +
  ((u64ofInt promote_piece <<< MOVE_SHIFT_PROMOTE_PIECE) &&& MOVE_FLAGS_PROMOTE_PIECE) +
  ((if is_capture ≠ 0 then 1 else 0) <<< MOVE_SHIFT_IS_CAPTURE) +
  ((u64ofInt capture_piece <<< MOVE_SHIFT_CAPTURE_PIECE) &&& MOVE_FLAGS_CAPTURE_PIECE) +
  ((capture_pos <<< MOVE_SHIFT_CAPTURE_SQUARE) &&& MOVE_FLAGS_CAPTURE_SQUARE) +
  ((if is_castle ≠ 0 then 1 else 0) <<< MOVE_SHIFTS_IS_CASTLE)

/-- Embeds `en_passant_target_to_pawn_pos` (move_gen.c).  The target square
is on rank 3 or rank 6 whenever this is called on a board satisfying the
invariants; the `assert(0)` fallthrough is modelled as `BOARD_POS_INVALID`. -/
def en_passant_target_to_pawn_pos (ep_target : Nat) : Nat :=
  let x : Int := board_pos_to_x ep_target
  let y : Int := board_pos_to_y ep_target
  if y = 2 then board_pos_from_xy x (y + 1)
  else if y = 5 then board_pos_from_xy x (y - 1)
  else BOARD_POS_INVALID

/-- The `promote_codes` table (move_gen.c), indexed by piece kind. -/
def promote_codes (p : Int) : Char :=
  if p = 0 then 'k' else if p = 1 then 'p' else if p = 2 then 'n'
  else if p = 3 then 'r' else if p = 4 then 'b' else 'q'

/-- Embeds `move_to_str` (move_gen.c). -/
def move_to_str (m : Nat) : List Char :=
  board_pos_to_str (move_source_square m) ++
  board_pos_to_str (move_destination_square m) ++
  (if move_is_promotion m ≠ 0 then [promote_codes (move_promotion_piece m)] else [])

/-- Embeds `move_new` (move_gen.c). -/
def move_new (src dst : Nat) (is_promote promote_piece : Int) (b : Board) : Nat :=
  let capture_piece0 := board_piece_on_square b dst
  if capture_piece0 ≠ -1 ∧ board_player_on_square b dst = board_player_to_move b then
    MOVE_END
  else
    let is_capture0 : Int := if capture_piece0 ≠ -1 then 1 else 0
    let capture_pos0 : Nat := if capture_piece0 ≠ -1 then dst else BOARD_POS_INVALID
    -- check for en passant
    if dst = board_get_en_passant_target b ∧ board_piece_on_square b src = PAWN then
      let capture_pos1 := en_passant_target_to_pawn_pos (board_get_en_passant_target b)
      let capture_piece1 := board_piece_on_square b capture_pos1
      if capture_piece1 ≠ PAWN then MOVE_END
      else
        let is_castle : Int := if
          ((src = board_pos_from_xy 4 0 ∧ (dst = board_pos_from_xy 2 0 ∨ dst = board_pos_from_xy 6 0)) ∨
           (src = board_pos_from_xy 4 7 ∧ (dst = board_pos_from_xy 2 7 ∨ dst = board_pos_from_xy 6 7))) ∧
          board_piece_on_square b src = KING then 1 else 0
        construct_move b.flags src dst is_promote promote_piece 1 capture_piece1 capture_pos1 is_castle
    else
      let is_castle : Int := if
        ((src = board_pos_from_xy 4 0 ∧ (dst = board_pos_from_xy 2 0 ∨ dst = board_pos_from_xy 6 0)) ∨
         (src = board_pos_from_xy 4 7 ∧ (dst = board_pos_from_xy 2 7 ∨ dst = board_pos_from_xy 6 7))) ∧
        board_piece_on_square b src = KING then 1 else 0
      construct_move b.flags src dst is_promote promote_piece is_capture0 capture_piece0 capture_pos0 is_castle

/-- Embeds `file_wellformed` (move_gen.c). -/
def file_wellformed (c : Char) : Bool :=
  ('a' ≤ c ∧ c ≤ 'h') ∨ ('A' ≤ c ∧ c ≤ 'H')

/-- Embeds `rank_wellformed` (move_gen.c). -/
def rank_wellformed (c : Char) : Bool := '1' ≤ c ∧ c ≤ '8'

/-- Embeds `promote_wellformed` (move_gen.c). -/
def promote_wellformed (c : Char) : Bool :=
  c = 'n' ∨ c = 'r' ∨ c = 'b' ∨ c = 'q'

/-- Embeds `move_str_is_wellformed` (move_gen.c); C returns int 1/0. -/
def move_str_is_wellformed (s : List Char) : Int :=
  if s.length ≠ 4 ∧ s.length ≠ 5 then 0
  else if ¬ (file_wellformed (s.getD 0 '\x00') ∧ rank_wellformed (s.getD 1 '\x00')) then 0
  else if ¬ (file_wellformed (s.getD 2 '\x00') ∧ rank_wellformed (s.getD 3 '\x00')) then 0
  else if s.length = 5 ∧ ¬ promote_wellformed (s.getD 4 '\x00') then 0
  else 1

/-- Embeds `move_from_str` (move_gen.c).  Characters past the end of the
argument read as the NUL terminator; `board_pos_from_str` assertion
failures abort (`none`). -/
def move_from_str (move_str : List Char) (b : Board) : Option Nat :=
  let src_str := [move_str.getD 0 '\x00', move_str.getD 1 '\x00']
  let dst_str := [move_str.getD 2 '\x00', move_str.getD 3 '\x00']
  let c4 := move_str.getD 4 '\x00'
  let is_promote : Int := if c4 ≠ '\x00' then 1 else 0
  let promote_piece : Int :=
    if c4 = '\x00' then -1
    else if promote_codes 5 = c4 then 5
    else if promote_codes 4 = c4 then 4
    else if promote_codes 3 = c4 then 3
    else if promote_codes 2 = c4 then 2
    else if promote_codes 1 = c4 then 1
    else if promote_codes 0 = c4 then 0
    else -1
  if c4 ≠ '\x00' ∧ promote_piece = -1 then some MOVE_END
  else
    match board_pos_from_str src_str, board_pos_from_str dst_str with
    | some src, some dst => some (move_new src dst is_promote promote_piece b)
    | _, _ => none

/-- Embeds `board_is_square_attacked` (move_gen.c), with the two small
loops over piece kinds unrolled (KING, PAWN, KNIGHT, then ROOK and BISHOP
with queens included). -/
def board_is_square_attacked (b : Board) (square : Nat) (attacking_player : Int) : Nat :=
  let defending_player := cNot attacking_player
  let attackers_mask := players b attacking_player
  let occ_slide := board_occupancy_for_sliders_lookups b
  let occ_pawn := board_occupancy_for_pawns_lookups b
  let attack_hits :=
    (move_gen_reg_moves_mask occ_slide occ_pawn KING defending_player square &&& b.piecesKing) |||
    (move_gen_reg_moves_mask occ_slide occ_pawn PAWN defending_player square &&& b.piecesPawn) |||
    (move_gen_reg_moves_mask occ_slide occ_pawn KNIGHT defending_player square &&& b.piecesKnight) |||
    (move_gen_reg_moves_mask occ_slide occ_pawn ROOK defending_player square &&&
      (b.piecesRook ||| b.piecesQueen)) |||
    (move_gen_reg_moves_mask occ_slide occ_pawn BISHOP defending_player square &&&
      (b.piecesBishop ||| b.piecesQueen))
  attack_hits &&& attackers_mask

/-- Embeds `board_player_in_check` (move_gen.c). -/
def board_player_in_check (b : Board) (player : Int) : Nat :=
  let king_mask := b.piecesKing &&& players b player
  let king_pos := bitboard_scan_lsb king_mask
  board_is_square_attacked b king_pos (cNot player)

/-- Embeds `board_clear_castling` (move_gen.c). -/
def board_clear_castling (b : Board) (player side : Int) : Board :=
  let flag :=
    if player = WHITE then
      (if side = QUEEN then BOARD_FLAGS_W_CASTLE_QUEEN else BOARD_FLAGS_W_CASTLE_KING)
    else
      (if side = QUEEN then BOARD_FLAGS_B_CASTLE_QUEEN else BOARD_FLAGS_B_CASTLE_KING)
  { b with flags := b.flags &&& (MASK32 ^^^ flag) }

/-- Embeds `move_gen_make_castle` (move_gen.c). -/
def move_gen_make_castle (b : Board) (m : Nat) : Board :=
  let dst := move_destination_square m
  let src := move_source_square m
  let player := board_player_to_move b
  let side := if board_pos_to_x dst = 2 then QUEEN else KING
  let y : Int := if player = WHITE then 0 else 7
  -- move king
  let b1 := setPlayers b player (bitboard_clear_square (players b player) src)
  let b2 := setPieces b1 KING (bitboard_clear_square (pieces b1 KING) src)
  let b3 := setPlayers b2 player (bitboard_set_square (players b2 player) dst)
  let b4 := setPieces b3 KING (bitboard_set_square (pieces b3 KING) dst)
  -- move rook
  let rook_src := if side = QUEEN then board_pos_from_xy 0 y else board_pos_from_xy 7 y
  let rook_dst := if side = QUEEN then board_pos_from_xy 3 y else board_pos_from_xy 5 y
  let b5 := setPlayers b4 player (bitboard_clear_square (players b4 player) rook_src)
  let b6 := setPieces b5 ROOK (bitboard_clear_square (pieces b5 ROOK) rook_src)
  let b7 := setPlayers b6 player (bitboard_set_square (players b6 player) rook_dst)
  let b8 := setPieces b7 ROOK (bitboard_set_square (pieces b7 ROOK) rook_dst)
  board_clear_castling (board_clear_castling b8 player QUEEN) player KING

/-- The castling-rights revocations at the top of the non-castle branch of
`board_make_move` (move_gen.c): both rights cleared on a king move, the
matching right cleared on a rook move from its home square. -/
def make_castle_rights (b : Board) (piece player : Int) (src : Nat) : Board :=
  let b1 :=
    if piece = KING then
      board_clear_castling (board_clear_castling b player KING) player QUEEN
    else b
  if piece = ROOK then
    if player = WHITE ∧ src = board_pos_from_xy 0 0 then
      board_clear_castling b1 WHITE QUEEN
    else if player = WHITE ∧ src = board_pos_from_xy 7 0 then
      board_clear_castling b1 WHITE KING
    else if player = BLACK ∧ src = board_pos_from_xy 0 7 then
      board_clear_castling b1 BLACK QUEEN
    else if player = BLACK ∧ src = board_pos_from_xy 7 7 then
      board_clear_castling b1 BLACK KING
    else b1
  else b1

/-- The capture block of `board_make_move` (move_gen.c): clear the captured
square (redirected to the pawn square when the destination is the
en-passant target) and revoke castling rights when a rook is captured on
its home square. -/
def make_capture (b : Board) (m : Nat) (dst : Nat) (opponent : Int) : Board :=
  if move_is_capture m ≠ 0 then
    let cap_square0 := move_capture_square m
    let ep_target := board_get_en_passant_target b
    let cap_square :=
      if ep_target ≠ BOARD_POS_INVALID ∧ ep_target = dst then
        en_passant_target_to_pawn_pos ep_target
      else cap_square0
    let cap_piece := board_piece_on_square b cap_square
    let b3 := setPlayers b opponent (bitboard_clear_square (players b opponent) cap_square)
    let b4 := setPieces b3 cap_piece (bitboard_clear_square (pieces b3 cap_piece) cap_square)
    if cap_piece = ROOK then
      if opponent = WHITE ∧ cap_square = board_pos_from_xy 0 0 then
        board_clear_castling b4 WHITE QUEEN
      else if opponent = WHITE ∧ cap_square = board_pos_from_xy 7 0 then
        board_clear_castling b4 WHITE KING
      else if opponent = BLACK ∧ cap_square = board_pos_from_xy 0 7 then
        board_clear_castling b4 BLACK QUEEN
      else if opponent = BLACK ∧ cap_square = board_pos_from_xy 7 7 then
        board_clear_castling b4 BLACK KING
      else b4
    else b4
  else b

/-- The piece movement of `board_make_move` (move_gen.c): place the piece
(or promotion piece) on the destination and clear the source. -/
def make_move_piece (b : Board) (piece dst_piece player : Int) (src dst : Nat) : Board :=
  let b6 := setPieces b dst_piece (bitboard_set_square (pieces b dst_piece) dst)
  let b7 := setPlayers b6 player (bitboard_set_square (players b6 player) dst)
  let b8 := setPieces b7 piece (bitboard_clear_square (pieces b7 piece) src)
  setPlayers b8 player (bitboard_clear_square (players b8 player) src)

/-- The en-passant flag updates at the tail of `board_make_move`
(move_gen.c): clear any prior target, then set the skipped square as the
target on a double pawn push. -/
def make_ep_flags (b : Board) (piece : Int) (src dst : Nat) : Board :=
  let b10 := { b with flags := b.flags &&& (MASK32 ^^^ BOARD_FLAGS_EP_PRESENT) }
  if piece = PAWN ∧ ((src : Int) - dst = 16 ∨ (dst : Int) - src = 16) then
    let ep_target := if dst > src then src + 8 else src - 8
    { b10 with flags := ((b10.flags ||| BOARD_FLAGS_EP_PRESENT) &&&
        (MASK32 ^^^ BOARD_FLAGS_EP_SQUARE)) ||| (ep_target &&& BOARD_FLAGS_EP_SQUARE) }
  else b10

/-- The turn bookkeeping at the tail of `board_make_move` (move_gen.c):
increment the full-turn counter after a Black move, then flip the side to
move. -/
def make_turn_flags (b : Board) (player : Int) : Board :=
  let b12 :=
    if player = BLACK then
      let prev_turn := board_get_full_turn_number b
      { b with flags := (b.flags &&& BOARD_FLAGS_LOW) |||
          (u32ofInt (((prev_turn : Int) + 1) * 65536) &&& BOARD_FLAGS_TURN_NUM) }
    else b
  { b12 with flags := b12.flags ^^^ BOARD_FLAGS_TURN }

/-- Embeds `board_make_move` (move_gen.c), assembled from the stages
above in the statement order of the C function. -/
def board_make_move (b : Board) (m : Nat) : Board :=
  let src := move_source_square m
  let dst := move_destination_square m
  let piece := board_piece_on_square b src
  let dst_piece := if move_is_promotion m ≠ 0 then move_promotion_piece m else piece
  let player := board_player_to_move b
  let opponent := cNot player
  let b9 :=
    if move_is_castle m ≠ 0 then move_gen_make_castle b m
    else
      make_move_piece (make_capture (make_castle_rights b piece player src) m dst opponent)
        piece dst_piece player src dst
  make_turn_flags (make_ep_flags b9 piece src dst) player

/-- The flags restoration at the top of `board_unmake_move` (move_gen.c):
overwrite the low 16 bits with the move's previous flags. -/
def unmake_restore_flags (b : Board) (m : Nat) : Board :=
  { b with flags := (b.flags &&& (MASK32 ^^^ BOARD_FLAGS_LOW)) ||| (m &&& MOVE_FLAGS_PREV_FLAGS) }

/-- The turn decrement of `board_unmake_move` (move_gen.c). -/
def unmake_turn_flags (b : Board) (player : Int) : Board :=
  if player = BLACK then
    let prev_turn := board_get_full_turn_number b
    { b with flags := (b.flags &&& BOARD_FLAGS_LOW) |||
        (u32ofInt (((prev_turn : Int) - 1) * 65536) &&& BOARD_FLAGS_TURN_NUM) }
  else b

/-- The piece movement reversal of `board_unmake_move` (move_gen.c). -/
def unmake_move_piece (b : Board) (piece_dst piece_src player : Int) (src dst : Nat) : Board :=
  let b3 := setPieces b piece_dst (bitboard_clear_square (pieces b piece_dst) dst)
  let b4 := setPlayers b3 player (bitboard_clear_square (players b3 player) dst)
  let b5 := setPieces b4 piece_src (bitboard_set_square (pieces b4 piece_src) src)
  setPlayers b5 player (bitboard_set_square (players b5 player) src)

/-- The capture restoration of `board_unmake_move` (move_gen.c). -/
def unmake_capture (b : Board) (m : Nat) (opponent : Int) : Board :=
  if move_is_capture m ≠ 0 then
    let cap_piece := move_capture_piece m
    let cap_square := move_capture_square m
    let b7 := setPieces b cap_piece (bitboard_set_square (pieces b cap_piece) cap_square)
    setPlayers b7 opponent (bitboard_set_square (players b7 opponent) cap_square)
  else b

/-- The rook restoration of `board_unmake_move` (move_gen.c). -/
def unmake_castle_rook (b : Board) (m : Nat) (player : Int) (dst : Nat) : Board :=
  if move_is_castle m ≠ 0 then
    let side := if board_pos_to_x dst = 2 then QUEEN else KING
    let rook_y : Int := if player = WHITE then 0 else 7
    let rook_src_x : Int := if side = QUEEN then 0 else 7
    let rook_dst_x : Int := if side = QUEEN then 3 else 5
    let rook_src := board_pos_from_xy rook_src_x rook_y
    let rook_dst := board_pos_from_xy rook_dst_x rook_y
    let b9 := setPlayers b player (bitboard_set_square (players b player) rook_src)
    let b10 := setPieces b9 ROOK (bitboard_set_square (pieces b9 ROOK) rook_src)
    let b11 := setPlayers b10 player (bitboard_clear_square (players b10 player) rook_dst)
    setPieces b11 ROOK (bitboard_clear_square (pieces b11 ROOK) rook_dst)
  else b

/-- Embeds `board_unmake_move` (move_gen.c), assembled from the stages
above in the statement order of the C function. -/
def board_unmake_move (b : Board) (m : Nat) : Board :=
  let b1 := unmake_restore_flags b m
  let src := move_source_square m
  let dst := move_destination_square m
  let piece_dst := board_piece_on_square b1 dst
  let piece_src := if move_is_promotion m ≠ 0 then PAWN else piece_dst
  let player := board_player_to_move b1
  let opponent := cNot player
  let b2 := unmake_turn_flags b1 player
  let b6 := unmake_move_piece b2 piece_dst piece_src player src dst
  let b8 := unmake_capture b6 m opponent
  unmake_castle_rook b8 m player dst


def MOVE_GEN_MODE_NORMAL : Nat := 0

def MOVE_GEN_MODE_CASTLE_KING : Nat := 1

def MOVE_GEN_MODE_CASTLE_QUEEN : Nat := 2

def MOVE_GEN_MODE_END : Nat := 3

def MOVE_DONE_NORMAL : Nat := 1

def MOVE_DONE_CHECKMATE : Nat := 2

def MOVE_DONE_STALEMATE : Nat := 3

/-- Embeds `struct __chess_util_move_gen` (chess-util.h).  The C structure
holds a pointer to the board; the model holds the board by value and
threads updates through. -/
structure MoveGen where
  board : Board
  occupancy_for_sliders : Nat
  occupancy_for_pawns : Nat
  final_moves_mask : Nat
  cur_mode : Nat
  cur_piece_type : Int
  cur_square : Nat
  cur_promotion : Int
  cur_moves : Nat
  done : Nat
  hit_move : Nat
deriving DecidableEq, Repr

/-- Embeds `move_gen_init` (move_gen.c). -/
def move_gen_init (b : Board) : MoveGen :=
  let player := board_player_to_move b
  { board := b
    occupancy_for_sliders := board_occupancy_for_sliders_lookups b
    occupancy_for_pawns := board_occupancy_for_pawns_lookups b
    final_moves_mask := MASK64 ^^^ players b player
    cur_mode := MOVE_GEN_MODE_NORMAL
    cur_square := 0
    cur_moves := 0
    cur_promotion := KNIGHT
    cur_piece_type := 0
    done := 0
    hit_move := 0 }

/-- Embeds `move_gen_next_promote` (move_gen.c). -/
def move_gen_next_promote (g : MoveGen) : MoveGen :=
  let p := g.cur_promotion + 1
  if p > QUEEN then { g with cur_promotion := KNIGHT } else { g with cur_promotion := p }

/-- Embeds `move_gen_next_from_cur_moves` (move_gen.c): build the move for
the least significant destination bit, clearing it unless more promotions
of the same destination are pending. -/
def move_gen_next_from_cur_moves (g : MoveGen) : Nat × MoveGen :=
  let dst := bitboard_scan_lsb g.cur_moves
  let is_promote : Int :=
    if g.cur_piece_type = PAWN ∧ (dst >>> 3 = 0 ∨ dst >>> 3 = 7) then 1 else 0
  let g1 :=
    if is_promote = 0 ∨ g.cur_promotion = QUEEN then
      { g with cur_moves := bitboard_clear_square g.cur_moves dst }
    else g
  let player := board_player_to_move g1.board
  let opponent := cNot player
  let hasOpp := bitboard_check_square (players g1.board opponent) dst = 1
  let is_capture0 : Int := if hasOpp then 1 else 0
  let capture_piece0 : Int := if hasOpp then board_piece_on_square g1.board dst else 0
  let capture_pos0 : Nat := if hasOpp then dst else 0
  let ep_target := board_get_en_passant_target g1.board
  let isEp := g1.cur_piece_type = PAWN ∧ ep_target ≠ BOARD_POS_INVALID ∧ dst = ep_target
  let is_capture : Int := if isEp then 1 else is_capture0
  let capture_piece : Int := if isEp then PAWN else capture_piece0
  let capture_pos : Nat := if isEp then en_passant_target_to_pawn_pos ep_target else capture_pos0
  let res := construct_move g1.board.flags g1.cur_square dst is_promote g1.cur_promotion
    is_capture capture_piece capture_pos 0
  if is_promote ≠ 0 then (res, move_gen_next_promote g1) else (res, g1)

/-- The emptiness scan between king and rook in `move_gen_castle`
(move_gen.c): `for (x = king_x + dir; x != rook_x; x += dir)` returning
whether all strictly-between squares are unoccupied in the slider
occupancy.  At most 3 squares are visited; fuel 8 suffices. -/
def castle_between_clear : Nat → Nat → Int → Int → Int → Int → Bool
  | 0, _, _, _, _, _ => true
  | fuel + 1, occupancy, x, rook_x, dir, y =>
    if x = rook_x then true
    else if bitboard_check_square occupancy (board_pos_from_xy x y) = 1 then false
    else castle_between_clear fuel occupancy (x + dir) rook_x dir y

/-- Embeds `move_gen_castle` (move_gen.c): generate the castling move for
the side, or `MOVE_END`.  The three-square attack scan is unrolled.  When
`undo_move` is zero the move is applied to the generator's board. -/
def move_gen_castle (g : MoveGen) (player side : Int) (undo_move : Int) : Nat × MoveGen :=
  if ¬ board_can_castle g.board player side then (MOVE_END, g)
  else
    let y : Int := if player = WHITE then 0 else 7
    let dir : Int := if side = QUEEN then -1 else 1
    let king := board_pos_from_xy 4 y
    let rook := if side = QUEEN then board_pos_from_xy 0 y else board_pos_from_xy 7 y
    if ¬ castle_between_clear 8 g.occupancy_for_sliders
        ((board_pos_to_x king : Int) + dir) (board_pos_to_x rook) dir y then
      (MOVE_END, g)
    else
      let x : Int := board_pos_to_x king
      if board_is_square_attacked g.board (board_pos_from_xy x y) (cNot player) ≠ 0 ∨
         board_is_square_attacked g.board (board_pos_from_xy (x + dir) y) (cNot player) ≠ 0 ∨
         board_is_square_attacked g.board (board_pos_from_xy (x + 2 * dir) y) (cNot player) ≠ 0 then
        (MOVE_END, g)
      else
        let mv := construct_move g.board.flags king
          (board_pos_from_xy ((board_pos_to_x king : Int) + 2 * dir) y) 0 0 0 0 0 1
        if undo_move = 0 then (mv, { g with board := board_make_move g.board mv })
        else (mv, g)

/-- The `do { ... } while` square-advance loop of `move_gen_next`
(move_gen.c): step `cur_square` (wrapping into `cur_piece_type`) until a
friendly piece of the current kind is found, or all kinds are exhausted,
in which case the mode becomes CASTLE_KING.  Each step consumes fuel; the
loop runs at most `6 * 64 + 1` times. -/
def move_gen_advance : Nat → MoveGen → Nat → MoveGen
  | 0, g, _ => g
  | fuel + 1, g, player_mask =>
    let sq := g.cur_square + 1
    let g1 :=
      if sq ≥ 64 then { g with cur_square := 0, cur_piece_type := g.cur_piece_type + 1 }
      else { g with cur_square := sq }
    if g1.cur_piece_type > QUEEN then { g1 with cur_mode := MOVE_GEN_MODE_CASTLE_KING }
    else if bitboard_check_square (pieces g1.board g1.cur_piece_type &&& player_mask)
        g1.cur_square = 1 then g1
    else move_gen_advance fuel g1 player_mask

/-- Embeds `move_gen_next` (move_gen.c), the resumable legal-move state
machine.  The C function is self-recursive; recursion is by fuel, with
fuel exhaustion returning `MOVE_END` without touching the state (the fuel
argument is always chosen large enough, see `MOVE_GEN_FUEL`).
`undo_moves` nonzero rolls back the returned move before returning. -/
def move_gen_next : Nat → MoveGen → Int → Nat × MoveGen
  | 0, g, _ => (MOVE_END, g)
  | fuel + 1, g, undo_moves =>
    let player := board_player_to_move g.board
    let player_mask := players g.board player
    if g.cur_mode = MOVE_GEN_MODE_END then
      let doneVal :=
        if g.hit_move ≠ 0 then MOVE_DONE_NORMAL
        else if board_player_in_check g.board player ≠ 0 then MOVE_DONE_CHECKMATE
        else MOVE_DONE_STALEMATE
      (MOVE_END, { g with done := doneVal })
    else if g.cur_mode = MOVE_GEN_MODE_CASTLE_KING then
      let g1 := { g with cur_mode := MOVE_GEN_MODE_CASTLE_QUEEN }
      let (castle, g2) := move_gen_castle g1 player KING undo_moves
      if castle ≠ MOVE_END then (castle, { g2 with hit_move := 1 })
      else move_gen_next fuel g2 undo_moves
    else if g.cur_mode = MOVE_GEN_MODE_CASTLE_QUEEN then
      let g1 := { g with cur_mode := MOVE_GEN_MODE_END }
      let (castle, g2) := move_gen_castle g1 player QUEEN undo_moves
      if castle ≠ MOVE_END then (castle, { g2 with hit_move := 1 })
      else move_gen_next fuel g2 undo_moves
    else if g.cur_mode = MOVE_GEN_MODE_NORMAL then
      if g.cur_moves ≠ 0 then
        let (next_move, g1) := move_gen_next_from_cur_moves g
        let g2 := { g1 with board := board_make_move g1.board next_move }
        if board_player_in_check g2.board player ≠ 0 then
          move_gen_next fuel { g2 with board := board_unmake_move g2.board next_move } undo_moves
        else
          let g3 :=
            if undo_moves ≠ 0 then { g2 with board := board_unmake_move g2.board next_move }
            else g2
          (next_move, { g3 with hit_move := 1 })
      else
        let g1 := move_gen_advance 400 g player_mask
        if g1.cur_mode ≠ MOVE_GEN_MODE_NORMAL then move_gen_next fuel g1 undo_moves
        else
          let cm := move_gen_reg_moves_mask g1.occupancy_for_sliders g1.occupancy_for_pawns
            g1.cur_piece_type player g1.cur_square &&& g1.final_moves_mask
          move_gen_next fuel { g1 with cur_moves := cm } undo_moves
    else (MOVE_END, g)

/-- Fuel that strictly dominates the recursion depth of one `move_gen_next`
call from any generator state with in-range cursor fields. -/
def MOVE_GEN_FUEL : Nat := 200000

/-- Embeds `move_gen_next_move` (move_gen.c): the undo_after variant. -/
def move_gen_next_move (g : MoveGen) : Nat × MoveGen :=
  move_gen_next MOVE_GEN_FUEL g 1

/-- Embeds `move_gen_make_next_move` (move_gen.c): the keep-applied variant. -/
def move_gen_make_next_move (g : MoveGen) : Nat × MoveGen :=
  move_gen_next MOVE_GEN_FUEL g 0

/-- Embeds `move_gen_is_checkmate` (move_gen.c); calling it with `done`
still zero is a checked error (abort) in C, modelled as `none`. -/
def move_gen_is_checkmate (g : MoveGen) : Option Bool :=
  if g.done = 0 then none else some (g.done = MOVE_DONE_CHECKMATE)

/-- Embeds `move_gen_is_stalemate` (move_gen.c). -/
def move_gen_is_stalemate (g : MoveGen) : Option Bool :=
  if g.done = 0 then none else some (g.done = MOVE_DONE_STALEMATE)

/-- The `while ((move = move_gen_next_move(&gen)) != MOVE_END)` exhaustion
loop of `board_is_checkmate` / `board_is_stalemate` / `move_is_legal`
(move_gen.c), collecting the emitted moves in order.  A position has at
most a few hundred legal moves; the outer fuel of 512 is never exhausted. -/
def move_gen_run : Nat → MoveGen → List Nat × MoveGen
  | 0, g => ([], g)
  | fuel + 1, g =>
    let (mv, g1) := move_gen_next_move g
    if mv = MOVE_END then ([], g1)
    else
      let (rest, g2) := move_gen_run fuel g1
      (mv :: rest, g2)

/-- The list of moves emitted by a full run of the generator (undo_after
variant) from `move_gen_init b`. -/
def board_legal_moves (b : Board) : List Nat :=
  (move_gen_run 512 (move_gen_init b)).1

/-- Embeds `board_is_checkmate` (move_gen.c). -/
def board_is_checkmate (b : Board) : Bool :=
  (move_gen_run 512 (move_gen_init b)).2.done = MOVE_DONE_CHECKMATE

/-- Embeds `board_is_stalemate` (move_gen.c). -/
def board_is_stalemate (b : Board) : Bool :=
  (move_gen_run 512 (move_gen_init b)).2.done = MOVE_DONE_STALEMATE

/-- Embeds `moves_equal` (move_gen.c); C returns int 1/0. -/
def moves_equal (move0 move1 : Nat) : Int :=
  if (move0 &&& MOVE_FLAGS_PREV_FLAGS) ≠ (move1 &&& MOVE_FLAGS_PREV_FLAGS) then 0
  else if move_source_square move0 ≠ move_source_square move1 ∨
    move_destination_square move0 ≠ move_destination_square move1 then 0
  else if move_is_promotion move0 ≠ move_is_promotion move1 ∨
    (move_is_promotion move0 ≠ 0 ∧ move_promotion_piece move0 ≠ move_promotion_piece move1) then 0
  else if move_is_capture move0 ≠ move_is_capture move1 ∨
    (move_is_capture move0 ≠ 0 ∧
      (move_capture_piece move0 ≠ move_capture_piece move1 ∨
       move_capture_square move0 ≠ move_capture_square move1)) then 0
  else if move_is_castle move0 ≠ move_is_castle move1 then 0
  else 1

/-- Embeds `move_is_legal` (move_gen.c); C returns int 1/0. -/
def move_is_legal (move_to_check : Nat) (b : Board) : Int :=
  if move_to_check = MOVE_END then 0
  else if (board_legal_moves b).any (fun cur => moves_equal move_to_check cur = 1) then 1
  else 0

/-- Perft leaf count.  Modelled from the spec: the testable property §8.8
counts move-tree nodes to a given depth with the generator; no perft
driver is among the sources. -/
def perft : Nat → Board → Nat
  | 0, _ => 1
  | d + 1, b =>
    ((board_legal_moves b).map (fun m => perft d (board_make_move b m))).foldl (· + ·) 0

set_option maxRecDepth 1000000

/-- The standard initial position, parsed by the embedded FEN reader. -/
def startFen : List Char := ("rnbqkbnr/pppppppp/8/8/8/8/PPPPPPPP/RNBQKBNR w KQkq - 0 1").toList

def startBoard : Board := (board_from_fen_str startFen).getD ⟨0, 0, 0, 0, 0, 0, 0, 0, 0⟩

/-- FEN of spec scenario §8.6 (promotion enumeration). -/
def fenPromo : List Char := ("8/P7/8/8/8/8/8/k6K w - - 0 1").toList

def boardPromo : Board := (board_from_fen_str fenPromo).getD ⟨0, 0, 0, 0, 0, 0, 0, 0, 0⟩

/-- FEN of spec scenario §8.5 (castling with the black rook on e2). -/
def fenCastleAtk : List Char := ("r3k2r/8/8/8/8/8/4r3/R3K2R w KQkq - 0 1").toList

def boardCastleAtk : Board := (board_from_fen_str fenCastleAtk).getD ⟨0, 0, 0, 0, 0, 0, 0, 0, 0⟩

/-- FEN of spec scenario §8.3 (stalemate). -/
def fenStale : List Char := ("7k/5Q2/6K1/8/8/8/8/8 b - - 0 1").toList

def boardStale : Board := (board_from_fen_str fenStale).getD ⟨0, 0, 0, 0, 0, 0, 0, 0, 0⟩

/-- The initial position with full-turn counter 1001 (reachable from the
start position by 500 knight-shuffle cycles). -/
def fenTurn1001 : List Char :=
  ("rnbqkbnr/pppppppp/8/8/8/8/PPPPPPPP/RNBQKBNR w KQkq - 0 1001").toList

def boardTurn1001 : Board := (board_from_fen_str fenTurn1001).getD ⟨0, 0, 0, 0, 0, 0, 0, 0, 0⟩

/-- Kings on e1/e8, White still holding the queenside castling right with
no rook on a1 (the FEN parser accepts the rights verbatim); satisfies
every check of `board_invariants`. -/
def fenPhantom : List Char := ("4k3/8/8/8/8/8/8/4K3 w Q - 0 1").toList

def boardPhantom : Board := (board_from_fen_str fenPhantom).getD ⟨0, 0, 0, 0, 0, 0, 0, 0, 0⟩

/-- The queenside castle move the generator emits from `boardPhantom`. -/
def movePhantomCastle : Nat := 4398055162368

/-! Consistency of a position beyond the checks of `board_invariants`:
the well-formedness guaranteed in C by the field types, the agreement of
the color occupancies with the piece occupancies (spec §3, Position), the
placement backing of set castling rights (spec §3, invariant 5), and the
backing of an en-passant target by the pawn that just double-pushed
(spec §3 and §4.5). -/

def boardWF (b : Board) : Prop :=
  b.playersWhite < 2 ^ 64 ∧ b.playersBlack < 2 ^ 64 ∧
  b.piecesKing < 2 ^ 64 ∧ b.piecesPawn < 2 ^ 64 ∧ b.piecesKnight < 2 ^ 64 ∧
  b.piecesRook < 2 ^ 64 ∧ b.piecesBishop < 2 ^ 64 ∧ b.piecesQueen < 2 ^ 64 ∧
  b.flags < 2 ^ 32

def occUnion (b : Board) : Nat := b.playersWhite ||| b.playersBlack

def pieceUnion (b : Board) : Nat :=
  b.piecesKing ||| b.piecesPawn ||| b.piecesKnight ||| b.piecesRook |||
  b.piecesBishop ||| b.piecesQueen

def occCons (b : Board) : Prop := occUnion b = pieceUnion b

def kingHome (b : Board) (c : Int) (s : Nat) : Prop :=
  (players b c).testBit s = true ∧ b.piecesKing.testBit s = true

def rookHome (b : Board) (c : Int) (s : Nat) : Prop :=
  (players b c).testBit s = true ∧ b.piecesRook.testBit s = true

def castleCons (b : Board) : Prop :=
  (b.flags &&& BOARD_FLAGS_W_CASTLE_KING ≠ 0 → kingHome b 0 4 ∧ rookHome b 0 7) ∧
  (b.flags &&& BOARD_FLAGS_W_CASTLE_QUEEN ≠ 0 → kingHome b 0 4 ∧ rookHome b 0 0) ∧
  (b.flags &&& BOARD_FLAGS_B_CASTLE_KING ≠ 0 → kingHome b 1 60 ∧ rookHome b 1 63) ∧
  (b.flags &&& BOARD_FLAGS_B_CASTLE_QUEEN ≠ 0 → kingHome b 1 60 ∧ rookHome b 1 56)

def epCons (b : Board) : Prop :=
  b.flags &&& BOARD_FLAGS_EP_PRESENT ≠ 0 →
    (occUnion b).testBit (b.flags &&& BOARD_FLAGS_EP_SQUARE) = false ∧
    ((players b (cNot (board_player_to_move b)) &&& b.piecesPawn).testBit
      (en_passant_target_to_pawn_pos (b.flags &&& BOARD_FLAGS_EP_SQUARE)) = true)

def boardConsistent (b : Board) : Prop :=
  board_invariants_holds b ∧ boardWF b ∧ occCons b ∧ castleCons b ∧ epCons b

instance (b : Board) : Decidable (boardConsistent b) := by
  unfold boardConsistent boardWF occCons castleCons epCons kingHome rookHome
  infer_instance

def castleSideOk (b : Board) (c : Int) (rs rd dstp : Nat) : Prop :=
  (players b c).testBit rs = true ∧ b.piecesRook.testBit rs = true ∧
  (occUnion b).testBit rd = false ∧ (occUnion b).testBit dstp = false

/-- The shape of a castle move and the placement facts it relies on:
king on its home square, rook on the corresponding corner, rook
destination and king destination unoccupied. -/
def castleShape (b : Board) (m : Nat) : Prop :=
  (board_player_to_move b = 0 ∧ move_source_square m = 4 ∧
    ((move_destination_square m = 2 ∧ castleSideOk b 0 0 3 2) ∨
     (move_destination_square m = 6 ∧ castleSideOk b 0 7 5 6))) ∨
  (board_player_to_move b = 1 ∧ move_source_square m = 60 ∧
    ((move_destination_square m = 58 ∧ castleSideOk b 1 56 59 58) ∨
     (move_destination_square m = 62 ∧ castleSideOk b 1 63 61 62)))

/-- Structural facts about a move relative to the position it is made on;
every move the generator constructs (emitted or only probed) satisfies
them, and they are exactly what `board_make_move` / `board_unmake_move`
need to be mutually inverse. -/
structure MoveOk (b : Board) (m : Nat) : Prop where
  prev_flags : m % 2 ^ 16 = b.flags % 2 ^ 16
  src_ne_dst : move_source_square m ≠ move_destination_square m
  src_mine : (players b (board_player_to_move b)).testBit (move_source_square m) = true
  piece_lb : 0 ≤ board_piece_on_square b (move_source_square m)
  piece_ub : board_piece_on_square b (move_source_square m) ≤ 5
  dst_not_mine : (players b (board_player_to_move b)).testBit (move_destination_square m) = false
  promo : move_is_promotion m ≠ 0 →
    board_piece_on_square b (move_source_square m) = PAWN ∧
    2 ≤ move_promotion_piece m ∧ move_promotion_piece m ≤ 5
  no_cap : move_is_capture m = 0 →
    (players b (cNot (board_player_to_move b))).testBit (move_destination_square m) = false
  cap_main : move_is_capture m ≠ 0 →
    move_capture_square m ≠ move_source_square m ∧
    move_capture_piece m = board_piece_on_square b (move_capture_square m) ∧
    0 ≤ move_capture_piece m ∧ move_capture_piece m ≤ 5 ∧
    (players b (cNot (board_player_to_move b))).testBit (move_capture_square m) = true
  cap_ep : move_is_capture m ≠ 0 →
    (board_get_en_passant_target b ≠ BOARD_POS_INVALID ∧
        board_get_en_passant_target b = move_destination_square m →
      move_capture_square m =
        en_passant_target_to_pawn_pos (board_get_en_passant_target b) ∧
      move_capture_square m ≠ move_destination_square m ∧
      (occUnion b).testBit (move_destination_square m) = false) ∧
    (¬ (board_get_en_passant_target b ≠ BOARD_POS_INVALID ∧
        board_get_en_passant_target b = move_destination_square m) →
      move_capture_square m = move_destination_square m)
  castle : move_is_castle m ≠ 0 →
    move_is_capture m = 0 ∧ move_is_promotion m = 0 ∧
    board_piece_on_square b (move_source_square m) = KING ∧
    b.piecesKing.testBit (move_source_square m) = true ∧
    castleShape b m

/-- The capture square `board_make_move` actually clears (the en-passant
redirection applied). -/
def make_cap_square (b : Board) (m : Nat) (dst : Nat) : Nat :=
  if board_get_en_passant_target b ≠ BOARD_POS_INVALID ∧
      board_get_en_passant_target b = dst then
    en_passant_target_to_pawn_pos (board_get_en_passant_target b)
  else move_capture_square m

/-- The post-capture piece bitboards of the non-castle make path. -/
def capQ (b : Board) (m : Nat) (j : Int) : Nat :=
  if move_is_capture m ≠ 0 ∧
      j = board_piece_on_square b (make_cap_square b m (move_destination_square m)) then
    bitboard_clear_square (pieces b j) (make_cap_square b m (move_destination_square m))
  else pieces b j

/-- The state invariant of the resumable generator along the undo-after
(`undo_moves = 1`) path: the cached masks agree with the board, the cursor
fields are in range, and whenever destination bits are pending the cursor
points at a friendly piece whose destinations avoid friendly squares. -/
structure GenOk (g : MoveGen) : Prop where
  cons : boardConsistent g.board
  fmm : g.final_moves_mask = MASK64 ^^^ players g.board (board_player_to_move g.board)
  occs : g.occupancy_for_sliders = occUnion g.board
  sq64 : g.cur_square < 64
  ctlb : 0 ≤ g.cur_piece_type
  cmwf : g.cur_moves < 2 ^ 64
  plb : 2 ≤ g.cur_promotion
  pub : g.cur_promotion ≤ 5
  cur : g.cur_mode = MOVE_GEN_MODE_NORMAL → g.cur_moves ≠ 0 →
    g.cur_piece_type ≤ 5 ∧
    (pieces g.board g.cur_piece_type).testBit g.cur_square = true ∧
    (players g.board (board_player_to_move g.board)).testBit g.cur_square = true ∧
    g.cur_moves &&& players g.board (board_player_to_move g.board) = 0

/-- The kings-only position `4k3/8/8/8/8/8/8/4K3 w - - 0 1` used to
exercise the round-trip theorem on a concrete legal move. -/
def fenKings : List Char := ("4k3/8/8/8/8/8/8/4K3 w - - 0 1").toList

def boardKings : Board := (board_from_fen_str fenKings).getD ⟨0, 0, 0, 0, 0, 0, 0, 0, 0⟩

/-- C3 counterexample: from `8/P7/8/8/8/8/8/k6K w - - 0 1` the pawn's
promotion moves are emitted in the order a7a8n, a7a8r, a7a8b, a7a8q
(piece-kind index order), not in the claimed order a7a8n, a7a8b, a7a8r,
a7a8q. -/
theorem promotion_order_counterexample :
    ((board_legal_moves boardPromo).filter (fun m => move_is_promotion m ≠ 0)).map
      (fun m => String.mk (move_to_str m)) = ["a7a8n", "a7a8r", "a7a8b", "a7a8q"] ∧
    ¬ ((board_legal_moves boardPromo).filter (fun m => move_is_promotion m ≠ 0)).map
      (fun m => String.mk (move_to_str m)) = ["a7a8n", "a7a8b", "a7a8r", "a7a8q"] := by
  decide

/-- C3 as amended: from `8/P7/8/8/8/8/8/k6K w - - 0 1` the generator emits
exactly the three legal king moves followed by the four promotions of the
a7 pawn, the promotions in the order knight, rook, bishop, queen (the
piece-kind index order 2, 3, 4, 5 of `cur_promotion`). -/
theorem promotion_enumeration_actual_order :
    board_from_fen_str fenPromo = some boardPromo ∧
    (board_legal_moves boardPromo).map (fun m => String.mk (move_to_str m)) =
      ["h1g1", "h1g2", "h1h2", "a7a8n", "a7a8r", "a7a8b", "a7a8q"] ∧
    ((board_legal_moves boardPromo).filter (fun m => move_is_promotion m ≠ 0)).map
      move_promotion_piece = [2, 3, 4, 5] := by
  decide

/-- C5 counterexample: from `r3k2r/8/8/8/8/8/4r3/R3K2R w KQkq - 0 1` the
generator emits no castle at all (in particular not the claimed queenside
castle e1c1): the black rook on e2 attacks e1, so the king is in check. -/
theorem castle_in_check_counterexample :
    (board_legal_moves boardCastleAtk).map (fun m => String.mk (move_to_str m)) =
      ["e1d1", "e1f1", "e1e2"] ∧
    ((board_legal_moves boardCastleAtk).filter (fun m => move_is_castle m ≠ 0)) = [] := by
  decide

/-- C5 as amended: from `r3k2r/8/8/8/8/8/4r3/R3K2R w KQkq - 0 1` the white
king's home square e1 is attacked by the black rook on e2, so the castle
attempts fail on both sides and the only legal moves are e1d1, e1f1 and
the capture e1e2. -/
theorem castle_moves_when_king_attacked :
    board_from_fen_str fenCastleAtk = some boardCastleAtk ∧
    board_is_square_attacked boardCastleAtk (board_pos_from_xy 4 0) BLACK ≠ 0 ∧
    board_player_in_check boardCastleAtk WHITE ≠ 0 ∧
    (board_legal_moves boardCastleAtk).map (fun m => String.mk (move_to_str m)) =
      ["e1d1", "e1f1", "e1e2"] ∧
    ((board_legal_moves boardCastleAtk).filter (fun m => move_is_castle m ≠ 0)) = [] := by
  decide

/-- C6: `board_to_fen_str` ends with `snprintf(res_str, 4, "%i", turn)`,
which truncates the full-turn counter to three characters although the
output buffer is documented to have 90 bytes: the reachable position with
full-turn counter 1001 is emitted with counter 100 and does not survive
the FEN round trip. -/
theorem fen_turn_truncation :
    board_from_fen_str fenTurn1001 = some boardTurn1001 ∧
    board_invariants_holds boardTurn1001 ∧
    board_get_full_turn_number boardTurn1001 = 1001 ∧
    String.mk (board_to_fen_str boardTurn1001) =
      "rnbqkbnr/pppppppp/8/8/8/8/PPPPPPPP/RNBQKBNR w KQkq - 0 100" ∧
    (board_from_fen_str (board_to_fen_str boardTurn1001)).map board_get_full_turn_number =
      some 100 ∧
    board_from_fen_str (board_to_fen_str boardTurn1001) ≠ some boardTurn1001 := by
  decide

/-- C1 counterexample: `boardPhantom` passes every check of
`board_invariants` (which does not tie castling rights to rook placement),
the generator emits the queenside castle `movePhantomCastle` as a legal
move, and making then unmaking it materializes a rook on a1: the round
trip is not bit-for-bit. -/
theorem make_unmake_phantom_castle_counterexample :
    board_from_fen_str fenPhantom = some boardPhantom ∧
    board_invariants_holds boardPhantom ∧
    move_is_legal movePhantomCastle boardPhantom = 1 ∧
    board_unmake_move (board_make_move boardPhantom movePhantomCastle) movePhantomCastle ≠
      boardPhantom := by
  decide

/-- C10: `move_new` returns MOVE_END instead of constructing a move whose
destination holds a piece of the player to move (a self-capture); this
guard is not mentioned in the spec. -/
theorem move_new_rejects_self_capture (b : Board) (src dst : Nat) (is_promote promote_piece : Int)
    (_hsrc : src < 64) (_hdst : dst < 64)
    (hpiece : board_piece_on_square b dst ≠ -1)
    (hown : board_player_on_square b dst = board_player_to_move b) :
    move_new src dst is_promote promote_piece b = MOVE_END := by
  unfold move_new
  rw [if_pos ⟨hpiece, hown⟩]

/-- Witness for `move_new_rejects_self_capture`: on the initial position,
a1a2 targets White's own pawn and is rejected. -/
theorem move_new_rejects_self_capture_witness :
    move_new 0 8 0 0 startBoard = MOVE_END :=
  move_new_rejects_self_capture startBoard 0 8 0 0 (by decide) (by decide) (by decide) (by decide)

/-- Example END-mode generator state used by the C9 witness. -/
def genEndExample : MoveGen := { move_gen_init boardStale with cur_mode := MOVE_GEN_MODE_END }

/-- C9: once the generator reaches END mode, a call classifies the position
(NORMAL if some legal move was emitted, else CHECKMATE exactly when the
side to move is in check and STALEMATE otherwise) and returns MOVE_END;
and the stalemate position `7k/5Q2/6K1/8/8/8/8/8 b - - 0 1` yields no
legal moves and is reported as stalemate, not checkmate. -/
theorem move_gen_end_classification :
    (∀ (g : MoveGen) (u : Int) (f : Nat), g.cur_mode = MOVE_GEN_MODE_END →
      move_gen_next (f + 1) g u =
        (MOVE_END, { g with done :=
          if g.hit_move ≠ 0 then MOVE_DONE_NORMAL
          else if board_player_in_check g.board (board_player_to_move g.board) ≠ 0 then
            MOVE_DONE_CHECKMATE
          else MOVE_DONE_STALEMATE })) ∧
    board_from_fen_str fenStale = some boardStale ∧
    board_legal_moves boardStale = [] ∧
    board_player_in_check boardStale BLACK = 0 ∧
    board_is_stalemate boardStale = true ∧
    board_is_checkmate boardStale = false := by
  refine ⟨?_, by decide, by decide, by decide, by decide, by decide⟩
  intro g u f h
  simp only [move_gen_next, h, MOVE_GEN_MODE_END, if_pos]

/-- Witness for `move_gen_end_classification`: its universal part applied
to a concrete END-mode state with no move emitted and the stalemate board
underneath. -/
theorem move_gen_end_classification_witness :
    (move_gen_next 1 genEndExample 1).1 = MOVE_END ∧
    (move_gen_next 1 genEndExample 1).2.done = MOVE_DONE_STALEMATE := by
  rw [move_gen_end_classification.1 genEndExample 1 0 (by decide)]
  exact ⟨rfl, by decide⟩

/-- C4 counterexample: `move_from_str` performs no validation of its own.
The malformed string a1a9 makes it abort in `board_pos_from_str` (`none`),
not return MOVE_END; the well-formed string a1a3, illegal for the initial
position, is returned as a constructed move, not MOVE_END; and the
malformed promotion letter p (never produced by `move_str_is_wellformed`)
is accepted as a pawn promotion. -/
theorem move_from_str_counterexample :
    move_str_is_wellformed (("a1a9").toList) = 0 ∧
    move_from_str (("a1a9").toList) startBoard = none ∧
    move_str_is_wellformed (("a1a3").toList) = 1 ∧
    move_from_str (("a1a3").toList) startBoard = some 4393281785600 ∧
    (4393281785600 : Nat) ≠ MOVE_END ∧
    move_is_legal 4393281785600 startBoard = 0 ∧
    move_str_is_wellformed (("e7e8p").toList) = 0 ∧
    move_from_str (("e7e8p").toList) startBoard = some 4128523947776 ∧
    (4128523947776 : Nat) ≠ MOVE_END := by
  decide

/-- C4 as amended: `move_from_str` checks nothing but the promotion
letter.  On a string whose four square characters are well-formed it
returns `move_new` of the parsed squares — with no legality check — for
any length-4 string and for any fifth character that is one of the six
piece letters (k and p included); a fifth character outside the piece
letters yields MOVE_END.  (Strings whose square characters are malformed
abort in `board_pos_from_str`; see the counterexample.) -/
theorem move_from_str_behavior (b : Board) (c0 c1 c2 c3 c4 : Char)
    (h0 : file_wellformed c0 = true) (h1 : rank_wellformed c1 = true)
    (h2 : file_wellformed c2 = true) (h3 : rank_wellformed c3 = true) :
    ∃ src dst, board_pos_from_str [c0, c1] = some src ∧
      board_pos_from_str [c2, c3] = some dst ∧
      move_from_str [c0, c1, c2, c3] b = some (move_new src dst 0 (-1) b) ∧
      (∀ p : Fin 6, promote_codes p.val = c4 →
        move_from_str [c0, c1, c2, c3, c4] b = some (move_new src dst 1 p.val b)) ∧
      ((∀ p : Fin 6, promote_codes p.val ≠ c4) → c4 ≠ '\x00' →
        move_from_str [c0, c1, c2, c3, c4] b = some MOVE_END) := by
  simp only [file_wellformed, rank_wellformed, decide_eq_true_eq] at h0 h1 h2 h3
  have hpos : ∀ ca cb : Char,
      (('a' ≤ ca ∧ ca ≤ 'h') ∨ ('A' ≤ ca ∧ ca ≤ 'H')) → ('1' ≤ cb ∧ cb ≤ '8') →
      ∃ n, board_pos_from_str [ca, cb] = some n := by
    intro ca cb hca hcb
    simp only [board_pos_from_str]
    rcases hca with hca | hca
    · rw [if_pos hca, if_pos hcb]
      exact ⟨_, rfl⟩
    · have hno : ¬ ('a' ≤ ca ∧ ca ≤ 'h') := by
        rintro ⟨hle, _⟩
        exact absurd (le_trans hle hca.2) (by decide)
      rw [if_neg hno, if_pos hca, if_pos hcb]
      exact ⟨_, rfl⟩
    
  obtain ⟨src, hs⟩ := hpos c0 c1 h0 h1
  obtain ⟨dst, hd⟩ := hpos c2 c3 h2 h3
  refine ⟨src, dst, hs, hd, ?_, ?_, ?_⟩
  · simp only [move_from_str, List.getD, List.getElem?_cons_zero, List.getElem?_cons_succ,
      List.getElem?_nil, Option.getD_some, Option.getD_none, hs, hd]
    simp [hs, hd]
  · intro p hp
    subst hp
    fin_cases p <;>
      simp only [move_from_str, List.getD, List.getElem?_cons_zero, List.getElem?_cons_succ,
        List.getElem?_nil, Option.getD_some, Option.getD_none, hs, hd] <;>
      simp [promote_codes, hs, hd]
  · intro hnone hnul
    have h5 : promote_codes 5 ≠ c4 := hnone ⟨5, by decide⟩
    have h4 : promote_codes 4 ≠ c4 := hnone ⟨4, by decide⟩
    have h3x : promote_codes 3 ≠ c4 := hnone ⟨3, by decide⟩
    have h2x : promote_codes 2 ≠ c4 := hnone ⟨2, by decide⟩
    have h1x : promote_codes 1 ≠ c4 := hnone ⟨1, by decide⟩
    have h0x : promote_codes 0 ≠ c4 := hnone ⟨0, by decide⟩
    simp only [move_from_str, List.getD, List.getElem?_cons_zero, List.getElem?_cons_succ,
      List.getElem?_nil, Option.getD_some, Option.getD_none]
    simp [h5, h4, h3x, h2x, h1x, h0x, hnul]

/-- Witness for `move_from_str_behavior`: the string a1a3 on the initial
position. -/
theorem move_from_str_behavior_witness :
    ∃ src dst, board_pos_from_str [('a'), ('1')] = some src ∧
      board_pos_from_str [('a'), ('3')] = some dst ∧
      move_from_str [('a'), ('1'), ('a'), ('3')] startBoard =
        some (move_new src dst 0 (-1) startBoard) ∧
      (∀ p : Fin 6, promote_codes p.val = 'q' →
        move_from_str [('a'), ('1'), ('a'), ('3'), ('q')] startBoard =
          some (move_new src dst 1 p.val startBoard)) ∧
      ((∀ p : Fin 6, promote_codes p.val ≠ 'q') → ('q') ≠ '\x00' →
        move_from_str [('a'), ('1'), ('a'), ('3'), ('q')] startBoard = some MOVE_END) :=
  move_from_str_behavior startBoard 'a' '1' 'a' '3' 'q'
    (by decide) (by decide) (by decide) (by decide)

/-! Bit-level toolbox for the board bitboards. -/

theorem check_square_eq_testBit (b s : Nat) :
    bitboard_check_square b s = if b.testBit s then 1 else 0 := by
  unfold bitboard_check_square
  rw [Nat.and_one_is_mod, Nat.shiftRight_eq_div_pow, Nat.testBit_to_div_mod]
  rcases Nat.mod_two_eq_zero_or_one (b / 2 ^ s) with h | h <;> simp [h]

theorem check_square_one_iff (b s : Nat) : bitboard_check_square b s = 1 ↔ b.testBit s = true := by
  rw [check_square_eq_testBit]
  rcases h : b.testBit s <;> simp [h]

theorem check_square_zero_iff (b s : Nat) :
    bitboard_check_square b s = 0 ↔ b.testBit s = false := by
  rw [check_square_eq_testBit]
  rcases h : b.testBit s <;> simp [h]

theorem one_shiftLeft_eq_two_pow (s : Nat) : (1 <<< s) = 2 ^ s := by
  rw [Nat.shiftLeft_eq, one_mul]

theorem testBit_set_square (b s i : Nat) :
    (bitboard_set_square b s).testBit i = (b.testBit i || i = s) := by
  unfold bitboard_set_square
  rw [Nat.testBit_lor, one_shiftLeft_eq_two_pow]
  by_cases h : s = i
  · subst h
    simp [Nat.testBit_two_pow_self]
  · simp [Nat.testBit_two_pow_of_ne h, Ne.symm h]

theorem MASK64_testBit (i : Nat) : MASK64.testBit i = decide (i < 64) := by
  have : MASK64 = 2 ^ 64 - 1 := by decide
  rw [this, Nat.testBit_two_pow_sub_one]

theorem testBit_clear_square (b s i : Nat) (hs : s < 64) :
    (bitboard_clear_square b s).testBit i = (b.testBit i && !(i = s) && decide (i < 64)) := by
  unfold bitboard_clear_square
  rw [Nat.testBit_land, Nat.testBit_xor, MASK64_testBit, one_shiftLeft_eq_two_pow]
  by_cases h : s = i
  · subst h
    simp [Nat.testBit_two_pow_self, hs]
  · rcases Nat.lt_or_ge i 64 with hi | hi <;>
      simp [Nat.testBit_two_pow_of_ne h, Ne.symm h, hi, Nat.not_lt.mpr, *]

/-- Any bitboard below `2 ^ 64` has no set bits at positions 64 and above. -/
theorem testBit_eq_false_of_wf {b : Nat} (hb : b < 2 ^ 64) {i : Nat} (hi : 64 ≤ i) :
    b.testBit i = false :=
  Nat.testBit_eq_false_of_lt (lt_of_lt_of_le hb (Nat.pow_le_pow_right (by omega) hi))

theorem set_square_lt (b s : Nat) (hb : b < 2 ^ 64) (hs : s < 64) :
    bitboard_set_square b s < 2 ^ 64 := by
  unfold bitboard_set_square
  exact Nat.or_lt_two_pow hb (by rw [one_shiftLeft_eq_two_pow]; exact Nat.pow_lt_pow_right (by omega) hs)

theorem clear_square_le (b s : Nat) : bitboard_clear_square b s ≤ b := Nat.and_le_left

theorem clear_square_lt (b s : Nat) (hb : b < 2 ^ 64) :
    bitboard_clear_square b s < 2 ^ 64 := lt_of_le_of_lt (clear_square_le b s) hb

theorem shiftRight_and_distrib (a b n : Nat) : (a &&& b) >>> n = (a >>> n) &&& (b >>> n) := by
  apply Nat.eq_of_testBit_eq
  intro i
  simp [Nat.testBit_shiftRight, Nat.testBit_land]

theorem shiftLeft_and_distrib (a b n : Nat) : (a &&& b) <<< n = (a <<< n) &&& (b <<< n) := by
  apply Nat.eq_of_testBit_eq
  intro i
  simp only [Nat.testBit_shiftLeft, Nat.testBit_land]
  rcases Nat.decLe n i with h | h <;> simp [h]

theorem and_mask_aligned (s : Nat) (w n : Nat) (hs : s < 2 ^ w) :
    (s <<< n) &&& ((2 ^ w - 1) <<< n) = s <<< n := by
  rw [← shiftLeft_and_distrib, Nat.and_pow_two_sub_one_eq_mod, Nat.mod_eq_of_lt hs]

/-- The linear (place-value) form of `construct_move` under the bounds that
hold at every generator call site. -/
theorem construct_move_linear (f s d : Nat) (ip pp ic cp : Int) (cpos : Nat) (icas : Int)
    (hs : s < 64) (hd : d < 64) (hpp : 0 ≤ pp) (hpp2 : pp < 8) (hcp : 0 ≤ cp) (hcp2 : cp < 8)
    (hcpos : cpos < 64) :
    construct_move f s d ip pp ic cp cpos icas =
      f % 65536 + s * 65536 + d * 4194304 +
      (if ip ≠ 0 then 268435456 else 0) + pp.toNat * 536870912 +
      (if ic ≠ 0 then 4294967296 else 0) + cp.toNat * 8589934592 +
      cpos * 68719476736 + (if icas ≠ 0 then 4398046511104 else 0) := by
  unfold construct_move
  have hppn : u64ofInt pp = pp.toNat := by
    unfold u64ofInt
    rw [Int.emod_eq_of_lt hpp (by omega)]
  have hcpn : u64ofInt cp = cp.toNat := by
    unfold u64ofInt
    rw [Int.emod_eq_of_lt hcp (by omega)]
  rw [hppn, hcpn]
  have e1 : f &&& MOVE_FLAGS_PREV_FLAGS = f % 65536 := by
    have : MOVE_FLAGS_PREV_FLAGS = 2 ^ 16 - 1 := by decide
    rw [this, Nat.and_pow_two_sub_one_eq_mod]
  have e2 : (s <<< MOVE_SHIFT_SRC) &&& MOVE_FLAGS_SRC = s * 65536 := by
    have h := and_mask_aligned s 6 16 (by omega)
    simp only [MOVE_SHIFT_SRC, MOVE_FLAGS_SRC]
    rw [show (0x3f0000 : Nat) = (2 ^ 6 - 1) <<< 16 by decide]
    rw [h, Nat.shiftLeft_eq]
  have e3 : (d <<< MOVE_SHIFT_DST) &&& MOVE_FLAGS_DST = d * 4194304 := by
    have h := and_mask_aligned d 6 22 (by omega)
    simp only [MOVE_SHIFT_DST, MOVE_FLAGS_DST]
    rw [show (0xfc00000 : Nat) = (2 ^ 6 - 1) <<< 22 by decide]
    rw [h, Nat.shiftLeft_eq]
  have e4 : (pp.toNat <<< MOVE_SHIFT_PROMOTE_PIECE) &&& MOVE_FLAGS_PROMOTE_PIECE =
      pp.toNat * 536870912 := by
    have h := and_mask_aligned pp.toNat 3 29 (by omega)
    simp only [MOVE_SHIFT_PROMOTE_PIECE, MOVE_FLAGS_PROMOTE_PIECE]
    rw [show (0xe0000000 : Nat) = (2 ^ 3 - 1) <<< 29 by decide]
    rw [h, Nat.shiftLeft_eq]
  have e5 : (cp.toNat <<< MOVE_SHIFT_CAPTURE_PIECE) &&& MOVE_FLAGS_CAPTURE_PIECE =
      cp.toNat * 8589934592 := by
    have h := and_mask_aligned cp.toNat 3 33 (by omega)
    simp only [MOVE_SHIFT_CAPTURE_PIECE, MOVE_FLAGS_CAPTURE_PIECE]
    rw [show (0xe00000000 : Nat) = (2 ^ 3 - 1) <<< 33 by decide]
    rw [h, Nat.shiftLeft_eq]
  have e6 : (cpos <<< MOVE_SHIFT_CAPTURE_SQUARE) &&& MOVE_FLAGS_CAPTURE_SQUARE =
      cpos * 68719476736 := by
    have h := and_mask_aligned cpos 6 36 (by omega)
    simp only [MOVE_SHIFT_CAPTURE_SQUARE, MOVE_FLAGS_CAPTURE_SQUARE]
    rw [show (0x3f000000000 : Nat) = (2 ^ 6 - 1) <<< 36 by decide]
    rw [h, Nat.shiftLeft_eq]
  rw [e1, e2, e3, e4, e5, e6]
  rcases Decidable.em (ip ≠ 0) with hip | hip <;> rcases Decidable.em (ic ≠ 0) with hic | hic <;>
    rcases Decidable.em (icas ≠ 0) with hicas | hicas <;>
    simp [hip, hic, hicas, Nat.shiftLeft_eq, MOVE_SHIFT_IS_PROMOTE, MOVE_SHIFT_IS_CAPTURE,
      MOVE_SHIFTS_IS_CASTLE, MOVE_FLAGS_IS_CASTLE]

theorem extract_field (X lo w : Nat) : (X &&& ((2 ^ w - 1) <<< lo)) >>> lo = X / 2 ^ lo % 2 ^ w := by
  rw [shiftRight_and_distrib, Nat.shiftRight_eq_div_pow,
    show ((2 ^ w - 1) <<< lo) >>> lo = 2 ^ w - 1 by
      rw [Nat.shiftLeft_eq, Nat.shiftRight_eq_div_pow, Nat.mul_comm,
        Nat.mul_div_cancel_left _ (by positivity)],
    Nat.and_pow_two_sub_one_eq_mod]

theorem and_two_pow_ne_zero_iff (m i : Nat) : m &&& 2 ^ i ≠ 0 ↔ m / 2 ^ i % 2 = 1 := by
  have ht : m.testBit i = decide (m / 2 ^ i % 2 = 1) := Nat.testBit_to_div_mod
  rw [Nat.and_two_pow]
  rcases h : m.testBit i
  · rw [h] at ht
    simp only [h, Bool.toNat_false, Nat.zero_mul, ne_eq, not_true_eq_false, false_iff]
    intro hc
    rw [hc] at ht
    simp at ht
  · rw [h] at ht
    simp only [h, Bool.toNat_true, Nat.one_mul, ne_eq]
    have hp : (2 : Nat) ^ i ≠ 0 := by positivity
    simp only [hp, not_false_eq_true, true_iff]
    exact of_decide_eq_true ht.symm

theorem msrc_eq (m : Nat) : move_source_square m = m / 2 ^ 16 % 2 ^ 6 := by
  unfold move_source_square
  rw [show MOVE_FLAGS_SRC = (2 ^ 6 - 1) <<< 16 by decide, show MOVE_SHIFT_SRC = 16 by rfl,
    extract_field]

theorem mdst_eq (m : Nat) : move_destination_square m = m / 2 ^ 22 % 2 ^ 6 := by
  unfold move_destination_square
  rw [show MOVE_FLAGS_DST = (2 ^ 6 - 1) <<< 22 by decide, show MOVE_SHIFT_DST = 22 by rfl,
    extract_field]

theorem mprev_eq (m : Nat) : m &&& MOVE_FLAGS_PREV_FLAGS = m % 2 ^ 16 := by
  rw [show MOVE_FLAGS_PREV_FLAGS = 2 ^ 16 - 1 by decide, Nat.and_pow_two_sub_one_eq_mod]

theorem mispromo_eq (m : Nat) : move_is_promotion m = if m / 2 ^ 28 % 2 = 1 then 1 else 0 := by
  unfold move_is_promotion
  rw [show MOVE_FLAGS_IS_PROMOTE = 2 ^ 28 by decide]
  rcases Decidable.em (m &&& 2 ^ 28 ≠ 0) with h | h
  · rw [if_pos h, if_pos ((and_two_pow_ne_zero_iff m 28).mp h)]
  · rw [if_neg h, if_neg (fun hc => h ((and_two_pow_ne_zero_iff m 28).mpr hc))]

theorem mpromopiece_eq (m : Nat) :
    move_promotion_piece m =
      if m / 2 ^ 28 % 2 = 1 then ((m / 2 ^ 29 % 2 ^ 3 : Nat) : Int) else -1 := by
  unfold move_promotion_piece
  rw [mispromo_eq]
  rcases Decidable.em (m / 2 ^ 28 % 2 = 1) with h | h
  · rw [if_pos h, if_pos h, if_neg (by simp [h]),
      show MOVE_FLAGS_PROMOTE_PIECE = (2 ^ 3 - 1) <<< 29 by decide,
      show MOVE_SHIFT_PROMOTE_PIECE = 29 by rfl, extract_field]
  · rw [if_neg h, if_neg h, if_pos (by simp [h])]

theorem miscap_eq (m : Nat) : move_is_capture m = if m / 2 ^ 32 % 2 = 1 then 1 else 0 := by
  unfold move_is_capture
  rw [show MOVE_FLAGS_IS_CAPTURE = 2 ^ 32 by decide]
  rcases Decidable.em (m &&& 2 ^ 32 ≠ 0) with h | h
  · rw [if_pos h, if_pos ((and_two_pow_ne_zero_iff m 32).mp h)]
  · rw [if_neg h, if_neg (fun hc => h ((and_two_pow_ne_zero_iff m 32).mpr hc))]

theorem mcappiece_eq (m : Nat) :
    move_capture_piece m =
      if m / 2 ^ 32 % 2 = 1 then ((m / 2 ^ 33 % 2 ^ 3 : Nat) : Int) else -1 := by
  unfold move_capture_piece
  rw [miscap_eq]
  rcases Decidable.em (m / 2 ^ 32 % 2 = 1) with h | h
  · rw [if_pos h, if_pos h, if_neg (by simp [h]),
      show MOVE_FLAGS_CAPTURE_PIECE = (2 ^ 3 - 1) <<< 33 by decide,
      show MOVE_SHIFT_CAPTURE_PIECE = 33 by rfl, extract_field]
  · rw [if_neg h, if_neg h, if_pos (by simp [h])]

theorem mcapsq_eq (m : Nat) :
    move_capture_square m =
      if m / 2 ^ 32 % 2 = 1 then m / 2 ^ 36 % 2 ^ 6 else BOARD_POS_INVALID := by
  unfold move_capture_square
  rw [miscap_eq]
  rcases Decidable.em (m / 2 ^ 32 % 2 = 1) with h | h
  · rw [if_pos h, if_pos h, if_neg (by simp [h]),
      show MOVE_FLAGS_CAPTURE_SQUARE = (2 ^ 6 - 1) <<< 36 by decide,
      show MOVE_SHIFT_CAPTURE_SQUARE = 36 by rfl, extract_field]
  · rw [if_neg h, if_neg h, if_pos (by simp [h])]

theorem miscastle_eq (m : Nat) : move_is_castle m = ((m / 2 ^ 42 % 2 : Nat) : Int) := by
  unfold move_is_castle
  rw [show MOVE_FLAGS_IS_CASTLE = (2 ^ 1 - 1) <<< 42 by decide,
    show MOVE_SHIFTS_IS_CASTLE = 42 by rfl, extract_field]
  norm_num

theorem move_source_square_lt (m : Nat) : move_source_square m < 64 := by
  rw [msrc_eq]
  have := Nat.mod_lt (m / 2 ^ 16) (y := 2 ^ 6) (by norm_num)
  omega

theorem move_destination_square_lt (m : Nat) : move_destination_square m < 64 := by
  rw [mdst_eq]
  have := Nat.mod_lt (m / 2 ^ 22) (y := 2 ^ 6) (by norm_num)
  omega

/-! Algebra of the `players` / `pieces` array reads and writes. -/

theorem flags_setPieces (b : Board) (i : Int) (v : Nat) : (setPieces b i v).flags = b.flags := by
  unfold setPieces
  split_ifs <;> rfl

theorem flags_setPlayers (b : Board) (p : Int) (v : Nat) : (setPlayers b p v).flags = b.flags := by
  unfold setPlayers
  split_ifs <;> rfl

theorem players_setPieces (b : Board) (i : Int) (v : Nat) (p : Int) :
    players (setPieces b i v) p = players b p := by
  unfold setPieces players
  split_ifs <;> rfl

theorem pieces_setPlayers (b : Board) (p : Int) (v : Nat) (i : Int) :
    pieces (setPlayers b p v) i = pieces b i := by
  unfold setPlayers pieces
  split_ifs <;> rfl

theorem players_setPlayers (b : Board) (p q : Int) (v : Nat) (hp : 0 ≤ p) (hp2 : p ≤ 1)
    (hq : 0 ≤ q) (hq2 : q ≤ 1) :
    players (setPlayers b p v) q = if q = p then v else players b q := by
  unfold setPlayers players
  interval_cases p <;> interval_cases q <;> simp

theorem pieces_setPieces (b : Board) (i j : Int) (v : Nat) (hi : 0 ≤ i) (hi2 : i ≤ 5)
    (hj : 0 ≤ j) (hj2 : j ≤ 5) :
    pieces (setPieces b i v) j = if j = i then v else pieces b j := by
  unfold setPieces pieces
  interval_cases i <;> interval_cases j <;> simp

theorem playersWhite_eq (b : Board) : b.playersWhite = players b 0 := rfl

theorem playersBlack_eq (b : Board) : b.playersBlack = players b 1 := by
  unfold players
  norm_num

theorem piecesKing_eq (b : Board) : b.piecesKing = pieces b 0 := rfl

theorem piecesPawn_eq (b : Board) : b.piecesPawn = pieces b 1 := by unfold pieces; norm_num

theorem piecesKnight_eq (b : Board) : b.piecesKnight = pieces b 2 := by unfold pieces; norm_num

theorem piecesRook_eq (b : Board) : b.piecesRook = pieces b 3 := by unfold pieces; norm_num

theorem piecesBishop_eq (b : Board) : b.piecesBishop = pieces b 4 := by unfold pieces; norm_num

theorem piecesQueen_eq (b : Board) : b.piecesQueen = pieces b 5 := by unfold pieces; norm_num

theorem board_eq_of_parts (b1 b2 : Board) (hpl : ∀ p : Int, 0 ≤ p → p ≤ 1 → players b1 p = players b2 p)
    (hpc : ∀ i : Int, 0 ≤ i → i ≤ 5 → pieces b1 i = pieces b2 i) (hf : b1.flags = b2.flags) :
    b1 = b2 := by
  cases b1
  cases b2
  simp only [Board.mk.injEq]
  refine ⟨?_, ?_, ?_, ?_, ?_, ?_, ?_, ?_, hf⟩
  · exact hpl 0 (by omega) (by omega)
  · have := hpl 1 (by omega) (by omega)
    simpa [players] using this
  · exact hpc 0 (by omega) (by omega)
  · have := hpc 1 (by omega) (by omega)
    simpa [pieces] using this
  · have := hpc 2 (by omega) (by omega)
    simpa [pieces] using this
  · have := hpc 3 (by omega) (by omega)
    simpa [pieces] using this
  · have := hpc 4 (by omega) (by omega)
    simpa [pieces] using this
  · have := hpc 5 (by omega) (by omega)
    simpa [pieces] using this

theorem player_to_move_mem (b : Board) :
    board_player_to_move b = 0 ∨ board_player_to_move b = 1 := by
  unfold board_player_to_move
  split_ifs <;> simp

theorem cNot_mem (p : Int) : cNot p = 0 ∨ cNot p = 1 := by
  unfold cNot
  split_ifs <;> simp

theorem players_wf (b : Board) (hwf : boardWF b) (p : Int) : players b p < 2 ^ 64 := by
  unfold players
  split_ifs
  · exact hwf.1
  · exact hwf.2.1

theorem pieces_wf (b : Board) (hwf : boardWF b) (i : Int) : pieces b i < 2 ^ 64 := by
  obtain ⟨h1, h2, h3, h4, h5, h6, h7, h8, h9⟩ := hwf
  unfold pieces
  split_ifs <;> assumption

/-- Disjoint bitboards have no common set bit. -/
theorem testBit_false_of_disjoint {x y : Nat} (h : x &&& y = 0) {i : Nat}
    (hx : x.testBit i = true) : y.testBit i = false := by
  rcases hy : y.testBit i
  · rfl
  · have := Nat.testBit_land x y i
    rw [h, hx, hy] at this
    simp at this

theorem testBit_lor_union (x y i : Nat) : (x ||| y).testBit i = (x.testBit i || y.testBit i) :=
  Nat.testBit_lor x y i

theorem pieces_disjoint (b : Board) (hinv : board_invariants_holds b) (i j : Int)
    (hi : 0 ≤ i) (hi2 : i ≤ 5) (hj : 0 ≤ j) (hj2 : j ≤ 5) (hij : i ≠ j) :
    pieces b i &&& pieces b j = 0 := by
  obtain ⟨-, hd, -⟩ := hinv
  have h := hd ⟨i.toNat, by omega⟩ ⟨j.toNat, by omega⟩ (by
    intro hc
    apply hij
    have hv := congrArg Fin.val hc
    simp only [] at hv
    omega)
  simp only [Int.toNat_of_nonneg hi, Int.toNat_of_nonneg hj] at h
  exact h

theorem players_disjoint (b : Board) (hinv : board_invariants_holds b) :
    b.playersWhite &&& b.playersBlack = 0 := hinv.1

/-- If some piece bitboard has a square set, `board_piece_on_square` finds
exactly that piece kind (the piece bitboards being pairwise disjoint). -/
theorem piece_on_square_of_testBit (b : Board) (hinv : board_invariants_holds b) (i : Int)
    (s : Nat) (hi : 0 ≤ i) (hi2 : i ≤ 5) (hbit : (pieces b i).testBit s = true) :
    board_piece_on_square b s = i := by
  have hother : ∀ j : Int, 0 ≤ j → j ≤ 5 → j ≠ i → (pieces b j).testBit s = false := by
    intro j hj hj2 hji
    exact testBit_false_of_disjoint (pieces_disjoint b hinv i j hi hi2 hj hj2 (Ne.symm hji)) hbit
  unfold board_piece_on_square
  interval_cases i <;>
    simp_all [check_square_one_iff, check_square_zero_iff, piecesKing_eq, piecesPawn_eq,
      piecesKnight_eq, piecesRook_eq, piecesBishop_eq, piecesQueen_eq]

theorem pieceUnion_testBit_false (b : Board) (s : Nat) (h : (pieceUnion b).testBit s = false)
    (i : Int) (hi : 0 ≤ i) (hi2 : i ≤ 5) : (pieces b i).testBit s = false := by
  unfold pieceUnion at h
  simp only [Nat.testBit_lor, Bool.or_eq_false_iff] at h
  interval_cases i <;>
    simp_all [piecesKing_eq, piecesPawn_eq, piecesKnight_eq, piecesRook_eq,
      piecesBishop_eq, piecesQueen_eq]

theorem pieceUnion_testBit_true (b : Board) (s : Nat) (i : Int) (hi : 0 ≤ i) (hi2 : i ≤ 5)
    (h : (pieces b i).testBit s = true) : (pieceUnion b).testBit s = true := by
  unfold pieceUnion
  simp only [Nat.testBit_lor, Bool.or_eq_true]
  interval_cases i <;>
    simp_all [piecesKing_eq, piecesPawn_eq, piecesKnight_eq, piecesRook_eq,
      piecesBishop_eq, piecesQueen_eq]

theorem piece_on_square_eq_neg_one (b : Board) (s : Nat)
    (h : (pieceUnion b).testBit s = false) : board_piece_on_square b s = -1 := by
  unfold board_piece_on_square
  have h0 := pieceUnion_testBit_false b s h 0 (by omega) (by omega)
  have h1 := pieceUnion_testBit_false b s h 1 (by omega) (by omega)
  have h2 := pieceUnion_testBit_false b s h 2 (by omega) (by omega)
  have h3 := pieceUnion_testBit_false b s h 3 (by omega) (by omega)
  have h4 := pieceUnion_testBit_false b s h 4 (by omega) (by omega)
  have h5 := pieceUnion_testBit_false b s h 5 (by omega) (by omega)
  simp_all [check_square_one_iff, check_square_zero_iff, piecesKing_eq, piecesPawn_eq,
    piecesKnight_eq, piecesRook_eq, piecesBishop_eq, piecesQueen_eq]

theorem occUnion_testBit_false (b : Board) (s : Nat) (h : (occUnion b).testBit s = false) :
    b.playersWhite.testBit s = false ∧ b.playersBlack.testBit s = false := by
  unfold occUnion at h
  simp only [Nat.testBit_lor, Bool.or_eq_false_iff] at h
  exact h

theorem players_testBit_false_of_occ (b : Board) (s : Nat)
    (h : (occUnion b).testBit s = false) (p : Int) : (players b p).testBit s = false := by
  obtain ⟨hw, hb⟩ := occUnion_testBit_false b s h
  unfold players
  split_ifs <;> assumption

theorem player_on_square_of_testBit (b : Board) (hinv : board_invariants_holds b) (p : Int)
    (s : Nat) (hp : p = 0 ∨ p = 1) (hbit : (players b p).testBit s = true) :
    board_player_on_square b s = p := by
  unfold board_player_on_square
  rcases hp with hp | hp <;> subst hp
  · simp_all [check_square_one_iff, players]
  · have hw : b.playersWhite.testBit s = false := by
      refine testBit_false_of_disjoint ?_ (x := b.playersBlack) ?_
      · rw [Nat.land_comm]
        exact players_disjoint b hinv
      · simpa [players] using hbit
    simp_all [check_square_one_iff, check_square_zero_iff, players]

theorem player_on_square_eq_neg_one (b : Board) (s : Nat)
    (h : (occUnion b).testBit s = false) : board_player_on_square b s = -1 := by
  obtain ⟨hw, hb⟩ := occUnion_testBit_false b s h
  unfold board_player_on_square
  simp_all [check_square_one_iff, check_square_zero_iff]

theorem testBit_of_piece_on_square (b : Board) (s : Nat) (i : Int)
    (h : board_piece_on_square b s = i) (hi : 0 ≤ i) : (pieces b i).testBit s = true := by
  unfold board_piece_on_square at h
  split_ifs at h with h0 h1 h2 h3 h4 h5
  · rw [← h, ← piecesKing_eq, ← check_square_one_iff]
    exact h0
  · rw [← h, show pieces b 1 = b.piecesPawn from (piecesPawn_eq b).symm, ← check_square_one_iff]
    exact h1
  · rw [← h, show pieces b 2 = b.piecesKnight from (piecesKnight_eq b).symm, ← check_square_one_iff]
    exact h2
  · rw [← h, show pieces b 3 = b.piecesRook from (piecesRook_eq b).symm, ← check_square_one_iff]
    exact h3
  · rw [← h, show pieces b 4 = b.piecesBishop from (piecesBishop_eq b).symm, ← check_square_one_iff]
    exact h4
  · rw [← h, show pieces b 5 = b.piecesQueen from (piecesQueen_eq b).symm, ← check_square_one_iff]
    exact h5
  · omega

theorem piece_on_square_range (b : Board) (s : Nat) :
    board_piece_on_square b s = -1 ∨
      (0 ≤ board_piece_on_square b s ∧ board_piece_on_square b s ≤ 5) := by
  unfold board_piece_on_square
  split_ifs <;> simp

/-! Projections of the `board_make_move` stages. -/

theorem players_clear_castling (b : Board) (c s p : Int) :
    players (board_clear_castling b c s) p = players b p := by
  unfold board_clear_castling players
  split_ifs <;> rfl

theorem pieces_clear_castling (b : Board) (c s i : Int) :
    pieces (board_clear_castling b c s) i = pieces b i := by
  unfold board_clear_castling pieces
  split_ifs <;> rfl

theorem players_make_castle_rights (b : Board) (piece player : Int) (src : Nat) (p : Int) :
    players (make_castle_rights b piece player src) p = players b p := by
  unfold make_castle_rights
  split_ifs <;> simp [players_clear_castling]

theorem pieces_make_castle_rights (b : Board) (piece player : Int) (src : Nat) (i : Int) :
    pieces (make_castle_rights b piece player src) i = pieces b i := by
  unfold make_castle_rights
  split_ifs <;> simp [pieces_clear_castling]

theorem MASK32_testBit (i : Nat) : MASK32.testBit i = decide (i < 32) := by
  have : MASK32 = 2 ^ 32 - 1 := by decide
  rw [this, Nat.testBit_two_pow_sub_one]

theorem and_or_mask_compat (f c M : Nat) (hc : c &&& M = 0) : (f ||| c) &&& M = f &&& M := by
  apply Nat.eq_of_testBit_eq
  intro i
  simp only [Nat.testBit_land, Nat.testBit_lor]
  rcases hM : M.testBit i
  · simp
  · have hMc : M &&& c = 0 := by rw [Nat.land_comm]; exact hc
    rw [testBit_false_of_disjoint hMc hM]
    simp

theorem and_xor_mask32_compat (f c M : Nat) (hc : c &&& M = 0) (hM : M < 2 ^ 32) :
    (f &&& (MASK32 ^^^ c)) &&& M = f &&& M := by
  apply Nat.eq_of_testBit_eq
  intro i
  simp only [Nat.testBit_land, Nat.testBit_xor, MASK32_testBit]
  rcases hMi : M.testBit i
  · simp
  · have hMc : M &&& c = 0 := by rw [Nat.land_comm]; exact hc
    have hci : c.testBit i = false := testBit_false_of_disjoint hMc hMi
    have hi : i < 32 := by
      by_contra hge
      rw [Nat.testBit_eq_false_of_lt
        (lt_of_lt_of_le hM (Nat.pow_le_pow_right (by omega) (by omega)))] at hMi
      exact Bool.false_ne_true hMi
    simp [hci, hi]

theorem and_sub_mask_compat (f X M : Nat) (hsub : ∀ i, M.testBit i = true → X.testBit i = true) :
    (f &&& X) &&& M = f &&& M := by
  apply Nat.eq_of_testBit_eq
  intro i
  simp only [Nat.testBit_land]
  rcases hMi : M.testBit i
  · simp
  · simp [hsub i hMi]

theorem castle_flag_and_zero (c M : Nat)
    (hc : c = 256 ∨ c = 512 ∨ c = 1024 ∨ c = 2048) (hM : M &&& 0xf00 = 0) : c &&& M = 0 := by
  apply Nat.eq_of_testBit_eq
  intro i
  simp only [Nat.testBit_land, Nat.zero_testBit]
  rcases hMi : M.testBit i
  · simp
  · have hbig : (0xf00 : Nat).testBit i = false := by
      have := Nat.testBit_land M 0xf00 i
      rw [hM, hMi] at this
      simpa using this.symm
    rcases hc with hc | hc | hc | hc <;> subst hc
    · rcases Decidable.em (i = 8) with h | h
      · subst h; exact absurd hbig (by decide)
      · simp [show (256 : Nat) = 2 ^ 8 by decide, Nat.testBit_two_pow_of_ne (by omega : 8 ≠ i)]
    · rcases Decidable.em (i = 9) with h | h
      · subst h; exact absurd hbig (by decide)
      · simp [show (512 : Nat) = 2 ^ 9 by decide, Nat.testBit_two_pow_of_ne (by omega : 9 ≠ i)]
    · rcases Decidable.em (i = 10) with h | h
      · subst h; exact absurd hbig (by decide)
      · simp [show (1024 : Nat) = 2 ^ 10 by decide, Nat.testBit_two_pow_of_ne (by omega : 10 ≠ i)]
    · rcases Decidable.em (i = 11) with h | h
      · subst h; exact absurd hbig (by decide)
      · simp [show (2048 : Nat) = 2 ^ 11 by decide, Nat.testBit_two_pow_of_ne (by omega : 11 ≠ i)]

theorem flags_and_clear_castling (b : Board) (c s : Int) (M : Nat)
    (hM : M &&& 0xf00 = 0) (hM32 : M < 2 ^ 32) :
    (board_clear_castling b c s).flags &&& M = b.flags &&& M := by
  unfold board_clear_castling
  split_ifs <;>
    exact and_xor_mask32_compat _ _ _
      (castle_flag_and_zero _ _ (by simp [BOARD_FLAGS_W_CASTLE_QUEEN, BOARD_FLAGS_W_CASTLE_KING,
        BOARD_FLAGS_B_CASTLE_QUEEN, BOARD_FLAGS_B_CASTLE_KING]) hM) hM32

theorem flags_and_make_castle_rights (b : Board) (piece player : Int) (src : Nat) (M : Nat)
    (hM : M &&& 0xf00 = 0) (hM32 : M < 2 ^ 32) :
    (make_castle_rights b piece player src).flags &&& M = b.flags &&& M := by
  unfold make_castle_rights
  split_ifs <;> simp only [flags_and_clear_castling _ _ _ _ hM hM32]

theorem ep_of_flags_and (b1 b2 : Board)
    (h64 : b1.flags &&& BOARD_FLAGS_EP_PRESENT = b2.flags &&& BOARD_FLAGS_EP_PRESENT)
    (h63 : b1.flags &&& BOARD_FLAGS_EP_SQUARE = b2.flags &&& BOARD_FLAGS_EP_SQUARE) :
    board_get_en_passant_target b1 = board_get_en_passant_target b2 := by
  unfold board_get_en_passant_target
  rw [h64, h63]

theorem ep_make_castle_rights (b : Board) (piece player : Int) (src : Nat) :
    board_get_en_passant_target (make_castle_rights b piece player src) =
      board_get_en_passant_target b := by
  apply ep_of_flags_and <;>
    exact flags_and_make_castle_rights b piece player src _ (by decide) (by decide)

theorem piece_on_square_ext (b1 b2 : Board)
    (h : ∀ i : Int, 0 ≤ i → i ≤ 5 → pieces b1 i = pieces b2 i) (s : Nat) :
    board_piece_on_square b1 s = board_piece_on_square b2 s := by
  unfold board_piece_on_square
  rw [piecesKing_eq, piecesPawn_eq, piecesKnight_eq, piecesRook_eq, piecesBishop_eq,
    piecesQueen_eq, piecesKing_eq b2, piecesPawn_eq b2, piecesKnight_eq b2, piecesRook_eq b2,
    piecesBishop_eq b2, piecesQueen_eq b2, h 0 (by omega) (by omega), h 1 (by omega) (by omega),
    h 2 (by omega) (by omega), h 3 (by omega) (by omega), h 4 (by omega) (by omega),
    h 5 (by omega) (by omega)]

theorem piece_on_square_make_castle_rights (b : Board) (piece player : Int) (src s : Nat) :
    board_piece_on_square (make_castle_rights b piece player src) s =
      board_piece_on_square b s :=
  piece_on_square_ext _ _ (fun i _ _ => pieces_make_castle_rights b piece player src i) s

theorem players_make_capture (b : Board) (m : Nat) (dst : Nat) (opp p : Int)
    (hopp : opp = 0 ∨ opp = 1) (hp : p = 0 ∨ p = 1) :
    players (make_capture b m dst opp) p =
      if move_is_capture m ≠ 0 ∧ p = opp then
        bitboard_clear_square (players b opp) (make_cap_square b m dst)
      else players b p := by
  rcases Decidable.em (move_is_capture m ≠ 0) with hcap | hcap
  · unfold make_capture
    rw [if_pos hcap]
    show players
      (let cap_piece := board_piece_on_square b (make_cap_square b m dst)
       let b3 := setPlayers b opp
         (bitboard_clear_square (players b opp) (make_cap_square b m dst))
       let b4 := setPieces b3 cap_piece
         (bitboard_clear_square (pieces b3 cap_piece) (make_cap_square b m dst))
       if cap_piece = ROOK then
         if opp = WHITE ∧ make_cap_square b m dst = board_pos_from_xy 0 0 then
           board_clear_castling b4 WHITE QUEEN
         else if opp = WHITE ∧ make_cap_square b m dst = board_pos_from_xy 7 0 then
           board_clear_castling b4 WHITE KING
         else if opp = BLACK ∧ make_cap_square b m dst = board_pos_from_xy 0 7 then
           board_clear_castling b4 BLACK QUEEN
         else if opp = BLACK ∧ make_cap_square b m dst = board_pos_from_xy 7 7 then
           board_clear_castling b4 BLACK KING
         else b4
       else b4) p = _
    have hstep : ∀ b4 : Board, players
        (if board_piece_on_square b (make_cap_square b m dst) = ROOK then
          if opp = WHITE ∧ make_cap_square b m dst = board_pos_from_xy 0 0 then
            board_clear_castling b4 WHITE QUEEN
          else if opp = WHITE ∧ make_cap_square b m dst = board_pos_from_xy 7 0 then
            board_clear_castling b4 WHITE KING
          else if opp = BLACK ∧ make_cap_square b m dst = board_pos_from_xy 0 7 then
            board_clear_castling b4 BLACK QUEEN
          else if opp = BLACK ∧ make_cap_square b m dst = board_pos_from_xy 7 7 then
            board_clear_castling b4 BLACK KING
          else b4
        else b4) p = players b4 p := by
      intro b4
      split_ifs <;> simp [players_clear_castling]
    rw [hstep, players_setPieces, players_setPlayers _ _ _ _ (by omega) (by omega)
      (by omega) (by omega)]
    rcases Decidable.em (p = opp) with hpo | hpo
    · rw [if_pos hpo, if_pos ⟨hcap, hpo⟩]
    · rw [if_neg hpo, if_neg (by tauto)]
  · unfold make_capture
    rw [if_neg hcap, if_neg (by tauto)]

theorem pieces_make_capture (b : Board) (m : Nat) (dst : Nat) (opp j : Int)
    (hj : 0 ≤ j) (hj2 : j ≤ 5)
    (hcp : move_is_capture m ≠ 0 → 0 ≤ board_piece_on_square b (make_cap_square b m dst) ∧
      board_piece_on_square b (make_cap_square b m dst) ≤ 5) :
    pieces (make_capture b m dst opp) j =
      if move_is_capture m ≠ 0 ∧ j = board_piece_on_square b (make_cap_square b m dst) then
        bitboard_clear_square (pieces b j) (make_cap_square b m dst)
      else pieces b j := by
  rcases Decidable.em (move_is_capture m ≠ 0) with hcap | hcap
  · obtain ⟨hcp1, hcp2⟩ := hcp hcap
    unfold make_capture
    rw [if_pos hcap]
    show pieces
      (let cap_piece := board_piece_on_square b (make_cap_square b m dst)
       let b3 := setPlayers b opp
         (bitboard_clear_square (players b opp) (make_cap_square b m dst))
       let b4 := setPieces b3 cap_piece
         (bitboard_clear_square (pieces b3 cap_piece) (make_cap_square b m dst))
       if cap_piece = ROOK then
         if opp = WHITE ∧ make_cap_square b m dst = board_pos_from_xy 0 0 then
           board_clear_castling b4 WHITE QUEEN
         else if opp = WHITE ∧ make_cap_square b m dst = board_pos_from_xy 7 0 then
           board_clear_castling b4 WHITE KING
         else if opp = BLACK ∧ make_cap_square b m dst = board_pos_from_xy 0 7 then
           board_clear_castling b4 BLACK QUEEN
         else if opp = BLACK ∧ make_cap_square b m dst = board_pos_from_xy 7 7 then
           board_clear_castling b4 BLACK KING
         else b4
       else b4) j = _
    have hstep : ∀ b4 : Board, pieces
        (if board_piece_on_square b (make_cap_square b m dst) = ROOK then
          if opp = WHITE ∧ make_cap_square b m dst = board_pos_from_xy 0 0 then
            board_clear_castling b4 WHITE QUEEN
          else if opp = WHITE ∧ make_cap_square b m dst = board_pos_from_xy 7 0 then
            board_clear_castling b4 WHITE KING
          else if opp = BLACK ∧ make_cap_square b m dst = board_pos_from_xy 0 7 then
            board_clear_castling b4 BLACK QUEEN
          else if opp = BLACK ∧ make_cap_square b m dst = board_pos_from_xy 7 7 then
            board_clear_castling b4 BLACK KING
          else b4
        else b4) j = pieces b4 j := by
      intro b4
      split_ifs <;> simp [pieces_clear_castling]
    rw [hstep, pieces_setPieces _ _ _ _ hcp1 hcp2 hj hj2, pieces_setPlayers]
    rcases Decidable.em (j = board_piece_on_square b (make_cap_square b m dst)) with hjc | hjc
    · rw [if_pos hjc, if_pos ⟨hcap, hjc⟩, hjc]
    · rw [if_neg hjc, if_neg (by tauto)]
      exact pieces_setPlayers b opp _ j
  · unfold make_capture
    rw [if_neg hcap, if_neg (by tauto)]

theorem flags_make_capture (b : Board) (m : Nat) (dst : Nat) (opp : Int) (M : Nat)
    (hM : M &&& 0xf00 = 0) (hM32 : M < 2 ^ 32) :
    (make_capture b m dst opp).flags &&& M = b.flags &&& M := by
  rcases Decidable.em (move_is_capture m ≠ 0) with hcap | hcap
  · unfold make_capture
    rw [if_pos hcap]
    show (let cap_piece := board_piece_on_square b (make_cap_square b m dst)
       let b3 := setPlayers b opp
         (bitboard_clear_square (players b opp) (make_cap_square b m dst))
       let b4 := setPieces b3 cap_piece
         (bitboard_clear_square (pieces b3 cap_piece) (make_cap_square b m dst))
       if cap_piece = ROOK then
         if opp = WHITE ∧ make_cap_square b m dst = board_pos_from_xy 0 0 then
           board_clear_castling b4 WHITE QUEEN
         else if opp = WHITE ∧ make_cap_square b m dst = board_pos_from_xy 7 0 then
           board_clear_castling b4 WHITE KING
         else if opp = BLACK ∧ make_cap_square b m dst = board_pos_from_xy 0 7 then
           board_clear_castling b4 BLACK QUEEN
         else if opp = BLACK ∧ make_cap_square b m dst = board_pos_from_xy 7 7 then
           board_clear_castling b4 BLACK KING
         else b4
       else b4).flags &&& M = _
    have hstep : ∀ b4 : Board, (if board_piece_on_square b (make_cap_square b m dst) = ROOK then
          if opp = WHITE ∧ make_cap_square b m dst = board_pos_from_xy 0 0 then
            board_clear_castling b4 WHITE QUEEN
          else if opp = WHITE ∧ make_cap_square b m dst = board_pos_from_xy 7 0 then
            board_clear_castling b4 WHITE KING
          else if opp = BLACK ∧ make_cap_square b m dst = board_pos_from_xy 0 7 then
            board_clear_castling b4 BLACK QUEEN
          else if opp = BLACK ∧ make_cap_square b m dst = board_pos_from_xy 7 7 then
            board_clear_castling b4 BLACK KING
          else b4
        else b4).flags &&& M = b4.flags &&& M := by
      intro b4
      split_ifs <;> simp [flags_and_clear_castling _ _ _ _ hM hM32]
    rw [hstep, flags_setPieces, flags_setPlayers]
  · unfold make_capture
    rw [if_neg hcap]

theorem players_make_move_piece (b : Board) (piece dst_piece player : Int) (src dst : Nat)
    (p : Int) (hp : p = 0 ∨ p = 1) (hpl : player = 0 ∨ player = 1) :
    players (make_move_piece b piece dst_piece player src dst) p =
      if p = player then
        bitboard_clear_square (bitboard_set_square (players b p) dst) src
      else players b p := by
  rcases Decidable.em (p = player) with hpp | hpp
  · subst hpp
    have e1 : ∀ (b0 : Board) (i : Int) (v : Nat), players (setPieces b0 i v) p = players b0 p :=
      fun b0 i v => players_setPieces b0 i v p
    have e2 : ∀ (b0 : Board) (v : Nat), players (setPlayers b0 p v) p = v := by
      intro b0 v
      rw [players_setPlayers b0 p p v (by omega) (by omega) (by omega) (by omega), if_pos rfl]
    simp only [make_move_piece]
    rw [e2, e1, e2, e1]
    simp
  · have e1 : ∀ (b0 : Board) (i : Int) (v : Nat), players (setPieces b0 i v) p = players b0 p :=
      fun b0 i v => players_setPieces b0 i v p
    have e2 : ∀ (b0 : Board) (v : Nat), players (setPlayers b0 player v) p = players b0 p := by
      intro b0 v
      rw [players_setPlayers b0 player p v (by omega) (by omega) (by omega) (by omega),
        if_neg hpp]
    simp only [make_move_piece]
    rw [e2, e1, e2, e1, if_neg hpp]

theorem pieces_make_move_piece (b : Board) (piece dst_piece player : Int) (src dst : Nat)
    (j : Int) (hj : 0 ≤ j) (hj2 : j ≤ 5) (hpc : 0 ≤ piece) (hpc2 : piece ≤ 5)
    (hdp : 0 ≤ dst_piece) (hdp2 : dst_piece ≤ 5) :
    pieces (make_move_piece b piece dst_piece player src dst) j =
      (fun afterSet => if j = piece then bitboard_clear_square afterSet src else afterSet)
        (if j = dst_piece then bitboard_set_square (pieces b j) dst else pieces b j) := by
  have e0 : ∀ (b0 : Board) (q : Int) (v : Nat), pieces (setPlayers b0 q v) j = pieces b0 j :=
    fun b0 q v => pieces_setPlayers b0 q v j
  simp only [make_move_piece]
  rcases Decidable.em (j = piece) with h1 | h1
  · subst h1
    rcases Decidable.em (j = dst_piece) with h2 | h2
    · subst h2
      have eS : ∀ (b0 : Board) (v : Nat), pieces (setPieces b0 j v) j = v := by
        intro b0 v
        rw [pieces_setPieces b0 j j v hj hj2 hj hj2, if_pos rfl]
      rw [e0, eS, e0, eS]
      simp
    · have eS : ∀ (b0 : Board) (v : Nat), pieces (setPieces b0 j v) j = v := by
        intro b0 v
        rw [pieces_setPieces b0 j j v hj hj2 hj hj2, if_pos rfl]
      have eN : ∀ (b0 : Board) (v : Nat), pieces (setPieces b0 dst_piece v) j = pieces b0 j := by
        intro b0 v
        rw [pieces_setPieces b0 dst_piece j v hdp hdp2 hj hj2, if_neg h2]
      rw [e0, eS, e0, eN]
      simp [h2]
  · rcases Decidable.em (j = dst_piece) with h2 | h2
    · subst h2
      have eS : ∀ (b0 : Board) (v : Nat), pieces (setPieces b0 j v) j = v := by
        intro b0 v
        rw [pieces_setPieces b0 j j v hj hj2 hj hj2, if_pos rfl]
      have eN : ∀ (b0 : Board) (v : Nat), pieces (setPieces b0 piece v) j = pieces b0 j := by
        intro b0 v
        rw [pieces_setPieces b0 piece j v hpc hpc2 hj hj2, if_neg h1]
      rw [e0, eN, e0, eS]
      simp [h1]
    · have eN1 : ∀ (b0 : Board) (v : Nat), pieces (setPieces b0 piece v) j = pieces b0 j := by
        intro b0 v
        rw [pieces_setPieces b0 piece j v hpc hpc2 hj hj2, if_neg h1]
      have eN2 : ∀ (b0 : Board) (v : Nat), pieces (setPieces b0 dst_piece v) j = pieces b0 j := by
        intro b0 v
        rw [pieces_setPieces b0 dst_piece j v hdp hdp2 hj hj2, if_neg h2]
      rw [e0, eN1, e0, eN2]
      simp [h1, h2]

theorem flags_make_move_piece (b : Board) (piece dst_piece player : Int) (src dst : Nat) :
    (make_move_piece b piece dst_piece player src dst).flags = b.flags := by
  unfold make_move_piece
  rw [flags_setPlayers, flags_setPieces, flags_setPlayers, flags_setPieces]

theorem players_make_ep_flags (b : Board) (piece : Int) (src dst : Nat) (p : Int) :
    players (make_ep_flags b piece src dst) p = players b p := by
  unfold make_ep_flags players
  split_ifs <;> rfl

theorem pieces_make_ep_flags (b : Board) (piece : Int) (src dst : Nat) (j : Int) :
    pieces (make_ep_flags b piece src dst) j = pieces b j := by
  unfold make_ep_flags pieces
  split_ifs <;> rfl

theorem players_make_turn_flags (b : Board) (player p : Int) :
    players (make_turn_flags b player) p = players b p := by
  unfold make_turn_flags players
  split_ifs <;> rfl

theorem pieces_make_turn_flags (b : Board) (player j : Int) :
    pieces (make_turn_flags b player) j = pieces b j := by
  unfold make_turn_flags pieces
  split_ifs <;> rfl

/-! Projections of the `board_unmake_move` stages. -/

theorem players_unmake_restore_flags (b : Board) (m : Nat) (p : Int) :
    players (unmake_restore_flags b m) p = players b p := by
  unfold unmake_restore_flags players
  split_ifs <;> rfl

theorem pieces_unmake_restore_flags (b : Board) (m : Nat) (j : Int) :
    pieces (unmake_restore_flags b m) j = pieces b j := by
  unfold unmake_restore_flags pieces
  split_ifs <;> rfl

theorem players_unmake_turn_flags (b : Board) (player p : Int) :
    players (unmake_turn_flags b player) p = players b p := by
  unfold unmake_turn_flags players
  split_ifs <;> rfl

theorem pieces_unmake_turn_flags (b : Board) (player j : Int) :
    pieces (unmake_turn_flags b player) j = pieces b j := by
  unfold unmake_turn_flags pieces
  split_ifs <;> rfl

theorem players_unmake_move_piece (b : Board) (piece_dst piece_src player : Int) (src dst : Nat)
    (p : Int) (hp : p = 0 ∨ p = 1) (hpl : player = 0 ∨ player = 1) :
    players (unmake_move_piece b piece_dst piece_src player src dst) p =
      if p = player then
        bitboard_set_square (bitboard_clear_square (players b p) dst) src
      else players b p := by
  rcases Decidable.em (p = player) with hpp | hpp
  · subst hpp
    have e1 : ∀ (b0 : Board) (i : Int) (v : Nat), players (setPieces b0 i v) p = players b0 p :=
      fun b0 i v => players_setPieces b0 i v p
    have e2 : ∀ (b0 : Board) (v : Nat), players (setPlayers b0 p v) p = v := by
      intro b0 v
      rw [players_setPlayers b0 p p v (by omega) (by omega) (by omega) (by omega), if_pos rfl]
    simp only [unmake_move_piece]
    rw [e2, e1, e2, e1]
    simp
  · have e1 : ∀ (b0 : Board) (i : Int) (v : Nat), players (setPieces b0 i v) p = players b0 p :=
      fun b0 i v => players_setPieces b0 i v p
    have e2 : ∀ (b0 : Board) (v : Nat), players (setPlayers b0 player v) p = players b0 p := by
      intro b0 v
      rw [players_setPlayers b0 player p v (by omega) (by omega) (by omega) (by omega),
        if_neg hpp]
    simp only [unmake_move_piece]
    rw [e2, e1, e2, e1, if_neg hpp]

theorem pieces_unmake_move_piece (b : Board) (piece_dst piece_src player : Int) (src dst : Nat)
    (j : Int) (hj : 0 ≤ j) (hj2 : j ≤ 5) (hpd : 0 ≤ piece_dst) (hpd2 : piece_dst ≤ 5)
    (hps : 0 ≤ piece_src) (hps2 : piece_src ≤ 5) :
    pieces (unmake_move_piece b piece_dst piece_src player src dst) j =
      (fun afterClr => if j = piece_src then bitboard_set_square afterClr src else afterClr)
        (if j = piece_dst then bitboard_clear_square (pieces b j) dst else pieces b j) := by
  have e0 : ∀ (b0 : Board) (q : Int) (v : Nat), pieces (setPlayers b0 q v) j = pieces b0 j :=
    fun b0 q v => pieces_setPlayers b0 q v j
  simp only [unmake_move_piece]
  rcases Decidable.em (j = piece_src) with h1 | h1
  · subst h1
    rcases Decidable.em (j = piece_dst) with h2 | h2
    · subst h2
      have eS : ∀ (b0 : Board) (v : Nat), pieces (setPieces b0 j v) j = v := by
        intro b0 v
        rw [pieces_setPieces b0 j j v hj hj2 hj hj2, if_pos rfl]
      rw [e0, eS, e0, eS]
      simp
    · have eS : ∀ (b0 : Board) (v : Nat), pieces (setPieces b0 j v) j = v := by
        intro b0 v
        rw [pieces_setPieces b0 j j v hj hj2 hj hj2, if_pos rfl]
      have eN : ∀ (b0 : Board) (v : Nat), pieces (setPieces b0 piece_dst v) j = pieces b0 j := by
        intro b0 v
        rw [pieces_setPieces b0 piece_dst j v hpd hpd2 hj hj2, if_neg h2]
      rw [e0, eS, e0, eN]
      simp [h2]
  · rcases Decidable.em (j = piece_dst) with h2 | h2
    · subst h2
      have eS : ∀ (b0 : Board) (v : Nat), pieces (setPieces b0 j v) j = v := by
        intro b0 v
        rw [pieces_setPieces b0 j j v hj hj2 hj hj2, if_pos rfl]
      have eN : ∀ (b0 : Board) (v : Nat), pieces (setPieces b0 piece_src v) j = pieces b0 j := by
        intro b0 v
        rw [pieces_setPieces b0 piece_src j v hps hps2 hj hj2, if_neg h1]
      rw [e0, eN, e0, eS]
      simp [h1]
    · have eN1 : ∀ (b0 : Board) (v : Nat), pieces (setPieces b0 piece_src v) j = pieces b0 j := by
        intro b0 v
        rw [pieces_setPieces b0 piece_src j v hps hps2 hj hj2, if_neg h1]
      have eN2 : ∀ (b0 : Board) (v : Nat), pieces (setPieces b0 piece_dst v) j = pieces b0 j := by
        intro b0 v
        rw [pieces_setPieces b0 piece_dst j v hpd hpd2 hj hj2, if_neg h2]
      rw [e0, eN1, e0, eN2]
      simp [h1, h2]

theorem flags_unmake_move_piece (b : Board) (piece_dst piece_src player : Int) (src dst : Nat) :
    (unmake_move_piece b piece_dst piece_src player src dst).flags = b.flags := by
  unfold unmake_move_piece
  rw [flags_setPlayers, flags_setPieces, flags_setPlayers, flags_setPieces]

theorem players_unmake_capture (b : Board) (m : Nat) (opp p : Int)
    (hopp : opp = 0 ∨ opp = 1) (hp : p = 0 ∨ p = 1) :
    players (unmake_capture b m opp) p =
      if move_is_capture m ≠ 0 ∧ p = opp then
        bitboard_set_square (players b opp) (move_capture_square m)
      else players b p := by
  unfold unmake_capture
  rcases Decidable.em (move_is_capture m ≠ 0) with hcap | hcap
  · rw [if_pos hcap, players_setPlayers _ _ _ _ (by omega) (by omega) (by omega) (by omega),
      players_setPieces]
    rcases Decidable.em (p = opp) with hpo | hpo
    · rw [if_pos hpo, if_pos ⟨hcap, hpo⟩]
    · rw [if_neg hpo, if_neg (by tauto)]
      exact players_setPieces b _ _ p
  · rw [if_neg hcap, if_neg (by tauto)]

theorem pieces_unmake_capture (b : Board) (m : Nat) (opp j : Int) (hj : 0 ≤ j) (hj2 : j ≤ 5)
    (hcp : move_is_capture m ≠ 0 → 0 ≤ move_capture_piece m ∧ move_capture_piece m ≤ 5) :
    pieces (unmake_capture b m opp) j =
      if move_is_capture m ≠ 0 ∧ j = move_capture_piece m then
        bitboard_set_square (pieces b j) (move_capture_square m)
      else pieces b j := by
  unfold unmake_capture
  rcases Decidable.em (move_is_capture m ≠ 0) with hcap | hcap
  · obtain ⟨h1, h2⟩ := hcp hcap
    rw [if_pos hcap, pieces_setPlayers, pieces_setPieces _ _ _ _ h1 h2 hj hj2]
    rcases Decidable.em (j = move_capture_piece m) with hjc | hjc
    · rw [if_pos hjc, if_pos ⟨hcap, hjc⟩, hjc]
    · rw [if_neg hjc, if_neg (by tauto)]
  · rw [if_neg hcap, if_neg (by tauto)]

theorem flags_unmake_capture (b : Board) (m : Nat) (opp : Int) :
    (unmake_capture b m opp).flags = b.flags := by
  unfold unmake_capture
  split_ifs <;> simp [flags_setPlayers, flags_setPieces]

theorem flags_unmake_castle_rook (b : Board) (m : Nat) (player : Int) (dst : Nat) :
    (unmake_castle_rook b m player dst).flags = b.flags := by
  unfold unmake_castle_rook
  split_ifs <;> simp [flags_setPlayers, flags_setPieces]

theorem players_unmake_castle_rook_notcastle (b : Board) (m : Nat) (player : Int) (dst : Nat)
    (h : move_is_castle m = 0) (p : Int) :
    players (unmake_castle_rook b m player dst) p = players b p := by
  unfold unmake_castle_rook
  rw [if_neg (by omega)]

theorem pieces_unmake_castle_rook_notcastle (b : Board) (m : Nat) (player : Int) (dst : Nat)
    (h : move_is_castle m = 0) (j : Int) :
    pieces (unmake_castle_rook b m player dst) j = pieces b j := by
  unfold unmake_castle_rook
  rw [if_neg (by omega)]

/-! Bitboard set/clear round trips used by the make/unmake inverse proof. -/

theorem set_clear_same (x s : Nat) (hx : x < 2 ^ 64) (hs : s < 64)
    (h : x.testBit s = true) :
    bitboard_set_square (bitboard_clear_square x s) s = x := by
  apply Nat.eq_of_testBit_eq
  intro i
  rcases Nat.lt_or_ge i 64 with hi | hi
  · rw [testBit_set_square, testBit_clear_square _ _ _ hs]
    by_cases e : i = s <;> simp_all
  · rw [testBit_set_square, testBit_clear_square _ _ _ hs, testBit_eq_false_of_wf hx hi]
    simp
    omega

theorem clear_set_same (x s : Nat) (hx : x < 2 ^ 64) (hs : s < 64)
    (h : x.testBit s = false) :
    bitboard_clear_square (bitboard_set_square x s) s = x := by
  apply Nat.eq_of_testBit_eq
  intro i
  rcases Nat.lt_or_ge i 64 with hi | hi
  · rw [testBit_clear_square _ _ _ hs, testBit_set_square]
    by_cases e : i = s <;> simp_all
  · rw [testBit_clear_square _ _ _ hs, testBit_eq_false_of_wf hx hi]
    simp
    omega

theorem move_bit_roundtrip (x s d : Nat) (hx : x < 2 ^ 64) (hs : s < 64) (hd : d < 64)
    (hsd : s ≠ d) (hts : x.testBit s = true) (htd : x.testBit d = false) :
    bitboard_set_square (bitboard_clear_square
      (bitboard_clear_square (bitboard_set_square x d) s) d) s = x := by
  apply Nat.eq_of_testBit_eq
  intro i
  rcases Nat.lt_or_ge i 64 with hi | hi
  · rw [testBit_set_square, testBit_clear_square _ _ _ hd, testBit_clear_square _ _ _ hs,
      testBit_set_square]
    by_cases e1 : i = s <;> by_cases e2 : i = d <;> simp_all
  · rw [testBit_set_square, testBit_clear_square _ _ _ hd, testBit_clear_square _ _ _ hs,
      testBit_set_square, testBit_eq_false_of_wf hx hi]
    simp
    omega

theorem castle_king_roundtrip (x s d : Nat) (hx : x < 2 ^ 64) (hs : s < 64) (hd : d < 64)
    (hsd : s ≠ d) (hts : x.testBit s = true) (htd : x.testBit d = false) :
    bitboard_set_square (bitboard_clear_square
      (bitboard_set_square (bitboard_clear_square x s) d) d) s = x := by
  apply Nat.eq_of_testBit_eq
  intro i
  rcases Nat.lt_or_ge i 64 with hi | hi
  · rw [testBit_set_square, testBit_clear_square _ _ _ hd, testBit_set_square,
      testBit_clear_square _ _ _ hs]
    by_cases e1 : i = s <;> by_cases e2 : i = d <;> simp_all
  · rw [testBit_set_square, testBit_clear_square _ _ _ hd, testBit_set_square,
      testBit_clear_square _ _ _ hs, testBit_eq_false_of_wf hx hi]
    simp
    omega

theorem castle_rook_roundtrip (x rs rd : Nat) (hx : x < 2 ^ 64) (hrs : rs < 64) (hrd : rd < 64)
    (hne : rs ≠ rd) (hts : x.testBit rs = true) (htd : x.testBit rd = false) :
    bitboard_clear_square (bitboard_set_square
      (bitboard_set_square (bitboard_clear_square x rs) rd) rs) rd = x := by
  apply Nat.eq_of_testBit_eq
  intro i
  rcases Nat.lt_or_ge i 64 with hi | hi
  · rw [testBit_clear_square _ _ _ hrd, testBit_set_square, testBit_set_square,
      testBit_clear_square _ _ _ hrs]
    by_cases e1 : i = rs <;> by_cases e2 : i = rd <;> simp_all
  · rw [testBit_clear_square _ _ _ hrd, testBit_set_square, testBit_set_square,
      testBit_clear_square _ _ _ hrs, testBit_eq_false_of_wf hx hi]
    simp
    omega

theorem castle_players_roundtrip (P s d rs rd : Nat) (hP : P < 2 ^ 64)
    (hs : s < 64) (hd : d < 64) (hrs : rs < 64) (hrd : rd < 64)
    (h1 : s ≠ d) (h2 : s ≠ rs) (h3 : s ≠ rd) (h4 : d ≠ rs) (h5 : d ≠ rd) (h6 : rs ≠ rd)
    (hts : P.testBit s = true) (htd : P.testBit d = false)
    (htrs : P.testBit rs = true) (htrd : P.testBit rd = false) :
    bitboard_clear_square (bitboard_set_square (bitboard_set_square (bitboard_clear_square
      (bitboard_set_square (bitboard_clear_square (bitboard_set_square
        (bitboard_clear_square P s) d) rs) rd) d) s) rs) rd = P := by
  apply Nat.eq_of_testBit_eq
  intro i
  rcases Nat.lt_or_ge i 64 with hi | hi
  · rw [testBit_clear_square _ _ _ hrd, testBit_set_square, testBit_set_square,
      testBit_clear_square _ _ _ hd, testBit_set_square, testBit_clear_square _ _ _ hrs,
      testBit_set_square, testBit_clear_square _ _ _ hs]
    by_cases e1 : i = s <;> by_cases e2 : i = d <;> by_cases e3 : i = rs <;>
      by_cases e4 : i = rd <;> simp_all
  · rw [testBit_clear_square _ _ _ hrd, testBit_set_square, testBit_set_square,
      testBit_clear_square _ _ _ hd, testBit_set_square, testBit_clear_square _ _ _ hrs,
      testBit_set_square, testBit_clear_square _ _ _ hs, testBit_eq_false_of_wf hP hi]
    simp
    omega

/-! Flags arithmetic for the make/unmake round trip. -/

theorem and_and_zero (x c M : Nat) (h : c &&& M = 0) : (x &&& c) &&& M = 0 := by
  apply Nat.eq_of_testBit_eq
  intro i
  simp only [Nat.testBit_land, Nat.zero_testBit]
  rcases hci : c.testBit i
  · simp
  · have := Nat.testBit_land c M i
    rw [h, hci] at this
    simp only [Nat.zero_testBit, Bool.true_and] at this
    simp [← this]

theorem xor_mask_compat (f c M : Nat) (hc : c &&& M = 0) : (f ^^^ c) &&& M = f &&& M := by
  apply Nat.eq_of_testBit_eq
  intro i
  simp only [Nat.testBit_land, Nat.testBit_xor]
  rcases hMi : M.testBit i
  · simp
  · have hMc : M &&& c = 0 := by rw [Nat.land_comm]; exact hc
    rw [testBit_false_of_disjoint hMc hMi]
    simp

theorem lor_and_distrib (a b M : Nat) : (a ||| b) &&& M = (a &&& M) ||| (b &&& M) := by
  apply Nat.eq_of_testBit_eq
  intro i
  simp only [Nat.testBit_land, Nat.testBit_lor]
  rcases a.testBit i <;> rcases b.testBit i <;> rcases M.testBit i <;> rfl

theorem flags_split (f : Nat) (hf : f < 2 ^ 32) :
    (f &&& 0xffff0000) ||| (f &&& 0xffff) = f := by
  apply Nat.eq_of_testBit_eq
  intro i
  simp only [Nat.testBit_lor, Nat.testBit_land]
  rcases Nat.lt_or_ge i 32 with hi | hi
  · rw [show (0xffff0000 : Nat) = 4294901760 by rfl, show (0xffff : Nat) = 65535 by rfl]
    rcases hfi : f.testBit i
    · simp
    · rcases Nat.lt_or_ge i 16 with h16 | h16
      · have : (65535 : Nat).testBit i = true := by
          rw [show (65535 : Nat) = 2 ^ 16 - 1 by norm_num, Nat.testBit_two_pow_sub_one]
          simpa using h16
        simp [this]
      · have : (4294901760 : Nat).testBit i = true := by
          rw [show (4294901760 : Nat) = (2 ^ 16 - 1) * 2 ^ 16 by norm_num,
            show (2 ^ 16 - 1) * 2 ^ 16 = (2 ^ 16 - 1) <<< 16 by rw [Nat.shiftLeft_eq],
            Nat.testBit_shiftLeft, Nat.testBit_two_pow_sub_one]
          have h1 : decide (16 ≤ i) = true := by simpa using h16
          have h2 : decide (i - 16 < 16) = true := by
            simp only [decide_eq_true_eq]
            omega
          rw [h1, h2]
          rfl
        simp [this]
  · rw [Nat.testBit_eq_false_of_lt (lt_of_lt_of_le hf (Nat.pow_le_pow_right (by omega) hi))]
    simp

theorem mul65536_and_high (t : Nat) (ht : t < 2 ^ 16) :
    (t * 65536) &&& 0xffff0000 = t * 65536 := by
  apply Nat.eq_of_testBit_eq
  intro i
  simp only [Nat.testBit_land]
  have hsh : t * 65536 = t <<< 16 := by rw [Nat.shiftLeft_eq]
  rcases hti : (t * 65536).testBit i
  · simp
  · have hhi : (0xffff0000 : Nat).testBit i = true := by
      rw [hsh, Nat.testBit_shiftLeft] at hti
      have h16 : 16 ≤ i := by
        by_contra hlt
        simp [show ¬ (16 ≤ i) from hlt] at hti
      have hlt32 : i - 16 < 16 := by
        by_contra hge
        have : t.testBit (i - 16) = false :=
          Nat.testBit_eq_false_of_lt (lt_of_lt_of_le ht (Nat.pow_le_pow_right (by omega) (by omega)))
        simp [this] at hti
      rw [show (0xffff0000 : Nat) = (2 ^ 16 - 1) <<< 16 by rw [Nat.shiftLeft_eq]; norm_num,
        Nat.testBit_shiftLeft, Nat.testBit_two_pow_sub_one]
      have h1 : decide (16 ≤ i) = true := by simpa using h16
      have h2 : decide (i - 16 < 16) = true := by simpa using hlt32
      rw [h1, h2]
      rfl
    simp [hhi, hti]

theorem shiftR16_mul65536 (t : Nat) : (t * 65536) >>> 16 = t := by
  rw [show t * 65536 = t * 2 ^ 16 by norm_num, Nat.shiftRight_eq_div_pow,
    Nat.mul_div_cancel _ (by positivity)]

theorem u32ofInt_ofNat (n : Nat) : u32ofInt (n : Int) = n % 2 ^ 32 := by
  unfold u32ofInt
  omega

theorem turn_lt (b : Board) (hf : b.flags < 2 ^ 32) : board_get_full_turn_number b < 2 ^ 16 := by
  unfold board_get_full_turn_number
  rw [show BOARD_FLAGS_TURN_NUM_SHIFT = 16 by rfl, Nat.shiftRight_eq_div_pow]
  have : b.flags &&& BOARD_FLAGS_TURN_NUM ≤ b.flags := Nat.and_le_left
  omega

theorem turn_inc (t : Nat) (ht : t < 2 ^ 16) :
    (u32ofInt (((t : Int) + 1) * 65536) &&& 0xffff0000) >>> 16 = (t + 1) % 2 ^ 16 := by
  rcases Decidable.em (t + 1 < 2 ^ 16) with hlt | hge
  · have : ((t : Int) + 1) * 65536 = ((t + 1) * 65536 : Nat) := by push_cast; ring
    rw [this, u32ofInt_ofNat, Nat.mod_eq_of_lt (by omega), mul65536_and_high _ hlt,
      shiftR16_mul65536, Nat.mod_eq_of_lt hlt]
  · have ht' : t = 2 ^ 16 - 1 := by omega
    subst ht'
    decide

theorem turn_dec_inc (t : Nat) (ht : t < 2 ^ 16) :
    u32ofInt (((((t + 1) % 2 ^ 16 : Nat) : Int) - 1) * 65536) &&& 0xffff0000 = t * 65536 := by
  rcases Decidable.em (t + 1 < 2 ^ 16) with hlt | hge
  · rw [Nat.mod_eq_of_lt hlt]
    have : (((t + 1 : Nat) : Int) - 1) * 65536 = ((t * 65536 : Nat) : Int) := by push_cast; ring
    rw [this, u32ofInt_ofNat, Nat.mod_eq_of_lt (by omega), mul65536_and_high _ ht]
  · have ht' : t = 2 ^ 16 - 1 := by omega
    subst ht'
    decide

theorem high_shiftRL (f : Nat) :
    ((f &&& 0xffff0000) >>> 16) * 65536 = f &&& 0xffff0000 := by
  have h1 : (f &&& 0xffff0000) % 65536 = 0 := by
    have : (f &&& 0xffff0000) &&& 65535 = 0 := by
      rw [Nat.land_assoc]
      have : (0xffff0000 : Nat) &&& 65535 = 0 := by decide
      rw [this, Nat.and_zero]
    rw [show (65535 : Nat) = 2 ^ 16 - 1 by norm_num, Nat.and_pow_two_sub_one_eq_mod] at this
    exact this
  rw [Nat.shiftRight_eq_div_pow]
  omega

theorem and_assoc_fold (f A B : Nat) : (f &&& A) &&& B = f &&& (A &&& B) := Nat.land_assoc f A B

theorem turn_of_flags_and (b1 b2 : Board)
    (h : b1.flags &&& 0xffff0000 = b2.flags &&& 0xffff0000) :
    board_get_full_turn_number b1 = board_get_full_turn_number b2 := by
  unfold board_get_full_turn_number
  rw [show BOARD_FLAGS_TURN_NUM = 0xffff0000 by rfl, h]

theorem ep_then_high (f e : Nat) :
    ((((f &&& (MASK32 ^^^ 64)) ||| 64) &&& (MASK32 ^^^ 63)) ||| (e &&& 63)) &&& 0xffff0000 =
      f &&& 0xffff0000 := by
  rw [lor_and_distrib, and_and_zero e 63 0xffff0000 (by decide), Nat.or_zero,
    and_xor_mask32_compat _ 63 0xffff0000 (by decide) (by decide), lor_and_distrib,
    show (64 : Nat) &&& 0xffff0000 = 0 by decide, Nat.or_zero,
    and_xor_mask32_compat _ 64 0xffff0000 (by decide) (by decide)]

theorem ep_flags_high (b : Board) (piece : Int) (src dst : Nat) :
    (make_ep_flags b piece src dst).flags &&& 0xffff0000 = b.flags &&& 0xffff0000 := by
  unfold make_ep_flags
  split_ifs with h h2
  · show ((((b.flags &&& (MASK32 ^^^ 64)) ||| 64) &&& (MASK32 ^^^ 63)) |||
        ((src + 8) &&& 63)) &&& 0xffff0000 = b.flags &&& 0xffff0000
    exact ep_then_high b.flags (src + 8)
  · show ((((b.flags &&& (MASK32 ^^^ 64)) ||| 64) &&& (MASK32 ^^^ 63)) |||
        ((src - 8) &&& 63)) &&& 0xffff0000 = b.flags &&& 0xffff0000
    exact ep_then_high b.flags (src - 8)
  · show (b.flags &&& (MASK32 ^^^ 64)) &&& 0xffff0000 = b.flags &&& 0xffff0000
    exact and_xor_mask32_compat _ 64 0xffff0000 (by decide) (by decide)

theorem turn_flags_high (bA : Board) (player : Int) :
    (make_turn_flags bA player).flags &&& 0xffff0000 =
      if player = BLACK then
        u32ofInt (((board_get_full_turn_number bA : Int) + 1) * 65536) &&& 0xffff0000
      else bA.flags &&& 0xffff0000 := by
  unfold make_turn_flags
  split_ifs with h
  · simp only []
    rw [show BOARD_FLAGS_TURN = 128 by rfl, xor_mask_compat _ _ _ (by decide),
      show BOARD_FLAGS_LOW = (0xffff : Nat) by rfl,
      show BOARD_FLAGS_TURN_NUM = (0xffff0000 : Nat) by rfl,
      lor_and_distrib, and_and_zero _ _ _ (by decide), Nat.zero_or, and_assoc_fold,
      show (0xffff0000 : Nat) &&& 0xffff0000 = 0xffff0000 by decide]
  · simp only []
    rw [show BOARD_FLAGS_TURN = 128 by rfl, xor_mask_compat _ _ _ (by decide)]

theorem castle_flags_and (b : Board) (m : Nat) (M : Nat) (hM : M &&& 0xf00 = 0)
    (hM32 : M < 2 ^ 32) :
    (move_gen_make_castle b m).flags &&& M = b.flags &&& M := by
  simp only [move_gen_make_castle]
  rw [flags_and_clear_castling _ _ _ _ hM hM32, flags_and_clear_castling _ _ _ _ hM hM32,
    flags_setPieces, flags_setPlayers, flags_setPieces, flags_setPlayers, flags_setPieces,
    flags_setPlayers, flags_setPieces, flags_setPlayers]

theorem make_flags_high_aux (b b9 : Board) (piece player : Int) (src dst : Nat)
    (h9 : b9.flags &&& 0xffff0000 = b.flags &&& 0xffff0000)
    (hpl : player = board_player_to_move b) :
    (make_turn_flags (make_ep_flags b9 piece src dst) player).flags &&& 0xffff0000 =
      if board_player_to_move b = BLACK then
        u32ofInt (((board_get_full_turn_number b : Int) + 1) * 65536) &&& 0xffff0000
      else b.flags &&& 0xffff0000 := by
  subst hpl
  rw [turn_flags_high, ep_flags_high, h9,
    turn_of_flags_and (make_ep_flags b9 piece src dst) b (by rw [ep_flags_high, h9])]

theorem make_flags_high (b : Board) (m : Nat) :
    (board_make_move b m).flags &&& 0xffff0000 =
      if board_player_to_move b = BLACK then
        u32ofInt (((board_get_full_turn_number b : Int) + 1) * 65536) &&& 0xffff0000
      else b.flags &&& 0xffff0000 := by
  simp only [board_make_move]
  refine make_flags_high_aux b _ _ _ _ _ ?_ rfl
  split_ifs with hc <;>
    first
      | exact castle_flags_and b m _ (by decide) (by decide)
      | rw [flags_make_move_piece, flags_make_capture _ _ _ _ _ (by decide) (by decide),
          flags_and_make_castle_rights _ _ _ _ _ (by decide) (by decide)]

theorem unmake_flags_eq (b0 : Board) (m : Nat) :
    (board_unmake_move b0 m).flags =
      (unmake_turn_flags (unmake_restore_flags b0 m)
        (board_player_to_move (unmake_restore_flags b0 m))).flags := by
  simp only [board_unmake_move]
  rw [flags_unmake_castle_rook, flags_unmake_capture, flags_unmake_move_piece]

theorem restore_flags_eq (b0 : Board) (m : Nat) :
    (unmake_restore_flags b0 m).flags = (b0.flags &&& 0xffff0000) ||| (m &&& 0xffff) := by
  unfold unmake_restore_flags
  simp only []
  rw [show MASK32 ^^^ BOARD_FLAGS_LOW = 0xffff0000 by decide,
    show MOVE_FLAGS_PREV_FLAGS = (0xffff : Nat) by rfl]

theorem flags_roundtrip (b : Board) (m : Nat) (hf : b.flags < 2 ^ 32)
    (hprev : m % 2 ^ 16 = b.flags % 2 ^ 16) :
    (board_unmake_move (board_make_move b m) m).flags = b.flags := by
  have hmlow : m &&& 0xffff = b.flags &&& 0xffff := by
    rw [show (0xffff : Nat) = 2 ^ 16 - 1 by norm_num, Nat.and_pow_two_sub_one_eq_mod,
      Nat.and_pow_two_sub_one_eq_mod, hprev]
  have hb1 : (unmake_restore_flags (board_make_move b m) m).flags =
      ((board_make_move b m).flags &&& 0xffff0000) ||| (b.flags &&& 0xffff) := by
    rw [restore_flags_eq, hmlow]
  have hptm : board_player_to_move (unmake_restore_flags (board_make_move b m) m) =
      board_player_to_move b := by
    unfold board_player_to_move
    rw [show BOARD_FLAGS_TURN = 128 by rfl, hb1, lor_and_distrib,
      and_assoc_fold, show (0xffff0000 : Nat) &&& 128 = 0 by decide, Nat.and_zero, Nat.zero_or,
      and_assoc_fold, show (0xffff : Nat) &&& 128 = 128 by decide]
  rw [unmake_flags_eq, hptm]
  unfold unmake_turn_flags
  rcases player_to_move_mem b with hw | hbk
  · rw [if_neg (by rw [hw]; decide), hb1, make_flags_high, if_neg (by rw [hw]; decide),
      flags_split b.flags hf]
  · rw [if_pos (by rw [hbk]; decide)]
    simp only []
    have ht : board_get_full_turn_number b < 2 ^ 16 := turn_lt b hf
    have hb1high : (unmake_restore_flags (board_make_move b m) m).flags &&& 0xffff0000 =
        u32ofInt (((board_get_full_turn_number b : Int) + 1) * 65536) &&& 0xffff0000 := by
      rw [hb1, lor_and_distrib, and_assoc_fold,
        show (0xffff0000 : Nat) &&& 0xffff0000 = 0xffff0000 by decide, and_assoc_fold,
        show (0xffff : Nat) &&& 0xffff0000 = 0 by decide, Nat.and_zero, Nat.or_zero,
        make_flags_high, if_pos (by rw [hbk]; decide)]
    have hturn1 : board_get_full_turn_number (unmake_restore_flags (board_make_move b m) m) =
        (board_get_full_turn_number b + 1) % 2 ^ 16 := by
      unfold board_get_full_turn_number
      rw [show BOARD_FLAGS_TURN_NUM = 0xffff0000 by rfl,
        show BOARD_FLAGS_TURN_NUM_SHIFT = 16 by rfl]
      rw [show (unmake_restore_flags (board_make_move b m) m).flags &&& 0xffff0000 =
          u32ofInt (((board_get_full_turn_number b : Int) + 1) * 65536) &&& 0xffff0000
          from hb1high]
      exact turn_inc _ ht
    have hlow1 : (unmake_restore_flags (board_make_move b m) m).flags &&& BOARD_FLAGS_LOW =
        b.flags &&& 0xffff := by
      rw [show BOARD_FLAGS_LOW = (0xffff : Nat) by rfl, hb1, lor_and_distrib,
        and_assoc_fold, show (0xffff0000 : Nat) &&& 0xffff = 0 by decide, Nat.and_zero,
        Nat.zero_or, and_assoc_fold, show (0xffff : Nat) &&& 0xffff = 0xffff by decide]
    rw [hlow1, hturn1, show BOARD_FLAGS_TURN_NUM = (0xffff0000 : Nat) by rfl,
      turn_dec_inc _ ht]
    have hth : board_get_full_turn_number b * 65536 = b.flags &&& 0xffff0000 := by
      unfold board_get_full_turn_number
      rw [show BOARD_FLAGS_TURN_NUM = 0xffff0000 by rfl,
        show BOARD_FLAGS_TURN_NUM_SHIFT = 16 by rfl]
      exact high_shiftRL b.flags
    rw [hth, Nat.lor_comm, flags_split b.flags hf]

/-! Characterization of the boards produced by `board_make_move`. -/

theorem make_cap_square_mcr (b : Board) (piece player : Int) (src : Nat) (m : Nat) (dst : Nat) :
    make_cap_square (make_castle_rights b piece player src) m dst = make_cap_square b m dst := by
  unfold make_cap_square
  rw [ep_make_castle_rights]

theorem players_make_noncastle (b : Board) (m : Nat) (q : Int) (hq : q = 0 ∨ q = 1)
    (hpl : board_player_to_move b = 0 ∨ board_player_to_move b = 1)
    (hopp : cNot (board_player_to_move b) = 0 ∨ cNot (board_player_to_move b) = 1)
    (hcas : ¬ move_is_castle m ≠ 0) :
    players (board_make_move b m) q =
      (fun base =>
        if q = board_player_to_move b then
          bitboard_clear_square (bitboard_set_square base (move_destination_square m))
            (move_source_square m)
        else base)
      (if move_is_capture m ≠ 0 ∧ q = cNot (board_player_to_move b) then
        bitboard_clear_square (players b (cNot (board_player_to_move b)))
          (make_cap_square b m (move_destination_square m))
      else players b q) := by
  simp only [board_make_move]
  rw [players_make_turn_flags, players_make_ep_flags, if_neg hcas,
    players_make_move_piece _ _ _ _ _ _ q hq hpl]
  have ecap : ∀ j : Int, j = 0 ∨ j = 1 →
      players (make_capture (make_castle_rights b
          (board_piece_on_square b (move_source_square m)) (board_player_to_move b)
          (move_source_square m)) m (move_destination_square m)
          (cNot (board_player_to_move b))) j =
        if move_is_capture m ≠ 0 ∧ j = cNot (board_player_to_move b) then
          bitboard_clear_square (players b (cNot (board_player_to_move b)))
            (make_cap_square b m (move_destination_square m))
        else players b j := by
    intro j hj
    rw [players_make_capture _ _ _ _ _ hopp hj, make_cap_square_mcr,
      players_make_castle_rights, players_make_castle_rights]
  rw [ecap q hq]

theorem pieces_make_noncastle (b : Board) (m : Nat) (j : Int) (hj : 0 ≤ j) (hj2 : j ≤ 5)
    (hpc : 0 ≤ board_piece_on_square b (move_source_square m))
    (hpc2 : board_piece_on_square b (move_source_square m) ≤ 5)
    (hdp : 0 ≤ (if move_is_promotion m ≠ 0 then move_promotion_piece m
      else board_piece_on_square b (move_source_square m)))
    (hdp2 : (if move_is_promotion m ≠ 0 then move_promotion_piece m
      else board_piece_on_square b (move_source_square m)) ≤ 5)
    (hcp : move_is_capture m ≠ 0 →
      0 ≤ board_piece_on_square b (make_cap_square b m (move_destination_square m)) ∧
      board_piece_on_square b (make_cap_square b m (move_destination_square m)) ≤ 5)
    (hcas : ¬ move_is_castle m ≠ 0) :
    pieces (board_make_move b m) j =
      (fun afterSet =>
        if j = board_piece_on_square b (move_source_square m) then
          bitboard_clear_square afterSet (move_source_square m)
        else afterSet)
      ((fun base =>
        if j = (if move_is_promotion m ≠ 0 then move_promotion_piece m
            else board_piece_on_square b (move_source_square m)) then
          bitboard_set_square base (move_destination_square m)
        else base)
      (if move_is_capture m ≠ 0 ∧
          j = board_piece_on_square b (make_cap_square b m (move_destination_square m)) then
        bitboard_clear_square (pieces b j) (make_cap_square b m (move_destination_square m))
      else pieces b j)) := by
  simp only [board_make_move]
  rw [pieces_make_turn_flags, pieces_make_ep_flags, if_neg hcas,
    pieces_make_move_piece _ _ _ _ _ _ j hj hj2 hpc hpc2 hdp hdp2]
  have hcp2 : move_is_capture m ≠ 0 →
      0 ≤ board_piece_on_square (make_castle_rights b
        (board_piece_on_square b (move_source_square m)) (board_player_to_move b)
        (move_source_square m)) (make_cap_square (make_castle_rights b
          (board_piece_on_square b (move_source_square m)) (board_player_to_move b)
          (move_source_square m)) m (move_destination_square m)) ∧
      board_piece_on_square (make_castle_rights b
        (board_piece_on_square b (move_source_square m)) (board_player_to_move b)
        (move_source_square m)) (make_cap_square (make_castle_rights b
          (board_piece_on_square b (move_source_square m)) (board_player_to_move b)
          (move_source_square m)) m (move_destination_square m)) ≤ 5 := by
    rw [make_cap_square_mcr, piece_on_square_make_castle_rights]
    exact hcp
  have ecap : pieces (make_capture (make_castle_rights b
      (board_piece_on_square b (move_source_square m)) (board_player_to_move b)
      (move_source_square m)) m (move_destination_square m)
      (cNot (board_player_to_move b))) j =
      if move_is_capture m ≠ 0 ∧
          j = board_piece_on_square b (make_cap_square b m (move_destination_square m)) then
        bitboard_clear_square (pieces b j) (make_cap_square b m (move_destination_square m))
      else pieces b j := by
    rw [pieces_make_capture _ _ _ _ _ hj hj2 hcp2, make_cap_square_mcr,
      piece_on_square_make_castle_rights, pieces_make_castle_rights]
  rw [ecap]

/-! Facts derived from `MoveOk` and `boardConsistent` about the squares a
move touches. -/

theorem occ_testBit_false_of_players (b : Board) (s : Nat)
    (hpl : board_player_to_move b = 0 ∨ board_player_to_move b = 1)
    (h1 : (players b (board_player_to_move b)).testBit s = false)
    (h2 : (players b (cNot (board_player_to_move b))).testBit s = false) :
    (occUnion b).testBit s = false := by
  unfold occUnion
  rw [Nat.testBit_lor]
  rcases hpl with hpl | hpl <;> rw [hpl] at h1 h2
  · rw [show cNot 0 = 1 by decide] at h2
    unfold players at h1 h2
    simp_all
  · rw [show cNot 1 = 0 by decide] at h2
    unfold players at h1 h2
    simp_all

theorem mcapsq_cap_lt (m : Nat) (hcap : move_is_capture m ≠ 0) :
    move_capture_square m < 64 := by
  rw [mcapsq_eq]
  rw [miscap_eq] at hcap
  rcases Decidable.em (m / 2 ^ 32 % 2 = 1) with h | h
  · rw [if_pos h]
    have := Nat.mod_lt (m / 2 ^ 36) (y := 2 ^ 6) (by norm_num)
    omega
  · rw [if_neg h] at hcap
    omega

theorem mcs_eq (b : Board) (m : Nat) (hok : MoveOk b m) (hcap : move_is_capture m ≠ 0) :
    make_cap_square b m (move_destination_square m) = move_capture_square m := by
  unfold make_cap_square
  obtain ⟨hep1, hep2⟩ := hok.cap_ep hcap
  rcases Decidable.em (board_get_en_passant_target b ≠ BOARD_POS_INVALID ∧
      board_get_en_passant_target b = move_destination_square m) with hc | hc
  · rw [if_pos hc, (hep1 hc).1]
  · rw [if_neg hc, hep2 hc]

theorem cap_piece_eq (b : Board) (m : Nat) (hok : MoveOk b m) (hcap : move_is_capture m ≠ 0) :
    board_piece_on_square b (make_cap_square b m (move_destination_square m)) =
      move_capture_piece m := by
  rw [mcs_eq b m hok hcap, ← (hok.cap_main hcap).2.1]

theorem cap_piece_bounds (b : Board) (m : Nat) (hok : MoveOk b m) :
    move_is_capture m ≠ 0 →
      0 ≤ board_piece_on_square b (make_cap_square b m (move_destination_square m)) ∧
      board_piece_on_square b (make_cap_square b m (move_destination_square m)) ≤ 5 := by
  intro hcap
  rw [cap_piece_eq b m hok hcap]
  exact ⟨(hok.cap_main hcap).2.2.1, (hok.cap_main hcap).2.2.2.1⟩

theorem capQ_wf (b : Board) (m : Nat) (hwf : boardWF b) (j : Int) : capQ b m j < 2 ^ 64 := by
  unfold capQ
  split_ifs
  · exact clear_square_lt _ _ (pieces_wf b hwf j)
  · exact pieces_wf b hwf j

theorem capQ_dst_false (b : Board) (m : Nat) (hcons : boardConsistent b) (hok : MoveOk b m)
    (j : Int) (hj : 0 ≤ j) (hj2 : j ≤ 5) :
    (capQ b m j).testBit (move_destination_square m) = false := by
  obtain ⟨hinv, hwf, hocc, hcas, hep⟩ := hcons
  have hplmem := player_to_move_mem b
  unfold capQ
  rcases Decidable.em (move_is_capture m ≠ 0) with hcap | hcap
  · have hsq := mcs_eq b m hok hcap
    have hsq64 : make_cap_square b m (move_destination_square m) < 64 := by
      rw [hsq]
      exact mcapsq_cap_lt m hcap
    obtain ⟨hep1, hep2⟩ := hok.cap_ep hcap
    rcases Decidable.em (board_get_en_passant_target b ≠ BOARD_POS_INVALID ∧
        board_get_en_passant_target b = move_destination_square m) with hc | hc
    · -- en-passant capture: the destination square is empty in b
      have hpu : (pieceUnion b).testBit (move_destination_square m) = false := by
        rw [← hocc]
        exact (hep1 hc).2.2
      have hbj := pieceUnion_testBit_false b _ hpu j hj hj2
      split_ifs with h
      · rw [testBit_clear_square _ _ _ hsq64]
        rw [hbj]
        rfl
      · exact hbj
    · -- plain capture on the destination square
      have hcseq : make_cap_square b m (move_destination_square m) =
          move_destination_square m := by
        rw [hsq, hep2 hc]
      have hcp := (hok.cap_main hcap).2.1
      have hcplb := (hok.cap_main hcap).2.2.1
      have hcpub := (hok.cap_main hcap).2.2.2.1
      have hbit : (pieces b (move_capture_piece m)).testBit (move_destination_square m) = true := by
        have := testBit_of_piece_on_square b (move_capture_square m) (move_capture_piece m)
          hcp.symm hcplb
        rw [hep2 hc] at this
        exact this
      split_ifs with h
      · rw [hcseq, testBit_clear_square _ _ _ (by rw [← hcseq]; exact hsq64)]
        simp
      · have hjne : j ≠ move_capture_piece m := by
          intro hjeq
          apply h
          refine ⟨hcap, ?_⟩
          rw [cap_piece_eq b m hok hcap]
          exact hjeq
        exact testBit_false_of_disjoint
          (pieces_disjoint b hinv (move_capture_piece m) j hcplb hcpub hj hj2
            (fun hh => hjne hh.symm)) hbit
  · -- no capture: the destination square is empty in b
    rw [if_neg (by tauto)]
    have hoccf : (occUnion b).testBit (move_destination_square m) = false :=
      occ_testBit_false_of_players b _ hplmem hok.dst_not_mine (hok.no_cap (by omega))
    have hpu : (pieceUnion b).testBit (move_destination_square m) = false := by
      rw [← hocc]
      exact hoccf
    exact pieceUnion_testBit_false b _ hpu j hj hj2

theorem capQ_src_true (b : Board) (m : Nat) (hok : MoveOk b m) :
    (capQ b m (board_piece_on_square b (move_source_square m))).testBit
      (move_source_square m) = true := by
  have hbit : (pieces b (board_piece_on_square b (move_source_square m))).testBit
      (move_source_square m) = true :=
    testBit_of_piece_on_square b _ _ rfl hok.piece_lb
  unfold capQ
  split_ifs with h
  · rw [testBit_clear_square _ _ _ (by rw [mcs_eq b m hok h.1]; exact mcapsq_cap_lt m h.1)]
    have hne : move_source_square m ≠ make_cap_square b m (move_destination_square m) := by
      rw [mcs_eq b m hok h.1]
      exact fun hh => (hok.cap_main h.1).1 hh.symm
    simp [hbit, hne, move_source_square_lt m]
  · exact hbit

theorem capQ_eq_of_ne (b : Board) (m : Nat) (j : Int)
    (h : ¬ (move_is_capture m ≠ 0 ∧
      j = board_piece_on_square b (make_cap_square b m (move_destination_square m)))) :
    capQ b m j = pieces b j := by
  unfold capQ
  rw [if_neg h]

theorem piece_on_square_of_bits (b : Board) (i : Int) (s : Nat) (hi : 0 ≤ i) (hi2 : i ≤ 5)
    (htrue : (pieces b i).testBit s = true)
    (hother : ∀ j : Int, 0 ≤ j → j ≤ 5 → j ≠ i → (pieces b j).testBit s = false) :
    board_piece_on_square b s = i := by
  unfold board_piece_on_square
  interval_cases i <;>
    simp_all [check_square_one_iff, check_square_zero_iff, piecesKing_eq, piecesPawn_eq,
      piecesKnight_eq, piecesRook_eq, piecesBishop_eq, piecesQueen_eq]

theorem cNot_eq (x : Int) (hx : x = 0 ∨ x = 1) : cNot x = 1 - x := by
  rcases hx with hx | hx <;> subst hx <;> decide

theorem cNot_ne (x : Int) (hx : x = 0 ∨ x = 1) : cNot x ≠ x := by
  rcases hx with hx | hx <;> subst hx <;> decide

theorem ptm_restore (b0 b : Board) (m : Nat) (hprev : m % 2 ^ 16 = b.flags % 2 ^ 16) :
    board_player_to_move (unmake_restore_flags b0 m) = board_player_to_move b := by
  have hm128 : m &&& 128 = b.flags &&& 128 := by
    have h1 : m &&& 128 = (m &&& 0xffff) &&& 128 := by
      rw [and_assoc_fold, show (0xffff : Nat) &&& 128 = 128 by decide]
    have h2 : (b.flags &&& 0xffff) &&& 128 = b.flags &&& 128 := by
      rw [and_assoc_fold, show (0xffff : Nat) &&& 128 = 128 by decide]
    rw [h1, show m &&& 0xffff = b.flags &&& 0xffff from by
        rw [show (0xffff : Nat) = 2 ^ 16 - 1 by norm_num, Nat.and_pow_two_sub_one_eq_mod,
          Nat.and_pow_two_sub_one_eq_mod, hprev],
      h2]
  unfold board_player_to_move
  rw [show BOARD_FLAGS_TURN = 128 by rfl, restore_flags_eq, lor_and_distrib, and_assoc_fold,
    show (0xffff0000 : Nat) &&& 128 = 0 by decide, Nat.and_zero, Nat.zero_or, and_assoc_fold,
    show (0xffff : Nat) &&& 128 = 128 by decide, hm128]

theorem capQ_fold (b : Board) (m : Nat) (j : Int) :
    (if move_is_capture m ≠ 0 ∧
        j = board_piece_on_square b (make_cap_square b m (move_destination_square m)) then
      bitboard_clear_square (pieces b j) (make_cap_square b m (move_destination_square m))
    else pieces b j) = capQ b m j := rfl

theorem dst_piece_bounds (b : Board) (m : Nat) (hok : MoveOk b m) :
    0 ≤ (if move_is_promotion m ≠ 0 then move_promotion_piece m
        else board_piece_on_square b (move_source_square m)) ∧
    (if move_is_promotion m ≠ 0 then move_promotion_piece m
        else board_piece_on_square b (move_source_square m)) ≤ 5 := by
  split_ifs with h
  · obtain ⟨-, h2, h3⟩ := hok.promo h
    omega
  · exact ⟨hok.piece_lb, hok.piece_ub⟩

theorem pieces_make_eq (b : Board) (m : Nat) (hok : MoveOk b m)
    (hcas : ¬ move_is_castle m ≠ 0) (j : Int) (hj : 0 ≤ j) (hj2 : j ≤ 5) :
    pieces (board_make_move b m) j =
      (fun afterSet =>
        if j = board_piece_on_square b (move_source_square m) then
          bitboard_clear_square afterSet (move_source_square m)
        else afterSet)
      ((fun base =>
        if j = (if move_is_promotion m ≠ 0 then move_promotion_piece m
            else board_piece_on_square b (move_source_square m)) then
          bitboard_set_square base (move_destination_square m)
        else base)
      (capQ b m j)) := by
  rw [pieces_make_noncastle b m j hj hj2 hok.piece_lb hok.piece_ub
    (dst_piece_bounds b m hok).1 (dst_piece_bounds b m hok).2 (cap_piece_bounds b m hok) hcas,
    capQ_fold]

theorem make_piece_on_dst (b : Board) (m : Nat) (hcons : boardConsistent b) (hok : MoveOk b m)
    (hcas : ¬ move_is_castle m ≠ 0) :
    board_piece_on_square (board_make_move b m) (move_destination_square m) =
      (if move_is_promotion m ≠ 0 then move_promotion_piece m
       else board_piece_on_square b (move_source_square m)) := by
  have hdpb := dst_piece_bounds b m hok
  have hdst64 := move_destination_square_lt m
  apply piece_on_square_of_bits _ _ _ hdpb.1 hdpb.2
  · rw [pieces_make_eq b m hok hcas _ hdpb.1 hdpb.2]
    simp only [if_true]
    rcases Decidable.em ((if move_is_promotion m ≠ 0 then move_promotion_piece m
        else board_piece_on_square b (move_source_square m)) =
        board_piece_on_square b (move_source_square m)) with h | h
    · rw [if_pos h, testBit_clear_square _ _ _ (move_source_square_lt m), testBit_set_square]
      have hne : move_destination_square m ≠ move_source_square m :=
        fun hh => hok.src_ne_dst hh.symm
      simp [hne, hdst64]
    · rw [if_neg h, testBit_set_square]
      simp
  · intro j hjlb hjub hjne
    rw [pieces_make_eq b m hok hcas _ hjlb hjub]
    simp only []
    rw [if_neg hjne]
    have hQ := capQ_dst_false b m hcons hok j hjlb hjub
    split_ifs with h
    · rw [testBit_clear_square _ _ _ (move_source_square_lt m), hQ]
      rfl
    · exact hQ

theorem capQ_cond_iff (b : Board) (m : Nat) (hok : MoveOk b m) (j : Int) :
    (move_is_capture m ≠ 0 ∧
        j = board_piece_on_square b (make_cap_square b m (move_destination_square m))) ↔
      (move_is_capture m ≠ 0 ∧ j = move_capture_piece m) := by
  constructor
  · rintro ⟨hc, hj⟩
    rw [cap_piece_eq b m hok hc] at hj
    exact ⟨hc, hj⟩
  · rintro ⟨hc, hj⟩
    rw [← cap_piece_eq b m hok hc] at hj
    exact ⟨hc, hj⟩

theorem players_roundtrip_noncastle (b : Board) (m : Nat) (hcons : boardConsistent b)
    (hok : MoveOk b m) (hcas : ¬ move_is_castle m ≠ 0) (p : Int) (hp : p = 0 ∨ p = 1) :
    players (board_unmake_move (board_make_move b m) m) p = players b p := by
  have hwf := hcons.2.1
  have hpl := player_to_move_mem b
  have hopp := cNot_mem (board_player_to_move b)
  have hoppne := cNot_ne (board_player_to_move b) hpl
  have hsrc64 := move_source_square_lt m
  have hdst64 := move_destination_square_lt m
  have hptm1 := ptm_restore (board_make_move b m) b m hok.prev_flags
  have hc0 : move_is_castle m = 0 := not_not.mp hcas
  simp only [board_unmake_move]
  rw [hptm1]
  rw [players_unmake_castle_rook_notcastle _ _ _ _ hc0,
    players_unmake_capture _ _ _ _ hopp hp,
    players_unmake_move_piece _ _ _ _ _ _ p hp hpl,
    players_unmake_move_piece _ _ _ _ _ _ (cNot (board_player_to_move b)) hopp hpl]
  simp only [players_unmake_turn_flags, players_unmake_restore_flags]
  have eMp := players_make_noncastle b m p hp hpl hopp hcas
  have eMo := players_make_noncastle b m (cNot (board_player_to_move b)) hopp hpl hopp hcas
  simp only [] at eMp eMo
  rw [eMp, eMo]
  rcases Decidable.em (p = board_player_to_move b) with hpp | hpp
  · subst hpp
    rw [if_neg (fun hh => hoppne hh.2.symm), if_pos rfl, if_pos rfl,
      if_neg (fun hh => hoppne hh.2.symm)]
    exact move_bit_roundtrip _ _ _ (players_wf b hwf _) hsrc64 hdst64 hok.src_ne_dst
      hok.src_mine hok.dst_not_mine
  · have hpo : p = cNot (board_player_to_move b) := by
      rw [cNot_eq _ hpl]
      rcases hp with hp | hp <;> rcases hpl with h2 | h2 <;> omega
    subst hpo
    rcases Decidable.em (move_is_capture m ≠ 0) with hcap | hcap
    · rw [if_pos ⟨hcap, rfl⟩, if_neg hoppne, if_neg hoppne, if_pos ⟨hcap, trivial⟩,
        mcs_eq b m hok hcap]
      exact set_clear_same _ _ (players_wf b hwf _) (mcapsq_cap_lt m hcap)
        (hok.cap_main hcap).2.2.2.2
    · rw [if_neg (fun hh => hcap hh.1), if_neg hoppne, if_neg hoppne,
        if_neg (fun hh => hcap hh.1)]

theorem pieces_roundtrip_noncastle (b : Board) (m : Nat) (hcons : boardConsistent b)
    (hok : MoveOk b m) (hcas : ¬ move_is_castle m ≠ 0) (j : Int) (hj : 0 ≤ j) (hj2 : j ≤ 5) :
    pieces (board_unmake_move (board_make_move b m) m) j = pieces b j := by
  have hwf := hcons.2.1
  have hpl := player_to_move_mem b
  have hopp := cNot_mem (board_player_to_move b)
  have hsrc64 := move_source_square_lt m
  have hdst64 := move_destination_square_lt m
  have hptm1 := ptm_restore (board_make_move b m) b m hok.prev_flags
  have hc0 : move_is_castle m = 0 := not_not.mp hcas
  have hdpb := dst_piece_bounds b m hok
  have hpd : board_piece_on_square (unmake_restore_flags (board_make_move b m) m)
      (move_destination_square m) =
      (if move_is_promotion m ≠ 0 then move_promotion_piece m
        else board_piece_on_square b (move_source_square m)) := by
    rw [piece_on_square_ext (unmake_restore_flags (board_make_move b m) m)
      (board_make_move b m) (fun i _ _ => pieces_unmake_restore_flags _ _ i)
      (move_destination_square m)]
    exact make_piece_on_dst b m hcons hok hcas
  simp only [board_unmake_move]
  rw [hptm1, hpd]
  have hps : (if move_is_promotion m ≠ 0 then PAWN
      else (if move_is_promotion m ≠ 0 then move_promotion_piece m
        else board_piece_on_square b (move_source_square m))) =
      board_piece_on_square b (move_source_square m) := by
    split_ifs with h
    · exact ((hok.promo h).1).symm
    · rfl
  rw [hps]
  rw [pieces_unmake_castle_rook_notcastle _ _ _ _ hc0,
    pieces_unmake_capture _ _ _ _ hj hj2
      (fun hcap => ⟨(hok.cap_main hcap).2.2.1, (hok.cap_main hcap).2.2.2.1⟩),
    pieces_unmake_move_piece _ _ _ _ _ _ j hj hj2 hdpb.1 hdpb.2 hok.piece_lb hok.piece_ub]
  simp only [pieces_unmake_turn_flags, pieces_unmake_restore_flags]
  rw [pieces_make_eq b m hok hcas j hj hj2]
  simp only []
  have hQwf : capQ b m j < 2 ^ 64 := capQ_wf b m hwf j
  have hQd := capQ_dst_false b m hcons hok j hj hj2
  have hQeq : ¬ (move_is_capture m ≠ 0 ∧ j = move_capture_piece m) →
      capQ b m j = pieces b j := fun h3 =>
    capQ_eq_of_ne b m j (fun hh => h3 ((capQ_cond_iff b m hok j).mp hh))
  have hQcap : (move_is_capture m ≠ 0 ∧ j = move_capture_piece m) →
      capQ b m j = bitboard_clear_square (pieces b j) (move_capture_square m) := by
    rintro ⟨hc, hjc⟩
    unfold capQ
    rw [if_pos ((capQ_cond_iff b m hok j).mpr ⟨hc, hjc⟩), mcs_eq b m hok hc]
  have hbitcap : (move_is_capture m ≠ 0 ∧ j = move_capture_piece m) →
      (pieces b j).testBit (move_capture_square m) = true := by
    rintro ⟨hc, hjc⟩
    exact testBit_of_piece_on_square b (move_capture_square m) j
      (by rw [hjc]; exact ((hok.cap_main hc).2.1).symm) hj
  rcases Decidable.em (j = board_piece_on_square b (move_source_square m)) with h1 | h1
  · have hQs : (capQ b m j).testBit (move_source_square m) = true := by
      rw [h1]
      exact capQ_src_true b m hok
    rcases Decidable.em (j = (if move_is_promotion m ≠ 0 then move_promotion_piece m
        else board_piece_on_square b (move_source_square m))) with h2 | h2
    · rcases Decidable.em (move_is_capture m ≠ 0 ∧ j = move_capture_piece m) with h3 | h3
      · rw [if_pos h3, if_pos h1, if_pos h2, if_pos h1, if_pos h2,
          move_bit_roundtrip _ _ _ hQwf hsrc64 hdst64 hok.src_ne_dst hQs hQd, hQcap h3]
        exact set_clear_same _ _ (pieces_wf b hwf j) (mcapsq_cap_lt m h3.1) (hbitcap h3)
      · rw [if_neg h3, if_pos h1, if_pos h2, if_pos h1, if_pos h2,
          move_bit_roundtrip _ _ _ hQwf hsrc64 hdst64 hok.src_ne_dst hQs hQd, hQeq h3]
    · rcases Decidable.em (move_is_capture m ≠ 0 ∧ j = move_capture_piece m) with h3 | h3
      · rw [if_pos h3, if_pos h1, if_neg h2, if_pos h1, if_neg h2,
          set_clear_same _ _ hQwf hsrc64 hQs, hQcap h3]
        exact set_clear_same _ _ (pieces_wf b hwf j) (mcapsq_cap_lt m h3.1) (hbitcap h3)
      · rw [if_neg h3, if_pos h1, if_neg h2, if_pos h1, if_neg h2,
          set_clear_same _ _ hQwf hsrc64 hQs, hQeq h3]
  · rcases Decidable.em (j = (if move_is_promotion m ≠ 0 then move_promotion_piece m
        else board_piece_on_square b (move_source_square m))) with h2 | h2
    · rcases Decidable.em (move_is_capture m ≠ 0 ∧ j = move_capture_piece m) with h3 | h3
      · rw [if_pos h3, if_neg h1, if_pos h2, if_neg h1, if_pos h2,
          clear_set_same _ _ hQwf hdst64 hQd, hQcap h3]
        exact set_clear_same _ _ (pieces_wf b hwf j) (mcapsq_cap_lt m h3.1) (hbitcap h3)
      · rw [if_neg h3, if_neg h1, if_pos h2, if_neg h1, if_pos h2,
          clear_set_same _ _ hQwf hdst64 hQd, hQeq h3]
    · rcases Decidable.em (move_is_capture m ≠ 0 ∧ j = move_capture_piece m) with h3 | h3
      · rw [if_pos h3, if_neg h1, if_neg h2, if_neg h1, if_neg h2, hQcap h3]
        exact set_clear_same _ _ (pieces_wf b hwf j) (mcapsq_cap_lt m h3.1) (hbitcap h3)
      · rw [if_neg h3, if_neg h1, if_neg h2, if_neg h1, if_neg h2, hQeq h3]

/-! Projections for the castle make and unmake paths. -/

theorem players_mgc (b : Board) (m : Nat) (q : Int) (hq : q = 0 ∨ q = 1)
    (hpl : board_player_to_move b = 0 ∨ board_player_to_move b = 1) :
    players (move_gen_make_castle b m) q =
      if q = board_player_to_move b then
        bitboard_set_square (bitboard_clear_square (bitboard_set_square (bitboard_clear_square
          (players b q) (move_source_square m)) (move_destination_square m))
          (if (if board_pos_to_x (move_destination_square m) = 2 then QUEEN else KING) = QUEEN
            then board_pos_from_xy 0 (if board_player_to_move b = WHITE then 0 else 7)
            else board_pos_from_xy 7 (if board_player_to_move b = WHITE then 0 else 7)))
          (if (if board_pos_to_x (move_destination_square m) = 2 then QUEEN else KING) = QUEEN
            then board_pos_from_xy 3 (if board_player_to_move b = WHITE then 0 else 7)
            else board_pos_from_xy 5 (if board_player_to_move b = WHITE then 0 else 7))
      else players b q := by
  rcases Decidable.em (q = board_player_to_move b) with hqp | hqp
  · subst hqp
    have e1 : ∀ (b0 : Board) (i : Int) (v : Nat),
        players (setPieces b0 i v) (board_player_to_move b) =
          players b0 (board_player_to_move b) :=
      fun b0 i v => players_setPieces b0 i v (board_player_to_move b)
    have e2 : ∀ (b0 : Board) (v : Nat),
        players (setPlayers b0 (board_player_to_move b) v) (board_player_to_move b) = v := by
      intro b0 v
      rw [players_setPlayers b0 (board_player_to_move b) (board_player_to_move b) v (by omega)
        (by omega) (by omega) (by omega), if_pos rfl]
    simp only [move_gen_make_castle]
    rw [players_clear_castling, players_clear_castling, e1, e2, e1, e2, e1, e2, e1, e2]
    simp
  · have e1 : ∀ (b0 : Board) (i : Int) (v : Nat), players (setPieces b0 i v) q = players b0 q :=
      fun b0 i v => players_setPieces b0 i v q
    have e2 : ∀ (b0 : Board) (v : Nat),
        players (setPlayers b0 (board_player_to_move b) v) q = players b0 q := by
      intro b0 v
      rw [players_setPlayers b0 (board_player_to_move b) q v (by omega) (by omega) (by omega)
        (by omega), if_neg hqp]
    simp only [move_gen_make_castle]
    rw [players_clear_castling, players_clear_castling, e1, e2, e1, e2, e1, e2, e1, e2,
      if_neg hqp]

theorem pieces_mgc (b : Board) (m : Nat) (j : Int) (hj : 0 ≤ j) (hj2 : j ≤ 5) :
    pieces (move_gen_make_castle b m) j =
      if j = KING then
        bitboard_set_square (bitboard_clear_square (pieces b KING) (move_source_square m))
          (move_destination_square m)
      else if j = ROOK then
        bitboard_set_square (bitboard_clear_square (pieces b ROOK)
          (if (if board_pos_to_x (move_destination_square m) = 2 then QUEEN else KING) = QUEEN
            then board_pos_from_xy 0 (if board_player_to_move b = WHITE then 0 else 7)
            else board_pos_from_xy 7 (if board_player_to_move b = WHITE then 0 else 7)))
          (if (if board_pos_to_x (move_destination_square m) = 2 then QUEEN else KING) = QUEEN
            then board_pos_from_xy 3 (if board_player_to_move b = WHITE then 0 else 7)
            else board_pos_from_xy 5 (if board_player_to_move b = WHITE then 0 else 7))
      else pieces b j := by
  have e0 : ∀ (b0 : Board) (pl : Int) (v : Nat), pieces (setPlayers b0 pl v) j = pieces b0 j :=
    fun b0 pl v => pieces_setPlayers b0 pl v j
  rcases Decidable.em (j = KING) with h1 | h1
  · subst h1
    have eSK : ∀ (b0 : Board) (v : Nat), pieces (setPieces b0 KING v) KING = v := by
      intro b0 v
      rw [pieces_setPieces b0 KING KING v (by decide) (by decide) (by decide) (by decide),
        if_pos rfl]
    have eNR : ∀ (b0 : Board) (v : Nat), pieces (setPieces b0 ROOK v) KING = pieces b0 KING := by
      intro b0 v
      rw [pieces_setPieces b0 ROOK KING v (by decide) (by decide) (by decide) (by decide),
        if_neg (by decide)]
    simp only [move_gen_make_castle]
    rw [pieces_clear_castling, pieces_clear_castling, eNR, e0, eNR, e0, eSK, e0, eSK, e0]
    simp
  · rcases Decidable.em (j = ROOK) with h2 | h2
    · subst h2
      have eSR : ∀ (b0 : Board) (v : Nat), pieces (setPieces b0 ROOK v) ROOK = v := by
        intro b0 v
        rw [pieces_setPieces b0 ROOK ROOK v (by decide) (by decide) (by decide) (by decide),
          if_pos rfl]
      have eNK : ∀ (b0 : Board) (v : Nat),
          pieces (setPieces b0 KING v) ROOK = pieces b0 ROOK := by
        intro b0 v
        rw [pieces_setPieces b0 KING ROOK v (by decide) (by decide) (by decide) (by decide),
          if_neg (by decide)]
      simp only [move_gen_make_castle]
      rw [pieces_clear_castling, pieces_clear_castling, eSR, e0, eSR, e0, eNK, e0, eNK, e0,
        if_neg h1]
      simp
    · have eNK : ∀ (b0 : Board) (v : Nat), pieces (setPieces b0 KING v) j = pieces b0 j := by
        intro b0 v
        rw [pieces_setPieces b0 KING j v (by decide) (by decide) hj hj2,
          if_neg (by rw [show KING = (0 : Int) from rfl] at h1; exact h1)]
      have eNR : ∀ (b0 : Board) (v : Nat), pieces (setPieces b0 ROOK v) j = pieces b0 j := by
        intro b0 v
        rw [pieces_setPieces b0 ROOK j v (by decide) (by decide) hj hj2,
          if_neg (by rw [show ROOK = (3 : Int) from rfl] at h2; exact h2)]
      simp only [move_gen_make_castle]
      rw [pieces_clear_castling, pieces_clear_castling, eNR, e0, eNR, e0, eNK, e0, eNK, e0,
        if_neg h1, if_neg h2]

theorem players_ucr_castle (b : Board) (m : Nat) (player : Int) (dst : Nat)
    (hcastle : move_is_castle m ≠ 0) (q : Int) (hq : q = 0 ∨ q = 1)
    (hpl : player = 0 ∨ player = 1) :
    players (unmake_castle_rook b m player dst) q =
      if q = player then
        bitboard_clear_square (bitboard_set_square (players b q)
          (board_pos_from_xy
            (if (if board_pos_to_x dst = 2 then QUEEN else KING) = QUEEN then 0 else 7)
            (if player = WHITE then 0 else 7)))
          (board_pos_from_xy
            (if (if board_pos_to_x dst = 2 then QUEEN else KING) = QUEEN then 3 else 5)
            (if player = WHITE then 0 else 7))
      else players b q := by
  unfold unmake_castle_rook
  rw [if_pos hcastle]
  rcases Decidable.em (q = player) with hqp | hqp
  · subst hqp
    have e1 : ∀ (b0 : Board) (i : Int) (v : Nat), players (setPieces b0 i v) q = players b0 q :=
      fun b0 i v => players_setPieces b0 i v q
    have e2 : ∀ (b0 : Board) (v : Nat), players (setPlayers b0 q v) q = v := by
      intro b0 v
      rw [players_setPlayers b0 q q v (by omega) (by omega) (by omega) (by omega), if_pos rfl]
    rw [e1, e2, e1, e2]
    simp
  · have e1 : ∀ (b0 : Board) (i : Int) (v : Nat), players (setPieces b0 i v) q = players b0 q :=
      fun b0 i v => players_setPieces b0 i v q
    have e2 : ∀ (b0 : Board) (v : Nat), players (setPlayers b0 player v) q = players b0 q := by
      intro b0 v
      rw [players_setPlayers b0 player q v (by omega) (by omega) (by omega) (by omega),
        if_neg hqp]
    rw [e1, e2, e1, e2, if_neg hqp]

theorem pieces_ucr_castle (b : Board) (m : Nat) (player : Int) (dst : Nat)
    (hcastle : move_is_castle m ≠ 0) (j : Int) (hj : 0 ≤ j) (hj2 : j ≤ 5) :
    pieces (unmake_castle_rook b m player dst) j =
      if j = ROOK then
        bitboard_clear_square (bitboard_set_square (pieces b ROOK)
          (board_pos_from_xy
            (if (if board_pos_to_x dst = 2 then QUEEN else KING) = QUEEN then 0 else 7)
            (if player = WHITE then 0 else 7)))
          (board_pos_from_xy
            (if (if board_pos_to_x dst = 2 then QUEEN else KING) = QUEEN then 3 else 5)
            (if player = WHITE then 0 else 7))
      else pieces b j := by
  unfold unmake_castle_rook
  rw [if_pos hcastle]
  have e0 : ∀ (b0 : Board) (pl : Int) (v : Nat), pieces (setPlayers b0 pl v) j = pieces b0 j :=
    fun b0 pl v => pieces_setPlayers b0 pl v j
  rcases Decidable.em (j = ROOK) with h2 | h2
  · subst h2
    have eSR : ∀ (b0 : Board) (v : Nat), pieces (setPieces b0 ROOK v) ROOK = v := by
      intro b0 v
      rw [pieces_setPieces b0 ROOK ROOK v (by decide) (by decide) (by decide) (by decide),
        if_pos rfl]
    rw [eSR, e0, eSR, e0]
    simp
  · have eNR : ∀ (b0 : Board) (v : Nat), pieces (setPieces b0 ROOK v) j = pieces b0 j := by
      intro b0 v
      rw [pieces_setPieces b0 ROOK j v (by decide) (by decide) hj hj2,
        if_neg (by rw [show ROOK = (3 : Int) from rfl] at h2; exact h2)]
    rw [eNR, e0, eNR, e0, if_neg h2]

theorem players_unmake_capture_nocap (b : Board) (m : Nat) (opp : Int)
    (hcap : move_is_capture m = 0) (p : Int) :
    players (unmake_capture b m opp) p = players b p := by
  unfold unmake_capture
  rw [if_neg (by omega)]

theorem pieces_unmake_capture_nocap (b : Board) (m : Nat) (opp : Int)
    (hcap : move_is_capture m = 0) (j : Int) :
    pieces (unmake_capture b m opp) j = pieces b j := by
  unfold unmake_capture
  rw [if_neg (by omega)]

theorem piece_on_square_king (b : Board) (s : Nat) (h : b.piecesKing.testBit s = true) :
    board_piece_on_square b s = 0 := by
  unfold board_piece_on_square
  rw [if_pos ((check_square_one_iff _ _).mpr h)]

theorem players_make_castle_case (b : Board) (m : Nat) (hcastle : move_is_castle m ≠ 0)
    (q : Int) (hq : q = 0 ∨ q = 1)
    (hpl : board_player_to_move b = 0 ∨ board_player_to_move b = 1) :
    players (board_make_move b m) q =
      if q = board_player_to_move b then
        bitboard_set_square (bitboard_clear_square (bitboard_set_square (bitboard_clear_square
          (players b q) (move_source_square m)) (move_destination_square m))
          (if (if board_pos_to_x (move_destination_square m) = 2 then QUEEN else KING) = QUEEN
            then board_pos_from_xy 0 (if board_player_to_move b = WHITE then 0 else 7)
            else board_pos_from_xy 7 (if board_player_to_move b = WHITE then 0 else 7)))
          (if (if board_pos_to_x (move_destination_square m) = 2 then QUEEN else KING) = QUEEN
            then board_pos_from_xy 3 (if board_player_to_move b = WHITE then 0 else 7)
            else board_pos_from_xy 5 (if board_player_to_move b = WHITE then 0 else 7))
      else players b q := by
  simp only [board_make_move]
  rw [players_make_turn_flags, players_make_ep_flags, if_pos hcastle,
    players_mgc b m q hq hpl]

theorem pieces_make_castle_case (b : Board) (m : Nat) (hcastle : move_is_castle m ≠ 0)
    (j : Int) (hj : 0 ≤ j) (hj2 : j ≤ 5) :
    pieces (board_make_move b m) j =
      if j = KING then
        bitboard_set_square (bitboard_clear_square (pieces b KING) (move_source_square m))
          (move_destination_square m)
      else if j = ROOK then
        bitboard_set_square (bitboard_clear_square (pieces b ROOK)
          (if (if board_pos_to_x (move_destination_square m) = 2 then QUEEN else KING) = QUEEN
            then board_pos_from_xy 0 (if board_player_to_move b = WHITE then 0 else 7)
            else board_pos_from_xy 7 (if board_player_to_move b = WHITE then 0 else 7)))
          (if (if board_pos_to_x (move_destination_square m) = 2 then QUEEN else KING) = QUEEN
            then board_pos_from_xy 3 (if board_player_to_move b = WHITE then 0 else 7)
            else board_pos_from_xy 5 (if board_player_to_move b = WHITE then 0 else 7))
      else pieces b j := by
  simp only [board_make_move]
  rw [pieces_make_turn_flags, pieces_make_ep_flags, if_pos hcastle, pieces_mgc b m j hj hj2]

theorem make_piece_on_dst_castle (b : Board) (m : Nat)
    (hcastle : move_is_castle m ≠ 0) :
    board_piece_on_square (board_make_move b m) (move_destination_square m) = 0 := by
  apply piece_on_square_king
  rw [piecesKing_eq, show pieces (board_make_move b m) 0 =
      pieces (board_make_move b m) KING from rfl,
    pieces_make_castle_case b m hcastle KING (by decide) (by decide), if_pos rfl,
    testBit_set_square]
  simp

theorem players_roundtrip_castle (b : Board) (m : Nat) (hcons : boardConsistent b)
    (hok : MoveOk b m) (hcastle : move_is_castle m ≠ 0) (p : Int) (hp : p = 0 ∨ p = 1) :
    players (board_unmake_move (board_make_move b m) m) p = players b p := by
  have hwf := hcons.2.1
  have hpl := player_to_move_mem b
  have hptm1 := ptm_restore (board_make_move b m) b m hok.prev_flags
  obtain ⟨hcap0, hpromo0, hpieceK, hkingbit, hshape⟩ := hok.castle hcastle
  simp only [board_unmake_move]
  rw [hptm1]
  rw [players_ucr_castle _ _ _ _ hcastle p hp hpl]
  have ecap : ∀ (b0 : Board) (o q : Int), players (unmake_capture b0 m o) q = players b0 q :=
    fun b0 o q => players_unmake_capture_nocap b0 m o hcap0 q
  simp only [ecap]
  rw [players_unmake_move_piece _ _ _ _ _ _ p hp hpl]
  simp only [players_unmake_turn_flags, players_unmake_restore_flags]
  rw [players_make_castle_case b m hcastle p hp hpl]
  rcases hshape with ⟨hplv, hsrcv, hside⟩ | ⟨hplv, hsrcv, hside⟩ <;>
    rcases hside with ⟨hdstv, hsok⟩ | ⟨hdstv, hsok⟩
  · obtain ⟨hsp, hsr, hrdo, hdpo⟩ := hsok
    have hts := hok.src_mine
    rw [hplv, hsrcv] at hts
    have htd := hok.dst_not_mine
    rw [hplv, hdstv] at htd
    rcases Decidable.em (p = board_player_to_move b) with hpp | hpp
    · rw [if_pos hpp, if_pos hpp, if_pos hpp, hsrcv, hdstv]
      rw [hplv] at hpp
      subst hpp
      rw [hplv]
      show bitboard_clear_square (bitboard_set_square (bitboard_set_square
        (bitboard_clear_square (bitboard_set_square (bitboard_clear_square
          (bitboard_set_square (bitboard_clear_square (players b 0) 4) 2) 0) 3)
          2) 4) 0) 3 = players b 0
      exact castle_players_roundtrip _ 4 2 0 3 (players_wf b hwf 0) (by decide)
        (by decide) (by decide) (by decide) (by decide) (by decide) (by decide) (by decide)
        (by decide) (by decide) hts htd hsp (players_testBit_false_of_occ b 3 hrdo 0)
    · rw [if_neg hpp, if_neg hpp, if_neg hpp]
  · obtain ⟨hsp, hsr, hrdo, hdpo⟩ := hsok
    have hts := hok.src_mine
    rw [hplv, hsrcv] at hts
    have htd := hok.dst_not_mine
    rw [hplv, hdstv] at htd
    rcases Decidable.em (p = board_player_to_move b) with hpp | hpp
    · rw [if_pos hpp, if_pos hpp, if_pos hpp, hsrcv, hdstv]
      rw [hplv] at hpp
      subst hpp
      rw [hplv]
      show bitboard_clear_square (bitboard_set_square (bitboard_set_square
        (bitboard_clear_square (bitboard_set_square (bitboard_clear_square
          (bitboard_set_square (bitboard_clear_square (players b 0) 4) 6) 7) 5)
          6) 4) 7) 5 = players b 0
      exact castle_players_roundtrip _ 4 6 7 5 (players_wf b hwf 0) (by decide)
        (by decide) (by decide) (by decide) (by decide) (by decide) (by decide) (by decide)
        (by decide) (by decide) hts htd hsp (players_testBit_false_of_occ b 5 hrdo 0)
    · rw [if_neg hpp, if_neg hpp, if_neg hpp]
  · obtain ⟨hsp, hsr, hrdo, hdpo⟩ := hsok
    have hts := hok.src_mine
    rw [hplv, hsrcv] at hts
    have htd := hok.dst_not_mine
    rw [hplv, hdstv] at htd
    rcases Decidable.em (p = board_player_to_move b) with hpp | hpp
    · rw [if_pos hpp, if_pos hpp, if_pos hpp, hsrcv, hdstv]
      rw [hplv] at hpp
      subst hpp
      rw [hplv]
      show bitboard_clear_square (bitboard_set_square (bitboard_set_square
        (bitboard_clear_square (bitboard_set_square (bitboard_clear_square
          (bitboard_set_square (bitboard_clear_square (players b 1) 60) 58) 56) 59)
          58) 60) 56) 59 = players b 1
      exact castle_players_roundtrip _ 60 58 56 59 (players_wf b hwf 1) (by decide)
        (by decide) (by decide) (by decide) (by decide) (by decide) (by decide) (by decide)
        (by decide) (by decide) hts htd hsp (players_testBit_false_of_occ b 59 hrdo 1)
    · rw [if_neg hpp, if_neg hpp, if_neg hpp]
  · obtain ⟨hsp, hsr, hrdo, hdpo⟩ := hsok
    have hts := hok.src_mine
    rw [hplv, hsrcv] at hts
    have htd := hok.dst_not_mine
    rw [hplv, hdstv] at htd
    rcases Decidable.em (p = board_player_to_move b) with hpp | hpp
    · rw [if_pos hpp, if_pos hpp, if_pos hpp, hsrcv, hdstv]
      rw [hplv] at hpp
      subst hpp
      rw [hplv]
      show bitboard_clear_square (bitboard_set_square (bitboard_set_square
        (bitboard_clear_square (bitboard_set_square (bitboard_clear_square
          (bitboard_set_square (bitboard_clear_square (players b 1) 60) 62) 63) 61)
          62) 60) 63) 61 = players b 1
      exact castle_players_roundtrip _ 60 62 63 61 (players_wf b hwf 1) (by decide)
        (by decide) (by decide) (by decide) (by decide) (by decide) (by decide) (by decide)
        (by decide) (by decide) hts htd hsp (players_testBit_false_of_occ b 61 hrdo 1)
    · rw [if_neg hpp, if_neg hpp, if_neg hpp]

theorem pieces_bit_false_of_occ (b : Board) (hocc : occCons b) (s : Nat)
    (h : (occUnion b).testBit s = false) (j : Int) (hj : 0 ≤ j) (hj2 : j ≤ 5) :
    (pieces b j).testBit s = false :=
  pieceUnion_testBit_false b s (by rw [← hocc]; exact h) j hj hj2

theorem pieces_roundtrip_castle (b : Board) (m : Nat) (hcons : boardConsistent b)
    (hok : MoveOk b m) (hcastle : move_is_castle m ≠ 0) (j : Int) (hj : 0 ≤ j) (hj2 : j ≤ 5) :
    pieces (board_unmake_move (board_make_move b m) m) j = pieces b j := by
  have hwf := hcons.2.1
  have hocc := hcons.2.2.1
  have hpl := player_to_move_mem b
  have hptm1 := ptm_restore (board_make_move b m) b m hok.prev_flags
  obtain ⟨hcap0, hpromo0, hpieceK, hkingbit, hshape⟩ := hok.castle hcastle
  have hpdK : board_piece_on_square (unmake_restore_flags (board_make_move b m) m)
      (move_destination_square m) = 0 := by
    rw [piece_on_square_ext (unmake_restore_flags (board_make_move b m) m)
      (board_make_move b m) (fun i _ _ => pieces_unmake_restore_flags _ _ i)
      (move_destination_square m)]
    exact make_piece_on_dst_castle b m hcastle
  simp only [board_unmake_move]
  rw [hptm1, hpdK, if_neg (fun hh => hh hpromo0)]
  rw [pieces_ucr_castle _ _ _ _ hcastle j hj hj2]
  have ecap : ∀ (b0 : Board) (o i : Int), pieces (unmake_capture b0 m o) i = pieces b0 i :=
    fun b0 o i => pieces_unmake_capture_nocap b0 m o hcap0 i
  rcases Decidable.em (j = KING) with h1 | h1
  · subst h1
    rw [if_neg (by decide)]
    simp only [ecap]
    rw [pieces_unmake_move_piece _ _ _ _ _ _ KING (by decide) (by decide) (by decide) (by decide)
      (by decide) (by decide)]
    simp only []
    rw [if_pos (show (KING : Int) = 0 from rfl), if_pos (show (KING : Int) = 0 from rfl)]
    simp only [pieces_unmake_turn_flags, pieces_unmake_restore_flags]
    rw [pieces_make_castle_case b m hcastle KING (by decide) (by decide), if_pos rfl]
    rcases hshape with ⟨hplv, hsrcv, hside⟩ | ⟨hplv, hsrcv, hside⟩ <;>
      rcases hside with ⟨hdstv, hsok⟩ | ⟨hdstv, hsok⟩
    · obtain ⟨hsp, hsr, hrdo, hdpo⟩ := hsok
      rw [hsrcv, hdstv]
      have hKs := hkingbit
      rw [piecesKing_eq, hsrcv] at hKs
      have hKd : (pieces b 0).testBit 2 = false := pieces_bit_false_of_occ b hocc 2
        hdpo 0 (by decide) (by decide)
      exact castle_king_roundtrip (pieces b KING) 4 2 (pieces_wf b hwf KING) (by decide)
        (by decide) (by decide) hKs hKd
    · obtain ⟨hsp, hsr, hrdo, hdpo⟩ := hsok
      rw [hsrcv, hdstv]
      have hKs := hkingbit
      rw [piecesKing_eq, hsrcv] at hKs
      have hKd : (pieces b 0).testBit 6 = false := pieces_bit_false_of_occ b hocc 6
        hdpo 0 (by decide) (by decide)
      exact castle_king_roundtrip (pieces b KING) 4 6 (pieces_wf b hwf KING) (by decide)
        (by decide) (by decide) hKs hKd
    · obtain ⟨hsp, hsr, hrdo, hdpo⟩ := hsok
      rw [hsrcv, hdstv]
      have hKs := hkingbit
      rw [piecesKing_eq, hsrcv] at hKs
      have hKd : (pieces b 0).testBit 58 = false := pieces_bit_false_of_occ b hocc 58
        hdpo 0 (by decide) (by decide)
      exact castle_king_roundtrip (pieces b KING) 60 58 (pieces_wf b hwf KING) (by decide)
        (by decide) (by decide) hKs hKd
    · obtain ⟨hsp, hsr, hrdo, hdpo⟩ := hsok
      rw [hsrcv, hdstv]
      have hKs := hkingbit
      rw [piecesKing_eq, hsrcv] at hKs
      have hKd : (pieces b 0).testBit 62 = false := pieces_bit_false_of_occ b hocc 62
        hdpo 0 (by decide) (by decide)
      exact castle_king_roundtrip (pieces b KING) 60 62 (pieces_wf b hwf KING) (by decide)
        (by decide) (by decide) hKs hKd
  · rcases Decidable.em (j = ROOK) with h2 | h2
    · subst h2
      rw [if_pos rfl]
      simp only [ecap]
      rw [pieces_unmake_move_piece _ _ _ _ _ _ ROOK (by decide) (by decide) (by decide)
        (by decide) (by decide) (by decide)]
      simp only []
      rw [if_neg (by decide), if_neg (by decide)]
      simp only [pieces_unmake_turn_flags, pieces_unmake_restore_flags]
      rw [pieces_make_castle_case b m hcastle ROOK (by decide) (by decide), if_neg (by decide),
        if_pos rfl]
      rcases hshape with ⟨hplv, hsrcv, hside⟩ | ⟨hplv, hsrcv, hside⟩ <;>
        rcases hside with ⟨hdstv, hsok⟩ | ⟨hdstv, hsok⟩
      · obtain ⟨hsp, hsr, hrdo, hdpo⟩ := hsok
        rw [hdstv, hplv]
        have hRs := hsr
        rw [piecesRook_eq] at hRs
        have hRd : (pieces b 3).testBit 3 = false :=
          pieces_bit_false_of_occ b hocc 3 hrdo 3 (by decide) (by decide)
        show bitboard_clear_square (bitboard_set_square (bitboard_set_square
          (bitboard_clear_square (pieces b ROOK) 0) 3) 0) 3 = pieces b ROOK
        exact castle_rook_roundtrip (pieces b ROOK) 0 3 (pieces_wf b hwf ROOK)
          (by decide) (by decide) (by decide) hRs hRd
      · obtain ⟨hsp, hsr, hrdo, hdpo⟩ := hsok
        rw [hdstv, hplv]
        have hRs := hsr
        rw [piecesRook_eq] at hRs
        have hRd : (pieces b 3).testBit 5 = false :=
          pieces_bit_false_of_occ b hocc 5 hrdo 3 (by decide) (by decide)
        show bitboard_clear_square (bitboard_set_square (bitboard_set_square
          (bitboard_clear_square (pieces b ROOK) 7) 5) 7) 5 = pieces b ROOK
        exact castle_rook_roundtrip (pieces b ROOK) 7 5 (pieces_wf b hwf ROOK)
          (by decide) (by decide) (by decide) hRs hRd
      · obtain ⟨hsp, hsr, hrdo, hdpo⟩ := hsok
        rw [hdstv, hplv]
        have hRs := hsr
        rw [piecesRook_eq] at hRs
        have hRd : (pieces b 3).testBit 59 = false :=
          pieces_bit_false_of_occ b hocc 59 hrdo 3 (by decide) (by decide)
        show bitboard_clear_square (bitboard_set_square (bitboard_set_square
          (bitboard_clear_square (pieces b ROOK) 56) 59) 56) 59 = pieces b ROOK
        exact castle_rook_roundtrip (pieces b ROOK) 56 59 (pieces_wf b hwf ROOK)
          (by decide) (by decide) (by decide) hRs hRd
      · obtain ⟨hsp, hsr, hrdo, hdpo⟩ := hsok
        rw [hdstv, hplv]
        have hRs := hsr
        rw [piecesRook_eq] at hRs
        have hRd : (pieces b 3).testBit 61 = false :=
          pieces_bit_false_of_occ b hocc 61 hrdo 3 (by decide) (by decide)
        show bitboard_clear_square (bitboard_set_square (bitboard_set_square
          (bitboard_clear_square (pieces b ROOK) 63) 61) 63) 61 = pieces b ROOK
        exact castle_rook_roundtrip (pieces b ROOK) 63 61 (pieces_wf b hwf ROOK)
          (by decide) (by decide) (by decide) hRs hRd
    · rw [if_neg h2]
      simp only [ecap]
      rw [pieces_unmake_move_piece _ _ _ _ _ _ j hj hj2 (by decide) (by decide) (by decide)
        (by decide)]
      simp only []
      rw [if_neg (show ¬ (j = 0) from fun hh => h1 hh),
        if_neg (show ¬ (j = 0) from fun hh => h1 hh)]
      simp only [pieces_unmake_turn_flags, pieces_unmake_restore_flags]
      rw [pieces_make_castle_case b m hcastle j hj hj2, if_neg h1, if_neg h2]

/-- `board_make_move` and `board_unmake_move` are mutually inverse on a
consistent position for any move satisfying the structural facts `MoveOk`. -/
theorem make_unmake_roundtrip (b : Board) (m : Nat) (hcons : boardConsistent b)
    (hok : MoveOk b m) :
    board_unmake_move (board_make_move b m) m = b := by
  apply board_eq_of_parts
  · intro p hp hp2
    rcases Decidable.em (move_is_castle m ≠ 0) with hc | hc
    · exact players_roundtrip_castle b m hcons hok hc p (by omega)
    · exact players_roundtrip_noncastle b m hcons hok hc p (by omega)
  · intro i hi hi2
    rcases Decidable.em (move_is_castle m ≠ 0) with hc | hc
    · exact pieces_roundtrip_castle b m hcons hok hc i hi hi2
    · exact pieces_roundtrip_noncastle b m hcons hok hc i hi hi2
  · exact flags_roundtrip b m hcons.2.1.2.2.2.2.2.2.2.2 hok.prev_flags

/-! Toward the generator: bit-scan, field extraction of constructed moves. -/

theorem scanLsbAux_spec : ∀ (fuel n : Nat), n ≠ 0 → n < 2 ^ fuel →
    scanLsbAux fuel n < fuel ∧ n.testBit (scanLsbAux fuel n) = true := by
  intro fuel
  induction fuel with
  | zero =>
    intro n hn hlt
    omega
  | succ f ih =>
    intro n hn hlt
    rw [scanLsbAux]
    rcases Decidable.em (n &&& 1 = 1) with h1 | h1
    · rw [if_pos h1]
      refine ⟨by omega, ?_⟩
      rw [Nat.and_one_is_mod] at h1
      simp [Nat.testBit_zero, h1]
    · rw [if_neg h1]
      have hmod : n % 2 = 0 := by
        rw [Nat.and_one_is_mod] at h1
        omega
      have hsh : n >>> 1 = n / 2 := by
        rw [Nat.shiftRight_eq_div_pow]
      have hne : n >>> 1 ≠ 0 := by
        rw [hsh]
        omega
      have hlt2 : n >>> 1 < 2 ^ f := by
        rw [hsh]
        have : 2 ^ (f + 1) = 2 ^ f * 2 := by ring
        omega
      obtain ⟨ihl, ihb⟩ := ih (n >>> 1) hne hlt2
      refine ⟨by omega, ?_⟩
      rw [Nat.testBit_shiftRight] at ihb
      exact ihb

theorem scan_lsb_spec (n : Nat) (hn : n ≠ 0) (hwf : n < 2 ^ 64) :
    bitboard_scan_lsb n < 64 ∧ n.testBit (bitboard_scan_lsb n) = true :=
  scanLsbAux_spec 64 n hn hwf

theorem and_subset_zero (x c p : Nat) (h : x &&& p = 0) : (x &&& c) &&& p = 0 := by
  rw [Nat.land_assoc, Nat.land_comm c p, ← Nat.land_assoc, h, Nat.zero_and]

theorem mask_and_self_zero (x p : Nat) (hp : p < 2 ^ 64) :
    (x &&& (MASK64 ^^^ p)) &&& p = 0 := by
  apply Nat.eq_of_testBit_eq
  intro i
  simp only [Nat.testBit_land, Nat.testBit_xor, MASK64_testBit, Nat.zero_testBit]
  rcases hpi : p.testBit i
  · simp
  · have hi : i < 64 := by
      by_contra hge
      rw [Nat.testBit_eq_false_of_lt
        (lt_of_lt_of_le hp (Nat.pow_le_pow_right (by omega) (by omega)))] at hpi
      exact Bool.false_ne_true hpi
    simp [hi, hpi]

theorem piece_on_neg_one_pieceUnion (b : Board) (s : Nat)
    (h : board_piece_on_square b s = -1) : (pieceUnion b).testBit s = false := by
  unfold board_piece_on_square at h
  split_ifs at h with h0 h1 h2 h3 h4 h5
  unfold pieceUnion
  simp only [Nat.testBit_lor, Bool.or_eq_false_iff]
  have hcsb : ∀ (x : Nat) (t : Nat), ¬ (bitboard_check_square x t = 1) → x.testBit t = false := by
    intro x t hx
    rw [← check_square_zero_iff]
    unfold bitboard_check_square at *
    have := Nat.and_le_right (n := x >>> t) (m := 1)
    omega
  exact ⟨⟨⟨⟨⟨hcsb _ _ h0, hcsb _ _ h1⟩, hcsb _ _ h2⟩, hcsb _ _ h3⟩, hcsb _ _ h4⟩, hcsb _ _ h5⟩

theorem piece_on_bounds_of_pieceUnion (b : Board) (s : Nat)
    (h : (pieceUnion b).testBit s = true) :
    0 ≤ board_piece_on_square b s ∧ board_piece_on_square b s ≤ 5 := by
  rcases piece_on_square_range b s with hr | hr
  · rw [piece_on_neg_one_pieceUnion b s hr] at h
    exact absurd h (by decide)
  · exact hr

set_option maxHeartbeats 2000000 in
theorem construct_fields (f s d : Nat) (ip pp ic cp : Int) (cpos : Nat) (icas : Int)
    (hs : s < 64) (hd : d < 64) (hpp : 0 ≤ pp) (hpp2 : pp < 8) (hcp : 0 ≤ cp) (hcp2 : cp < 8)
    (hcpos : cpos < 64) :
    move_source_square (construct_move f s d ip pp ic cp cpos icas) = s ∧
    move_destination_square (construct_move f s d ip pp ic cp cpos icas) = d ∧
    move_is_promotion (construct_move f s d ip pp ic cp cpos icas) =
      (if ip ≠ 0 then 1 else 0) ∧
    move_promotion_piece (construct_move f s d ip pp ic cp cpos icas) =
      (if ip ≠ 0 then pp else -1) ∧
    move_is_capture (construct_move f s d ip pp ic cp cpos icas) =
      (if ic ≠ 0 then 1 else 0) ∧
    move_capture_piece (construct_move f s d ip pp ic cp cpos icas) =
      (if ic ≠ 0 then cp else -1) ∧
    move_capture_square (construct_move f s d ip pp ic cp cpos icas) =
      (if ic ≠ 0 then cpos else BOARD_POS_INVALID) ∧
    move_is_castle (construct_move f s d ip pp ic cp cpos icas) =
      (if icas ≠ 0 then 1 else 0) ∧
    construct_move f s d ip pp ic cp cpos icas % 2 ^ 16 = f % 2 ^ 16 ∧
    construct_move f s d ip pp ic cp cpos icas < 2 ^ 43 := by
  rw [construct_move_linear f s d ip pp ic cp cpos icas hs hd hpp hpp2 hcp hcp2 hcpos]
  have hppn : pp.toNat < 8 := by omega
  have hcpn : cp.toNat < 8 := by omega
  have hppe : ((pp.toNat : Nat) : Int) = pp := Int.toNat_of_nonneg hpp
  have hcpe : ((cp.toNat : Nat) : Int) = cp := Int.toNat_of_nonneg hcp
  have hfm : f % 65536 < 65536 := Nat.mod_lt f (by norm_num)
  rcases Decidable.em (ip ≠ 0) with hip | hip <;>
    rcases Decidable.em (ic ≠ 0) with hic | hic <;>
    rcases Decidable.em (icas ≠ 0) with hicas | hicas <;>
    simp only [if_pos hip, if_neg hip, if_pos hic, if_neg hic, if_pos hicas, if_neg hicas] <;>
    refine ⟨?_, ?_, ?_, ?_, ?_, ?_, ?_, ?_, ?_, ?_⟩ <;>
    first
      | (rw [msrc_eq]; omega)
      | (rw [mdst_eq]; omega)
      | (rw [mispromo_eq]
         split_ifs with hh
         · rfl
         · exact absurd (by omega) hh)
      | (rw [mispromo_eq]
         split_ifs with hh
         · exact absurd hh (by omega)
         · rfl)
      | (rw [mpromopiece_eq]
         split_ifs with hh
         · rw [← hppe]
           exact congrArg (fun n : Nat => (n : Int)) (by omega)
         · exact absurd (by omega) hh)
      | (rw [mpromopiece_eq]
         split_ifs with hh
         · exact absurd hh (by omega)
         · rfl)
      | (rw [miscap_eq]
         split_ifs with hh
         · rfl
         · exact absurd (by omega) hh)
      | (rw [miscap_eq]
         split_ifs with hh
         · exact absurd hh (by omega)
         · rfl)
      | (rw [mcappiece_eq]
         split_ifs with hh
         · rw [← hcpe]
           exact congrArg (fun n : Nat => (n : Int)) (by omega)
         · exact absurd (by omega) hh)
      | (rw [mcappiece_eq]
         split_ifs with hh
         · exact absurd hh (by omega)
         · rfl)
      | (rw [mcapsq_eq]
         split_ifs with hh
         · omega
         · exact absurd (by omega) hh)
      | (rw [mcapsq_eq]
         split_ifs with hh
         · exact absurd hh (by omega)
         · rfl)
      | (rw [miscastle_eq]
         norm_cast
         done)
      | (rw [miscastle_eq]
         norm_cast
         omega)
      | omega

theorem ep_pawn_pos_val (t : Nat) (ht : t < 64) :
    (t / 8 = 2 → en_passant_target_to_pawn_pos t = t + 8) ∧
    (t / 8 = 5 → en_passant_target_to_pawn_pos t = t - 8) ∧
    (t / 8 ≠ 2 → t / 8 ≠ 5 → en_passant_target_to_pawn_pos t = 255) := by
  interval_cases t <;> exact ⟨fun h => by first | rfl | omega,
    fun h => by first | rfl | omega, fun h1 h2 => by first | rfl | omega⟩

theorem opp_bit_false (b : Board) (hinv : board_invariants_holds b) (p : Int)
    (hp : p = 0 ∨ p = 1) (s : Nat) (h : (players b p).testBit s = true) :
    (players b (cNot p)).testBit s = false := by
  have hd := players_disjoint b hinv
  rcases hp with hp | hp <;> subst hp
  · rw [show cNot 0 = 1 by decide]
    rw [show players b 0 = b.playersWhite from rfl] at h
    show b.playersBlack.testBit s = false
    exact testBit_false_of_disjoint hd h
  · rw [show cNot 1 = 0 by decide]
    rw [show players b 1 = b.playersBlack from rfl] at h
    show b.playersWhite.testBit s = false
    refine testBit_false_of_disjoint ?_ h
    rw [Nat.land_comm]
    exact hd

theorem ep_facts (b : Board) (hcons : boardConsistent b)
    (hep : board_get_en_passant_target b ≠ BOARD_POS_INVALID) :
    board_get_en_passant_target b < 64 ∧
    en_passant_target_to_pawn_pos (board_get_en_passant_target b) < 64 ∧
    en_passant_target_to_pawn_pos (board_get_en_passant_target b) ≠
      board_get_en_passant_target b ∧
    (occUnion b).testBit (board_get_en_passant_target b) = false ∧
    (players b (cNot (board_player_to_move b))).testBit
      (en_passant_target_to_pawn_pos (board_get_en_passant_target b)) = true ∧
    b.piecesPawn.testBit
      (en_passant_target_to_pawn_pos (board_get_en_passant_target b)) = true := by
  obtain ⟨hinv, hwf, hocc, hcas, hepc⟩ := hcons
  have hpresent : b.flags &&& BOARD_FLAGS_EP_PRESENT ≠ 0 := by
    intro hz
    apply hep
    unfold board_get_en_passant_target
    rw [if_pos hz]
  have htv : board_get_en_passant_target b = b.flags &&& BOARD_FLAGS_EP_SQUARE := by
    unfold board_get_en_passant_target
    rw [if_neg hpresent]
  have ht64 : board_get_en_passant_target b < 64 := by
    rw [htv]
    have h1 : b.flags &&& BOARD_FLAGS_EP_SQUARE ≤ BOARD_FLAGS_EP_SQUARE := Nat.and_le_right
    have h2 : BOARD_FLAGS_EP_SQUARE = 63 := rfl
    omega
  obtain ⟨hocc0, hpb⟩ := hepc hpresent
  rw [← htv] at hocc0 hpb
  have hpb1 : (players b (cNot (board_player_to_move b))).testBit
      (en_passant_target_to_pawn_pos (board_get_en_passant_target b)) = true ∧
      b.piecesPawn.testBit
        (en_passant_target_to_pawn_pos (board_get_en_passant_target b)) = true := by
    have := Nat.testBit_land (players b (cNot (board_player_to_move b))) b.piecesPawn
      (en_passant_target_to_pawn_pos (board_get_en_passant_target b))
    rw [hpb] at this
    constructor
    · rcases hx : (players b (cNot (board_player_to_move b))).testBit
          (en_passant_target_to_pawn_pos (board_get_en_passant_target b))
      · rw [hx] at this
        simp at this
      · rfl
    · rcases hx : b.piecesPawn.testBit
          (en_passant_target_to_pawn_pos (board_get_en_passant_target b))
      · rw [hx] at this
        simp at this
      · rfl
  have hppv := ep_pawn_pos_val (board_get_en_passant_target b) ht64
  have hpos_ne : en_passant_target_to_pawn_pos (board_get_en_passant_target b) ≠ 255 := by
    intro h255
    rw [h255] at hpb1
    have : (players b (cNot (board_player_to_move b))).testBit 255 = false :=
      testBit_eq_false_of_wf (players_wf b hwf _) (by omega)
    rw [this] at hpb1
    exact Bool.false_ne_true hpb1.1
  have hrange : board_get_en_passant_target b / 8 = 2 ∨
      board_get_en_passant_target b / 8 = 5 := by
    by_contra hc
    push_neg at hc
    exact hpos_ne (hppv.2.2 hc.1 hc.2)
  refine ⟨ht64, ?_, ?_, hocc0, hpb1.1, hpb1.2⟩
  · rcases hrange with h | h
    · rw [hppv.1 h]
      omega
    · rw [hppv.2.1 h]
      omega
  · rcases hrange with h | h
    · rw [hppv.1 h]
      omega
    · rw [hppv.2.1 h]
      have : 8 ≤ board_get_en_passant_target b := by omega
      omega

set_option maxHeartbeats 1000000 in
/-- Any move the generator constructs from a pending destination bit
satisfies the structural facts `MoveOk` (the capture metadata follows one
of the three shapes the code produces), and is distinct from `MOVE_END`. -/
theorem from_cur_move_ok (b : Board) (hcons : boardConsistent b) (src dst : Nat)
    (ct promo : Int) (hsrc64 : src < 64) (hdst64 : dst < 64)
    (hctlb : 0 ≤ ct) (hctub : ct ≤ 5)
    (hpsrc : (pieces b ct).testBit src = true)
    (hplsrc : (players b (board_player_to_move b)).testBit src = true)
    (hpldst : (players b (board_player_to_move b)).testBit dst = false)
    (hplb : 2 ≤ promo) (hpub : promo ≤ 5)
    (ip ic cappiece : Int) (cappos : Nat)
    (hipct : ip ≠ 0 → ct = PAWN)
    (hcap : (ic = 1 ∧ ct = PAWN ∧ board_get_en_passant_target b ≠ BOARD_POS_INVALID ∧
        dst = board_get_en_passant_target b ∧
        cappiece = PAWN ∧ cappos = en_passant_target_to_pawn_pos (board_get_en_passant_target b))
      ∨ (ic = 1 ∧ (players b (cNot (board_player_to_move b))).testBit dst = true ∧
          cappiece = board_piece_on_square b dst ∧ cappos = dst)
      ∨ (ic = 0 ∧ (players b (cNot (board_player_to_move b))).testBit dst = false ∧
          cappiece = 0 ∧ cappos = 0)) :
    MoveOk b (construct_move b.flags src dst ip promo ic cappiece cappos 0) ∧
    construct_move b.flags src dst ip promo ic cappiece cappos 0 ≠ MOVE_END := by
  obtain ⟨hinv, hwf, hocc, hcstl, hepc⟩ := hcons
  have hplmem := player_to_move_mem b
  have hsrc_ne_dst : src ≠ dst := by
    intro h
    rw [h, hpldst] at hplsrc
    exact Bool.false_ne_true hplsrc
  have hpiece : board_piece_on_square b src = ct :=
    piece_on_square_of_testBit b hinv ct src hctlb hctub hpsrc
  have hcp8 : 0 ≤ cappiece ∧ cappiece < 8 := by
    rcases hcap with ⟨-, -, -, -, hcpv, -⟩ | ⟨-, hb2, hcpv, -⟩ | ⟨-, -, hcpv, -⟩
    · rw [hcpv]
      decide
    · rw [hcpv]
      have hoccb : (occUnion b).testBit dst = true := by
        unfold occUnion
        rw [Nat.testBit_lor]
        rcases hplmem with hpl | hpl <;> rw [hpl] at hb2
        · rw [show cNot 0 = 1 by decide] at hb2
          rw [show players b 1 = b.playersBlack from rfl] at hb2
          simp [hb2]
        · rw [show cNot 1 = 0 by decide] at hb2
          rw [show players b 0 = b.playersWhite from rfl] at hb2
          simp [hb2]
      have := piece_on_bounds_of_pieceUnion b dst (by rw [← hocc]; exact hoccb)
      omega
    · rw [hcpv]
      decide
  have hcpos64 : cappos < 64 := by
    rcases hcap with ⟨-, -, hepne, -, -, hcqv⟩ | ⟨-, -, -, hcqv⟩ | ⟨-, -, -, hcqv⟩ <;>
      rw [hcqv]
    · exact (ep_facts b ⟨hinv, hwf, hocc, hcstl, hepc⟩ hepne).2.1
    · exact hdst64
    · omega
  obtain ⟨hsrcF, hdstF, hipF, hppF, hicF, hcpF, hcqF, hicasF, hprevF, hltF⟩ :=
    construct_fields b.flags src dst ip promo ic cappiece cappos 0 hsrc64 hdst64
      (by omega) (by omega) hcp8.1 hcp8.2 hcpos64
  have hicasZ : move_is_castle (construct_move b.flags src dst ip promo ic cappiece cappos 0)
      = 0 := by
    rw [hicasF, if_neg (by omega)]
  refine ⟨⟨?_, ?_, ?_, ?_, ?_, ?_, ?_, ?_, ?_, ?_, ?_⟩, ?_⟩
  · exact hprevF
  · rw [hsrcF, hdstF]
    exact hsrc_ne_dst
  · rw [hsrcF]
    exact hplsrc
  · rw [hsrcF, hpiece]
    exact hctlb
  · rw [hsrcF, hpiece]
    exact hctub
  · rw [hdstF]
    exact hpldst
  · intro hprom
    rw [hipF] at hprom
    have hipne : ip ≠ 0 := by
      intro hz
      rw [if_neg (by omega : ¬ ip ≠ 0)] at hprom
      exact hprom rfl
    rw [hsrcF, hpiece, hppF, if_pos hipne]
    exact ⟨hipct hipne, hplb, hpub⟩
  · intro hnc
    rw [hicF] at hnc
    have hicz : ic = 0 := by
      rcases Decidable.em (ic ≠ 0) with h | h
      · rw [if_pos h] at hnc
        omega
      · omega
    rw [hdstF]
    rcases hcap with ⟨hic1, -⟩ | ⟨hic1, -⟩ | ⟨-, hb2, -⟩
    · omega
    · omega
    · exact hb2
  · intro hc
    rw [hicF] at hc
    have hicne : ic ≠ 0 := by
      intro hz
      rw [if_neg (by omega : ¬ ic ≠ 0)] at hc
      exact hc rfl
    rw [hcqF, if_pos hicne, hcpF, if_pos hicne, hsrcF]
    rcases hcap with ⟨-, -, hepne, hdev, hcpv, hcqv⟩ | ⟨-, hb2, hcpv, hcqv⟩ | ⟨hic0, -⟩
    · obtain ⟨ht64, hpp64, hppne, hocc0, hplpp, hpwpp⟩ :=
        ep_facts b ⟨hinv, hwf, hocc, hcstl, hepc⟩ hepne
      refine ⟨?_, ?_, ?_, ?_, ?_⟩
      · rw [hcqv]
        intro hq
        rw [hq] at hplpp
        have := opp_bit_false b hinv (board_player_to_move b) hplmem src hplsrc
        rw [this] at hplpp
        exact Bool.false_ne_true hplpp
      · rw [hcqv, hcpv]
        have : board_piece_on_square b
            (en_passant_target_to_pawn_pos (board_get_en_passant_target b)) = PAWN := by
          apply piece_on_square_of_testBit b hinv 1 _ (by decide) (by decide)
          rw [show pieces b 1 = b.piecesPawn from rfl]
          exact hpwpp
        rw [this]
      · rw [hcpv]
        decide
      · rw [hcpv]
        decide
      · rw [hcqv]
        exact hplpp
    · refine ⟨?_, ?_, ?_, ?_, ?_⟩
      · rw [hcqv]
        exact fun h => hsrc_ne_dst h.symm
      · rw [hcqv, hcpv]
      · rw [hcpv]
        exact (piece_on_bounds_of_pieceUnion b dst (by
          rw [← hocc]
          unfold occUnion
          rw [Nat.testBit_lor]
          rcases hplmem with hpl | hpl <;> rw [hpl] at hb2
          · rw [show cNot 0 = 1 by decide] at hb2
            rw [show players b 1 = b.playersBlack from rfl] at hb2
            simp [hb2]
          · rw [show cNot 1 = 0 by decide] at hb2
            rw [show players b 0 = b.playersWhite from rfl] at hb2
            simp [hb2])).1
      · rw [hcpv]
        exact (piece_on_bounds_of_pieceUnion b dst (by
          rw [← hocc]
          unfold occUnion
          rw [Nat.testBit_lor]
          rcases hplmem with hpl | hpl <;> rw [hpl] at hb2
          · rw [show cNot 0 = 1 by decide] at hb2
            rw [show players b 1 = b.playersBlack from rfl] at hb2
            simp [hb2]
          · rw [show cNot 1 = 0 by decide] at hb2
            rw [show players b 0 = b.playersWhite from rfl] at hb2
            simp [hb2])).2
      · rw [hcqv]
        exact hb2
    · omega
  · intro hc
    rw [hicF] at hc
    have hicne : ic ≠ 0 := by
      intro hz
      rw [if_neg (by omega : ¬ ic ≠ 0)] at hc
      exact hc rfl
    rw [hcqF, if_pos hicne, hdstF]
    constructor
    · intro hcond
      rcases hcap with ⟨-, -, hepne, hdev, hcpv, hcqv⟩ | ⟨-, hb2, hcpv, hcqv⟩ | ⟨hic0, -⟩
      · obtain ⟨ht64, hpp64, hppne, hocc0, hplpp, hpwpp⟩ :=
          ep_facts b ⟨hinv, hwf, hocc, hcstl, hepc⟩ hepne
        refine ⟨hcqv, ?_, ?_⟩
        · rw [hcqv, hdev]
          exact hppne
        · rw [hdev]
          exact hocc0
      · obtain ⟨ht64, hpp64, hppne, hocc0, hplpp, hpwpp⟩ :=
          ep_facts b ⟨hinv, hwf, hocc, hcstl, hepc⟩ hcond.1
        rw [hcond.2] at hocc0
        have := players_testBit_false_of_occ b dst hocc0 (cNot (board_player_to_move b))
        rw [this] at hb2
        exact absurd hb2 (by decide)
      · omega
    · intro hcond
      rcases hcap with ⟨-, hctp, hepne, hdev, hcpv, hcqv⟩ | ⟨-, hb2, hcpv, hcqv⟩ | ⟨hic0, -⟩
      · exact absurd ⟨hepne, hdev.symm⟩ hcond
      · exact hcqv
      · omega
  · intro hc
    rw [hicasZ] at hc
    exact absurd rfl hc
  · rw [show MOVE_END = 2 ^ 64 - 1 by decide]
    omega

theorem check_square_ne_one (x t : Nat) (hx : ¬ bitboard_check_square x t = 1) :
    x.testBit t = false := by
  rw [← check_square_zero_iff]
  unfold bitboard_check_square at *
  have := Nat.and_le_right (n := x >>> t) (m := 1)
  omega

theorem genok_next_promote (g : MoveGen) (hok : GenOk g) :
    GenOk (move_gen_next_promote g) ∧ (move_gen_next_promote g).board = g.board ∧
    (move_gen_next_promote g).cur_mode = g.cur_mode := by
  simp only [move_gen_next_promote]
  split_ifs with h
  · exact ⟨⟨hok.cons, hok.fmm, hok.occs, hok.sq64, hok.ctlb, hok.cmwf,
      (by decide : (2 : Int) ≤ KNIGHT), (by decide : (KNIGHT : Int) ≤ 5),
      hok.cur⟩, rfl, rfl⟩
  · refine ⟨⟨hok.cons, hok.fmm, hok.occs, hok.sq64, hok.ctlb, hok.cmwf, ?_, ?_, hok.cur⟩,
      rfl, rfl⟩
    · show (2 : Int) ≤ g.cur_promotion + 1
      have := hok.plb
      omega
    · show g.cur_promotion + 1 ≤ 5
      rw [show QUEEN = (5 : Int) from rfl] at h
      omega

theorem genok_clear (g : MoveGen) (hok : GenOk g) (dst : Nat) :
    GenOk { g with cur_moves := bitboard_clear_square g.cur_moves dst } := by
  refine ⟨hok.cons, hok.fmm, hok.occs, hok.sq64, hok.ctlb, ?_, hok.plb, hok.pub, ?_⟩
  · exact clear_square_lt _ _ hok.cmwf
  · intro hm hcm2
    have hcm0 : g.cur_moves ≠ 0 := by
      intro h0
      apply hcm2
      show bitboard_clear_square g.cur_moves dst = 0
      rw [h0]
      exact Nat.zero_and _
    obtain ⟨h1, h2, h3, h4⟩ := hok.cur hm hcm0
    exact ⟨h1, h2, h3, and_subset_zero _ _ _ h4⟩

theorem from_cur_ok (g : MoveGen) (hok : GenOk g) (hmode : g.cur_mode = MOVE_GEN_MODE_NORMAL)
    (hcm : g.cur_moves ≠ 0) :
    (move_gen_next_from_cur_moves g).2.board = g.board ∧
    GenOk (move_gen_next_from_cur_moves g).2 ∧
    (move_gen_next_from_cur_moves g).2.cur_mode = MOVE_GEN_MODE_NORMAL ∧
    MoveOk g.board (move_gen_next_from_cur_moves g).1 ∧
    (move_gen_next_from_cur_moves g).1 ≠ MOVE_END := by
  obtain ⟨hctub, hpsrc, hplsrc, hdisj⟩ := hok.cur hmode hcm
  obtain ⟨hdst64, hdstbit⟩ := scan_lsb_spec g.cur_moves hcm hok.cmwf
  have hpldst : (players g.board (board_player_to_move g.board)).testBit
      (bitboard_scan_lsb g.cur_moves) = false :=
    testBit_false_of_disjoint hdisj hdstbit
  have hmain : ∀ ip : Int, (ip ≠ 0 → g.cur_piece_type = PAWN) →
      MoveOk g.board (construct_move g.board.flags g.cur_square (bitboard_scan_lsb g.cur_moves)
        ip g.cur_promotion
        (if g.cur_piece_type = PAWN ∧
            board_get_en_passant_target g.board ≠ BOARD_POS_INVALID ∧
            bitboard_scan_lsb g.cur_moves = board_get_en_passant_target g.board then 1
          else if bitboard_check_square
              (players g.board (cNot (board_player_to_move g.board)))
              (bitboard_scan_lsb g.cur_moves) = 1 then 1 else 0)
        (if g.cur_piece_type = PAWN ∧
            board_get_en_passant_target g.board ≠ BOARD_POS_INVALID ∧
            bitboard_scan_lsb g.cur_moves = board_get_en_passant_target g.board then PAWN
          else if bitboard_check_square
              (players g.board (cNot (board_player_to_move g.board)))
              (bitboard_scan_lsb g.cur_moves) = 1 then
            board_piece_on_square g.board (bitboard_scan_lsb g.cur_moves) else 0)
        (if g.cur_piece_type = PAWN ∧
            board_get_en_passant_target g.board ≠ BOARD_POS_INVALID ∧
            bitboard_scan_lsb g.cur_moves = board_get_en_passant_target g.board then
          en_passant_target_to_pawn_pos (board_get_en_passant_target g.board)
          else if bitboard_check_square
              (players g.board (cNot (board_player_to_move g.board)))
              (bitboard_scan_lsb g.cur_moves) = 1 then
            bitboard_scan_lsb g.cur_moves else 0) 0) ∧
      construct_move g.board.flags g.cur_square (bitboard_scan_lsb g.cur_moves)
        ip g.cur_promotion
        (if g.cur_piece_type = PAWN ∧
            board_get_en_passant_target g.board ≠ BOARD_POS_INVALID ∧
            bitboard_scan_lsb g.cur_moves = board_get_en_passant_target g.board then 1
          else if bitboard_check_square
              (players g.board (cNot (board_player_to_move g.board)))
              (bitboard_scan_lsb g.cur_moves) = 1 then 1 else 0)
        (if g.cur_piece_type = PAWN ∧
            board_get_en_passant_target g.board ≠ BOARD_POS_INVALID ∧
            bitboard_scan_lsb g.cur_moves = board_get_en_passant_target g.board then PAWN
          else if bitboard_check_square
              (players g.board (cNot (board_player_to_move g.board)))
              (bitboard_scan_lsb g.cur_moves) = 1 then
            board_piece_on_square g.board (bitboard_scan_lsb g.cur_moves) else 0)
        (if g.cur_piece_type = PAWN ∧
            board_get_en_passant_target g.board ≠ BOARD_POS_INVALID ∧
            bitboard_scan_lsb g.cur_moves = board_get_en_passant_target g.board then
          en_passant_target_to_pawn_pos (board_get_en_passant_target g.board)
          else if bitboard_check_square
              (players g.board (cNot (board_player_to_move g.board)))
              (bitboard_scan_lsb g.cur_moves) = 1 then
            bitboard_scan_lsb g.cur_moves else 0) 0 ≠ MOVE_END := by
    intro ip hipct
    rcases Decidable.em (g.cur_piece_type = PAWN ∧
        board_get_en_passant_target g.board ≠ BOARD_POS_INVALID ∧
        bitboard_scan_lsb g.cur_moves = board_get_en_passant_target g.board) with hEp | hEp
    · rw [if_pos hEp, if_pos hEp, if_pos hEp]
      exact from_cur_move_ok g.board hok.cons g.cur_square (bitboard_scan_lsb g.cur_moves)
        g.cur_piece_type g.cur_promotion hok.sq64 hdst64 hok.ctlb hctub hpsrc hplsrc hpldst
        hok.plb hok.pub ip 1 PAWN _ hipct
        (Or.inl ⟨rfl, hEp.1, hEp.2.1, hEp.2.2, rfl, rfl⟩)
    · rw [if_neg hEp, if_neg hEp, if_neg hEp]
      rcases Decidable.em (bitboard_check_square
          (players g.board (cNot (board_player_to_move g.board)))
          (bitboard_scan_lsb g.cur_moves) = 1) with hOpp | hOpp
      · rw [if_pos hOpp, if_pos hOpp, if_pos hOpp]
        exact from_cur_move_ok g.board hok.cons g.cur_square (bitboard_scan_lsb g.cur_moves)
          g.cur_piece_type g.cur_promotion hok.sq64 hdst64 hok.ctlb hctub hpsrc hplsrc hpldst
          hok.plb hok.pub ip 1 _ _ hipct
          (Or.inr (Or.inl ⟨rfl, (check_square_one_iff _ _).mp hOpp, rfl, rfl⟩))
      · rw [if_neg hOpp, if_neg hOpp, if_neg hOpp]
        exact from_cur_move_ok g.board hok.cons g.cur_square (bitboard_scan_lsb g.cur_moves)
          g.cur_piece_type g.cur_promotion hok.sq64 hdst64 hok.ctlb hctub hpsrc hplsrc hpldst
          hok.plb hok.pub ip 0 0 0 hipct
          (Or.inr (Or.inr ⟨rfl, check_square_ne_one _ _ hOpp, rfl, rfl⟩))
  simp only [move_gen_next_from_cur_moves]
  rcases Decidable.em (g.cur_piece_type = PAWN ∧
      (bitboard_scan_lsb g.cur_moves >>> 3 = 0 ∨
        bitboard_scan_lsb g.cur_moves >>> 3 = 7)) with hPr | hPr
  · rw [if_pos hPr]
    rcases Decidable.em ((1 : Int) = 0 ∨ g.cur_promotion = QUEEN) with hQ | hQ
    · rw [if_pos hQ, if_pos (by decide : (1 : Int) ≠ 0)]
      simp only []
      obtain ⟨hgp, hgb, hgm⟩ := genok_next_promote
        { g with cur_moves := bitboard_clear_square g.cur_moves (bitboard_scan_lsb g.cur_moves) }
        (genok_clear g hok (bitboard_scan_lsb g.cur_moves))
      refine ⟨hgb, hgp, ?_, ?_, ?_⟩
      · rw [hgm]
        exact hmode
      · exact (hmain 1 (fun _ => hPr.1)).1
      · exact (hmain 1 (fun _ => hPr.1)).2
    · rw [if_neg hQ, if_pos (by decide : (1 : Int) ≠ 0)]
      simp only []
      obtain ⟨hgp, hgb, hgm⟩ := genok_next_promote g hok
      refine ⟨hgb, hgp, ?_, ?_, ?_⟩
      · rw [hgm]
        exact hmode
      · exact (hmain 1 (fun _ => hPr.1)).1
      · exact (hmain 1 (fun _ => hPr.1)).2
  · rw [if_neg hPr]
    rw [if_pos (Or.inl rfl : (0 : Int) = 0 ∨ g.cur_promotion = QUEEN),
      if_neg (by decide : ¬ (0 : Int) ≠ 0)]
    simp only []
    refine ⟨trivial, genok_clear g hok (bitboard_scan_lsb g.cur_moves), hmode, ?_, ?_⟩
    · exact (hmain 0 (fun h => absurd rfl h)).1
    · exact (hmain 0 (fun h => absurd rfl h)).2

theorem move_gen_castle_state (g : MoveGen) (player side : Int) :
    (move_gen_castle g player side 1).2 = g := by
  simp only [move_gen_castle]
  split_ifs <;> first | rfl | exact absurd (by assumption : (1 : Int) = 0) (by decide)

theorem move_gen_castle_char (g : MoveGen) (player side : Int) :
    (move_gen_castle g player side 1).1 = MOVE_END ∨
    (board_can_castle g.board player side = true ∧
     castle_between_clear 8 g.occupancy_for_sliders
       ((board_pos_to_x (board_pos_from_xy 4 (if player = WHITE then 0 else 7)) : Int) +
         (if side = QUEEN then -1 else 1))
       (board_pos_to_x (if side = QUEEN then
           board_pos_from_xy 0 (if player = WHITE then 0 else 7)
         else board_pos_from_xy 7 (if player = WHITE then 0 else 7)))
       (if side = QUEEN then -1 else 1) (if player = WHITE then 0 else 7) = true ∧
     (move_gen_castle g player side 1).1 = construct_move g.board.flags
       (board_pos_from_xy 4 (if player = WHITE then 0 else 7))
       (board_pos_from_xy
         ((board_pos_to_x (board_pos_from_xy 4 (if player = WHITE then 0 else 7)) : Int) +
           2 * (if side = QUEEN then -1 else 1))
         (if player = WHITE then 0 else 7))
       0 0 0 0 0 1) := by
  simp only [move_gen_castle]
  split_ifs <;>
    first
      | exact Or.inl rfl
      | exact Or.inr ⟨by tauto, by tauto, rfl⟩

theorem castle_between_clear_succ (fuel occupancy : Nat) (x rook_x dir y : Int) :
    castle_between_clear (fuel + 1) occupancy x rook_x dir y =
      (if x = rook_x then true
       else if bitboard_check_square occupancy (board_pos_from_xy x y) = 1 then false
       else castle_between_clear fuel occupancy (x + dir) rook_x dir y) := rfl

theorem between_clear_wk (occ : Nat) (h : castle_between_clear 8 occ 5 7 1 0 = true) :
    occ.testBit 5 = false ∧ occ.testBit 6 = false := by
  rw [show (8 : Nat) = 7 + 1 from rfl, castle_between_clear_succ,
    if_neg (by decide : ¬ ((5 : Int) = 7)),
    show (7 : Nat) = 6 + 1 from rfl, castle_between_clear_succ,
    if_neg (by decide : ¬ ((5 : Int) + 1 = 7)),
    show (6 : Nat) = 5 + 1 from rfl, castle_between_clear_succ,
    if_pos (by decide : (5 : Int) + 1 + 1 = 7),
    show board_pos_from_xy 5 0 = 5 from rfl,
    show board_pos_from_xy ((5 : Int) + 1) 0 = 6 from rfl] at h
  by_cases h5 : bitboard_check_square occ 5 = 1
  · rw [if_pos h5] at h
    exact absurd h (by decide)
  · rw [if_neg h5] at h
    by_cases h6 : bitboard_check_square occ 6 = 1
    · rw [if_pos h6] at h
      exact absurd h (by decide)
    · exact ⟨check_square_ne_one occ 5 h5, check_square_ne_one occ 6 h6⟩

theorem between_clear_wq (occ : Nat) (h : castle_between_clear 8 occ 3 0 (-1) 0 = true) :
    occ.testBit 3 = false ∧ occ.testBit 2 = false ∧ occ.testBit 1 = false := by
  rw [show (8 : Nat) = 7 + 1 from rfl, castle_between_clear_succ,
    if_neg (by decide : ¬ ((3 : Int) = 0)),
    show (7 : Nat) = 6 + 1 from rfl, castle_between_clear_succ,
    if_neg (by decide : ¬ ((3 : Int) + -1 = 0)),
    show (6 : Nat) = 5 + 1 from rfl, castle_between_clear_succ,
    if_neg (by decide : ¬ ((3 : Int) + -1 + -1 = 0)),
    show (5 : Nat) = 4 + 1 from rfl, castle_between_clear_succ,
    if_pos (by decide : (3 : Int) + -1 + -1 + -1 = 0),
    show board_pos_from_xy 3 0 = 3 from rfl,
    show board_pos_from_xy ((3 : Int) + -1) 0 = 2 from rfl,
    show board_pos_from_xy ((3 : Int) + -1 + -1) 0 = 1 from rfl] at h
  by_cases h3 : bitboard_check_square occ 3 = 1
  · rw [if_pos h3] at h
    exact absurd h (by decide)
  · rw [if_neg h3] at h
    by_cases h2 : bitboard_check_square occ 2 = 1
    · rw [if_pos h2] at h
      exact absurd h (by decide)
    · rw [if_neg h2] at h
      by_cases h1 : bitboard_check_square occ 1 = 1
      · rw [if_pos h1] at h
        exact absurd h (by decide)
      · exact ⟨check_square_ne_one occ 3 h3, check_square_ne_one occ 2 h2,
          check_square_ne_one occ 1 h1⟩

theorem between_clear_bk (occ : Nat) (h : castle_between_clear 8 occ 5 7 1 7 = true) :
    occ.testBit 61 = false ∧ occ.testBit 62 = false := by
  rw [show (8 : Nat) = 7 + 1 from rfl, castle_between_clear_succ,
    if_neg (by decide : ¬ ((5 : Int) = 7)),
    show (7 : Nat) = 6 + 1 from rfl, castle_between_clear_succ,
    if_neg (by decide : ¬ ((5 : Int) + 1 = 7)),
    show (6 : Nat) = 5 + 1 from rfl, castle_between_clear_succ,
    if_pos (by decide : (5 : Int) + 1 + 1 = 7),
    show board_pos_from_xy 5 7 = 61 from rfl,
    show board_pos_from_xy ((5 : Int) + 1) 7 = 62 from rfl] at h
  by_cases h5 : bitboard_check_square occ 61 = 1
  · rw [if_pos h5] at h
    exact absurd h (by decide)
  · rw [if_neg h5] at h
    by_cases h6 : bitboard_check_square occ 62 = 1
    · rw [if_pos h6] at h
      exact absurd h (by decide)
    · exact ⟨check_square_ne_one occ 61 h5, check_square_ne_one occ 62 h6⟩

theorem between_clear_bq (occ : Nat) (h : castle_between_clear 8 occ 3 0 (-1) 7 = true) :
    occ.testBit 59 = false ∧ occ.testBit 58 = false ∧ occ.testBit 57 = false := by
  rw [show (8 : Nat) = 7 + 1 from rfl, castle_between_clear_succ,
    if_neg (by decide : ¬ ((3 : Int) = 0)),
    show (7 : Nat) = 6 + 1 from rfl, castle_between_clear_succ,
    if_neg (by decide : ¬ ((3 : Int) + -1 = 0)),
    show (6 : Nat) = 5 + 1 from rfl, castle_between_clear_succ,
    if_neg (by decide : ¬ ((3 : Int) + -1 + -1 = 0)),
    show (5 : Nat) = 4 + 1 from rfl, castle_between_clear_succ,
    if_pos (by decide : (3 : Int) + -1 + -1 + -1 = 0),
    show board_pos_from_xy 3 7 = 59 from rfl,
    show board_pos_from_xy ((3 : Int) + -1) 7 = 58 from rfl,
    show board_pos_from_xy ((3 : Int) + -1 + -1) 7 = 57 from rfl] at h
  by_cases h3 : bitboard_check_square occ 59 = 1
  · rw [if_pos h3] at h
    exact absurd h (by decide)
  · rw [if_neg h3] at h
    by_cases h2 : bitboard_check_square occ 58 = 1
    · rw [if_pos h2] at h
      exact absurd h (by decide)
    · rw [if_neg h2] at h
      by_cases h1 : bitboard_check_square occ 57 = 1
      · rw [if_pos h1] at h
        exact absurd h (by decide)
      · exact ⟨check_square_ne_one occ 59 h3, check_square_ne_one occ 58 h2,
          check_square_ne_one occ 57 h1⟩

theorem castle_move_ok (b : Board) (hcons : boardConsistent b)
    (c : Int) (ks d rs rd : Nat)
    (hc : c = board_player_to_move b)
    (hks : ks < 64) (hd : d < 64) (hkd : ks ≠ d)
    (hkh : kingHome b c ks) (hrh : rookHome b c rs)
    (hoccd : (occUnion b).testBit d = false)
    (hoccrd : (occUnion b).testBit rd = false)
    (hshape : (c = 0 ∧ ks = 4 ∧ ((d = 2 ∧ rs = 0 ∧ rd = 3) ∨ (d = 6 ∧ rs = 7 ∧ rd = 5))) ∨
              (c = 1 ∧ ks = 60 ∧
                ((d = 58 ∧ rs = 56 ∧ rd = 59) ∨ (d = 62 ∧ rs = 63 ∧ rd = 61)))) :
    MoveOk b (construct_move b.flags ks d 0 0 0 0 0 1) ∧
    construct_move b.flags ks d 0 0 0 0 0 1 ≠ MOVE_END := by
  obtain ⟨hsrc, hdst, hipr, hppc, hicap, hcpc, hcsq, hicas, hpf, hlt⟩ :=
    construct_fields b.flags ks d 0 0 0 0 0 1 hks hd (by decide) (by decide) (by decide)
      (by decide) (by decide)
  have hipr0 : move_is_promotion (construct_move b.flags ks d 0 0 0 0 0 1) = 0 := by
    rw [hipr, if_neg (by decide : ¬ ((0 : Int) ≠ 0))]
  have hic0 : move_is_capture (construct_move b.flags ks d 0 0 0 0 0 1) = 0 := by
    rw [hicap, if_neg (by decide : ¬ ((0 : Int) ≠ 0))]
  have hpieceK : board_piece_on_square b ks = 0 := by
    refine piece_on_square_of_testBit b hcons.1 0 ks (by decide) (by decide) ?_
    rw [← piecesKing_eq]
    exact hkh.2
  constructor
  · refine ⟨hpf, ?_, ?_, ?_, ?_, ?_, ?_, ?_, ?_, ?_, ?_⟩
    · rw [hsrc, hdst]
      exact hkd
    · rw [hsrc, ← hc]
      exact hkh.1
    · simp only [hsrc, hpieceK]
      decide
    · simp only [hsrc, hpieceK]
      decide
    · rw [hdst]
      exact players_testBit_false_of_occ b d hoccd _
    · intro h
      exact absurd hipr0 h
    · intro _
      rw [hdst]
      exact players_testBit_false_of_occ b d hoccd _
    · intro h
      exact absurd hic0 h
    · intro h
      exact absurd hic0 h
    · intro hcs
      refine ⟨hic0, hipr0, ?_, ?_, ?_⟩
      · rw [hsrc]
        exact hpieceK
      · rw [hsrc]
        exact hkh.2
      · unfold castleShape
        rcases hshape with ⟨hc0, hks4, hside⟩ | ⟨hc1, hks60, hside⟩
        · left
          refine ⟨by rw [← hc]; exact hc0, by rw [hsrc]; exact hks4, ?_⟩
          rcases hside with ⟨hd2, hrs, hrd⟩ | ⟨hd6, hrs, hrd⟩
          · left
            subst hc0 hd2 hrs hrd
            exact ⟨by rw [hdst], hrh.1, hrh.2, hoccrd, hoccd⟩
          · right
            subst hc0 hd6 hrs hrd
            exact ⟨by rw [hdst], hrh.1, hrh.2, hoccrd, hoccd⟩
        · right
          refine ⟨by rw [← hc]; exact hc1, by rw [hsrc]; exact hks60, ?_⟩
          rcases hside with ⟨hd58, hrs, hrd⟩ | ⟨hd62, hrs, hrd⟩
          · left
            subst hc1 hd58 hrs hrd
            exact ⟨by rw [hdst], hrh.1, hrh.2, hoccrd, hoccd⟩
          · right
            subst hc1 hd62 hrs hrd
            exact ⟨by rw [hdst], hrh.1, hrh.2, hoccrd, hoccd⟩
  · intro he
    rw [he] at hlt
    have hme : MOVE_END = 2 ^ 64 - 1 := rfl
    omega

theorem genok_set_mode (g : MoveGen) (hok : GenOk g) (x : Nat)
    (hx : x ≠ MOVE_GEN_MODE_NORMAL) : GenOk { g with cur_mode := x } :=
  ⟨hok.cons, hok.fmm, hok.occs, hok.sq64, hok.ctlb, hok.cmwf, hok.plb, hok.pub,
    fun hm => absurd hm hx⟩

theorem genok_set_hit (g : MoveGen) (hok : GenOk g) : GenOk { g with hit_move := 1 } :=
  ⟨hok.cons, hok.fmm, hok.occs, hok.sq64, hok.ctlb, hok.cmwf, hok.plb, hok.pub, hok.cur⟩

theorem move_gen_castle_ok (g : MoveGen) (side : Int) (hok : GenOk g)
    (hside : side = KING ∨ side = QUEEN) :
    (move_gen_castle g (board_player_to_move g.board) side 1).1 ≠ MOVE_END →
    MoveOk g.board (move_gen_castle g (board_player_to_move g.board) side 1).1 := by
  intro hne
  rcases move_gen_castle_char g (board_player_to_move g.board) side with hend | ⟨hcc, hrest⟩
  · exact absurd hend hne
  · rcases player_to_move_mem g.board with hp | hp <;> rcases hside with hs | hs <;> subst hs <;>
      rw [hp] at hcc hrest <;> rw [hp]
    · -- white, king side
      have hflag : g.board.flags &&& BOARD_FLAGS_W_CASTLE_KING ≠ 0 := by
        unfold board_can_castle at hcc
        rw [if_pos ⟨rfl, rfl⟩] at hcc
        exact of_decide_eq_true hcc
      obtain ⟨hkh, hrh⟩ := hok.cons.2.2.2.1.1 hflag
      have hbet : castle_between_clear 8 g.occupancy_for_sliders 5 7 1 0 = true := hrest.1
      rw [hok.occs] at hbet
      obtain ⟨h5, h6⟩ := between_clear_wk _ hbet
      have hmv : (move_gen_castle g 0 KING 1).1 =
          construct_move g.board.flags 4 6 0 0 0 0 0 1 := hrest.2
      rw [hmv]
      exact (castle_move_ok g.board hok.cons 0 4 6 7 5 hp.symm (by decide) (by decide)
        (by decide) hkh hrh h6 h5 (Or.inl ⟨rfl, rfl, Or.inr ⟨rfl, rfl, rfl⟩⟩)).1
    · -- white, queen side
      have hflag : g.board.flags &&& BOARD_FLAGS_W_CASTLE_QUEEN ≠ 0 := by
        unfold board_can_castle at hcc
        rw [if_neg (by decide), if_pos ⟨rfl, rfl⟩] at hcc
        exact of_decide_eq_true hcc
      obtain ⟨hkh, hrh⟩ := hok.cons.2.2.2.1.2.1 hflag
      have hbet : castle_between_clear 8 g.occupancy_for_sliders 3 0 (-1) 0 = true := hrest.1
      rw [hok.occs] at hbet
      obtain ⟨h3, h2, h1⟩ := between_clear_wq _ hbet
      have hmv : (move_gen_castle g 0 QUEEN 1).1 =
          construct_move g.board.flags 4 2 0 0 0 0 0 1 := hrest.2
      rw [hmv]
      exact (castle_move_ok g.board hok.cons 0 4 2 0 3 hp.symm (by decide) (by decide)
        (by decide) hkh hrh h2 h3 (Or.inl ⟨rfl, rfl, Or.inl ⟨rfl, rfl, rfl⟩⟩)).1
    · -- black, king side
      have hflag : g.board.flags &&& BOARD_FLAGS_B_CASTLE_KING ≠ 0 := by
        unfold board_can_castle at hcc
        rw [if_neg (by decide), if_neg (by decide), if_pos ⟨rfl, rfl⟩] at hcc
        exact of_decide_eq_true hcc
      obtain ⟨hkh, hrh⟩ := hok.cons.2.2.2.1.2.2.1 hflag
      have hbet : castle_between_clear 8 g.occupancy_for_sliders 5 7 1 7 = true := hrest.1
      rw [hok.occs] at hbet
      obtain ⟨h61, h62⟩ := between_clear_bk _ hbet
      have hmv : (move_gen_castle g 1 KING 1).1 =
          construct_move g.board.flags 60 62 0 0 0 0 0 1 := hrest.2
      rw [hmv]
      exact (castle_move_ok g.board hok.cons 1 60 62 63 61 hp.symm (by decide) (by decide)
        (by decide) hkh hrh h62 h61 (Or.inr ⟨rfl, rfl, Or.inr ⟨rfl, rfl, rfl⟩⟩)).1
    · -- black, queen side
      have hflag : g.board.flags &&& BOARD_FLAGS_B_CASTLE_QUEEN ≠ 0 := by
        unfold board_can_castle at hcc
        rw [if_neg (by decide), if_neg (by decide), if_neg (by decide),
          if_pos ⟨rfl, rfl⟩] at hcc
        exact of_decide_eq_true hcc
      obtain ⟨hkh, hrh⟩ := hok.cons.2.2.2.1.2.2.2 hflag
      have hbet : castle_between_clear 8 g.occupancy_for_sliders 3 0 (-1) 7 = true := hrest.1
      rw [hok.occs] at hbet
      obtain ⟨h59, h58, h57⟩ := between_clear_bq _ hbet
      have hmv : (move_gen_castle g 1 QUEEN 1).1 =
          construct_move g.board.flags 60 58 0 0 0 0 0 1 := hrest.2
      rw [hmv]
      exact (castle_move_ok g.board hok.cons 1 60 58 56 59 hp.symm (by decide) (by decide)
        (by decide) hkh hrh h58 h59 (Or.inr ⟨rfl, rfl, Or.inl ⟨rfl, rfl, rfl⟩⟩)).1

theorem move_gen_advance_ok : ∀ (fuel : Nat) (g : MoveGen) (pm : Nat),
    pm = players g.board (board_player_to_move g.board) →
    GenOk g → g.cur_moves = 0 →
    (6 - Int.toNat g.cur_piece_type) * 64 - g.cur_square < fuel →
    (move_gen_advance fuel g pm).board = g.board ∧
    (move_gen_advance fuel g pm).occupancy_for_sliders = g.occupancy_for_sliders ∧
    (move_gen_advance fuel g pm).occupancy_for_pawns = g.occupancy_for_pawns ∧
    (move_gen_advance fuel g pm).final_moves_mask = g.final_moves_mask ∧
    (move_gen_advance fuel g pm).cur_moves = 0 ∧
    (move_gen_advance fuel g pm).cur_promotion = g.cur_promotion ∧
    (move_gen_advance fuel g pm).hit_move = g.hit_move ∧
    (move_gen_advance fuel g pm).done = g.done ∧
    GenOk (move_gen_advance fuel g pm) ∧
    ((move_gen_advance fuel g pm).cur_mode = MOVE_GEN_MODE_CASTLE_KING ∨
      ((move_gen_advance fuel g pm).cur_mode = g.cur_mode ∧
        (move_gen_advance fuel g pm).cur_piece_type ≤ 5 ∧
        bitboard_check_square
          (pieces g.board (move_gen_advance fuel g pm).cur_piece_type &&& pm)
          (move_gen_advance fuel g pm).cur_square = 1)) := by
  intro fuel
  induction fuel with
  | zero =>
    intro g pm hpm hok hcm hfuel
    exact absurd hfuel (Nat.not_lt_zero _)
  | succ fuel ih =>
    intro g pm hpm hok hcm hfuel
    simp only [move_gen_advance]
    by_cases hsq : g.cur_square + 1 ≥ 64
    · rw [if_pos hsq]
      simp only []
      have hok1 : GenOk { g with cur_square := 0, cur_piece_type := g.cur_piece_type + 1 } :=
        ⟨hok.cons, hok.fmm, hok.occs, (by decide : (0 : Nat) < 64),
          (by have := hok.ctlb; omega : (0 : Int) ≤ g.cur_piece_type + 1),
          hok.cmwf, hok.plb, hok.pub, fun _ hne => absurd hcm hne⟩
      by_cases hq : g.cur_piece_type + 1 > QUEEN
      · rw [if_pos hq]
        exact ⟨rfl, rfl, rfl, rfl, hcm, rfl, rfl, rfl,
          genok_set_mode _ hok1 MOVE_GEN_MODE_CASTLE_KING (by decide), Or.inl rfl⟩
      · rw [if_neg hq]
        by_cases hchk : bitboard_check_square
            (pieces g.board (g.cur_piece_type + 1) &&& pm) 0 = 1
        · rw [if_pos hchk]
          refine ⟨rfl, rfl, rfl, rfl, hcm, rfl, rfl, rfl, hok1, Or.inr ⟨rfl, ?_, hchk⟩⟩
          show g.cur_piece_type + 1 ≤ 5
          rw [show QUEEN = (5 : Int) from rfl] at hq
          omega
        · rw [if_neg hchk]
          refine ih { g with cur_square := 0, cur_piece_type := g.cur_piece_type + 1 }
            pm hpm hok1 hcm ?_
          show (6 - Int.toNat (g.cur_piece_type + 1)) * 64 - 0 < fuel
          have hq5 : g.cur_piece_type + 1 ≤ 5 := by
            rw [show QUEEN = (5 : Int) from rfl] at hq
            omega
          have hct0 := hok.ctlb
          have hcs := hok.sq64
          omega
    · rw [if_neg hsq]
      simp only []
      have hok1 : GenOk { g with cur_square := g.cur_square + 1 } :=
        ⟨hok.cons, hok.fmm, hok.occs, (by omega : g.cur_square + 1 < 64),
          hok.ctlb, hok.cmwf, hok.plb, hok.pub, fun _ hne => absurd hcm hne⟩
      by_cases hq : g.cur_piece_type > QUEEN
      · rw [if_pos hq]
        exact ⟨rfl, rfl, rfl, rfl, hcm, rfl, rfl, rfl,
          genok_set_mode _ hok1 MOVE_GEN_MODE_CASTLE_KING (by decide), Or.inl rfl⟩
      · rw [if_neg hq]
        by_cases hchk : bitboard_check_square
            (pieces g.board g.cur_piece_type &&& pm) (g.cur_square + 1) = 1
        · rw [if_pos hchk]
          refine ⟨rfl, rfl, rfl, rfl, hcm, rfl, rfl, rfl, hok1, Or.inr ⟨rfl, ?_, hchk⟩⟩
          show g.cur_piece_type ≤ 5
          rw [show QUEEN = (5 : Int) from rfl] at hq
          omega
        · rw [if_neg hchk]
          refine ih { g with cur_square := g.cur_square + 1 } pm hpm hok1 hcm ?_
          show (6 - Int.toNat g.cur_piece_type) * 64 - (g.cur_square + 1) < fuel
          have hq5 : g.cur_piece_type ≤ 5 := by
            rw [show QUEEN = (5 : Int) from rfl] at hq
            omega
          have hct0 := hok.ctlb
          omega

theorem genok_refill (A : MoveGen) (player : Int) (aok : GenOk A)
    (hct5 : A.cur_piece_type ≤ 5)
    (hpb : (pieces A.board A.cur_piece_type).testBit A.cur_square = true)
    (hplb : (players A.board (board_player_to_move A.board)).testBit A.cur_square = true) :
    GenOk { A with cur_moves := (move_gen_reg_moves_mask A.occupancy_for_sliders
      A.occupancy_for_pawns A.cur_piece_type player A.cur_square &&& A.final_moves_mask) } := by
  refine ⟨aok.cons, aok.fmm, aok.occs, aok.sq64, aok.ctlb, ?_, aok.plb, aok.pub, ?_⟩
  · show move_gen_reg_moves_mask A.occupancy_for_sliders A.occupancy_for_pawns
      A.cur_piece_type player A.cur_square &&& A.final_moves_mask < 2 ^ 64
    have h1 : move_gen_reg_moves_mask A.occupancy_for_sliders A.occupancy_for_pawns
        A.cur_piece_type player A.cur_square &&& A.final_moves_mask ≤ A.final_moves_mask :=
      Nat.and_le_right
    have h2 : A.final_moves_mask < 2 ^ 64 := by
      rw [aok.fmm]
      exact Nat.xor_lt_two_pow (by norm_num [MASK64]) (players_wf A.board aok.cons.2.1 _)
    omega
  · intro _ _
    refine ⟨hct5, hpb, hplb, ?_⟩
    show move_gen_reg_moves_mask A.occupancy_for_sliders A.occupancy_for_pawns
        A.cur_piece_type player A.cur_square &&& A.final_moves_mask &&&
        players A.board (board_player_to_move A.board) = 0
    rw [aok.fmm]
    exact mask_and_self_zero _ _ (players_wf A.board aok.cons.2.1 _)

theorem move_gen_next_preserves : ∀ (fuel : Nat) (g : MoveGen), GenOk g →
    (move_gen_next fuel g 1).2.board = g.board ∧
    GenOk (move_gen_next fuel g 1).2 ∧
    ((move_gen_next fuel g 1).1 ≠ MOVE_END → MoveOk g.board (move_gen_next fuel g 1).1) := by
  intro fuel
  induction fuel with
  | zero =>
    intro g hok
    exact ⟨rfl, hok, fun hne => absurd rfl hne⟩
  | succ fuel ih =>
    intro g hok
    simp only [move_gen_next]
    by_cases hEnd : g.cur_mode = MOVE_GEN_MODE_END
    · rw [if_pos hEnd]
      exact ⟨rfl, ⟨hok.cons, hok.fmm, hok.occs, hok.sq64, hok.ctlb, hok.cmwf, hok.plb,
        hok.pub, hok.cur⟩, fun hne => absurd rfl hne⟩
    · rw [if_neg hEnd]
      by_cases hCK : g.cur_mode = MOVE_GEN_MODE_CASTLE_KING
      · rw [if_pos hCK]
        have hok1 : GenOk { g with cur_mode := MOVE_GEN_MODE_CASTLE_QUEEN } :=
          genok_set_mode g hok _ (by decide)
        have hst := move_gen_castle_state { g with cur_mode := MOVE_GEN_MODE_CASTLE_QUEEN }
          (board_player_to_move g.board) KING
        have hmo : (move_gen_castle { g with cur_mode := MOVE_GEN_MODE_CASTLE_QUEEN }
              (board_player_to_move g.board) KING 1).1 ≠ MOVE_END →
            MoveOk g.board (move_gen_castle { g with cur_mode := MOVE_GEN_MODE_CASTLE_QUEEN }
              (board_player_to_move g.board) KING 1).1 :=
          move_gen_castle_ok { g with cur_mode := MOVE_GEN_MODE_CASTLE_QUEEN } KING hok1
            (Or.inl rfl)
        rcases hmc : move_gen_castle { g with cur_mode := MOVE_GEN_MODE_CASTLE_QUEEN }
            (board_player_to_move g.board) KING 1 with ⟨castle, g2⟩
        rw [hmc] at hst hmo
        have hst2 : g2 = { g with cur_mode := MOVE_GEN_MODE_CASTLE_QUEEN } := hst
        have hmo2 : castle ≠ MOVE_END → MoveOk g.board castle := hmo
        subst hst2
        simp only []
        by_cases hcne : castle ≠ MOVE_END
        · rw [if_pos hcne]
          exact ⟨rfl, genok_set_hit _ hok1, fun _ => hmo2 hcne⟩
        · rw [if_neg hcne]
          exact ih _ hok1
      · rw [if_neg hCK]
        by_cases hCQ : g.cur_mode = MOVE_GEN_MODE_CASTLE_QUEEN
        · rw [if_pos hCQ]
          have hok1 : GenOk { g with cur_mode := MOVE_GEN_MODE_END } :=
            genok_set_mode g hok _ (by decide)
          have hst := move_gen_castle_state { g with cur_mode := MOVE_GEN_MODE_END }
            (board_player_to_move g.board) QUEEN
          have hmo : (move_gen_castle { g with cur_mode := MOVE_GEN_MODE_END }
                (board_player_to_move g.board) QUEEN 1).1 ≠ MOVE_END →
              MoveOk g.board (move_gen_castle { g with cur_mode := MOVE_GEN_MODE_END }
                (board_player_to_move g.board) QUEEN 1).1 :=
            move_gen_castle_ok { g with cur_mode := MOVE_GEN_MODE_END } QUEEN hok1
              (Or.inr rfl)
          rcases hmc : move_gen_castle { g with cur_mode := MOVE_GEN_MODE_END }
              (board_player_to_move g.board) QUEEN 1 with ⟨castle, g2⟩
          rw [hmc] at hst hmo
          have hst2 : g2 = { g with cur_mode := MOVE_GEN_MODE_END } := hst
          have hmo2 : castle ≠ MOVE_END → MoveOk g.board castle := hmo
          subst hst2
          simp only []
          by_cases hcne : castle ≠ MOVE_END
          · rw [if_pos hcne]
            exact ⟨rfl, genok_set_hit _ hok1, fun _ => hmo2 hcne⟩
          · rw [if_neg hcne]
            exact ih _ hok1
        · rw [if_neg hCQ]
          by_cases hN : g.cur_mode = MOVE_GEN_MODE_NORMAL
          · rw [if_pos hN]
            by_cases hcm : g.cur_moves ≠ 0
            · rw [if_pos hcm]
              obtain ⟨hb1, hok1, hm1, hmok1, hne1⟩ := from_cur_ok g hok hN hcm
              rcases hfc : move_gen_next_from_cur_moves g with ⟨next_move, g1⟩
              rw [hfc] at hb1 hok1 hm1 hmok1 hne1
              have hb1x : g1.board = g.board := hb1
              have hok1x : GenOk g1 := hok1
              have hmokx : MoveOk g.board next_move := hmok1
              simp only []
              have hrt : board_unmake_move (board_make_move g1.board next_move) next_move
                  = g1.board := by
                rw [hb1x]
                exact make_unmake_roundtrip g.board next_move hok.cons hmokx
              by_cases hchk : board_player_in_check (board_make_move g1.board next_move)
                  (board_player_to_move g.board) ≠ 0
              · rw [if_pos hchk]
                rw [hrt]
                obtain ⟨ka, kb, kc⟩ := ih { g1 with board := g1.board } hok1x
                refine ⟨ka.trans hb1x, kb, fun hne => ?_⟩
                have hmk := kc hne
                nth_rewrite 1 [← hb1x]
                exact hmk
              · rw [if_neg hchk]
                rw [if_pos (by decide : (1 : Int) ≠ 0)]
                rw [hrt]
                exact ⟨hb1x, genok_set_hit g1 hok1x, fun _ => hmokx⟩
            · rw [if_neg hcm]
              have hcm0 : g.cur_moves = 0 := by omega
              obtain ⟨ab, as2, ap, af, acm, apr, ah, ad, aok, atri⟩ :=
                move_gen_advance_ok 400 g (players g.board (board_player_to_move g.board))
                  rfl hok hcm0 (by omega)
              by_cases hAm : (move_gen_advance 400 g
                  (players g.board (board_player_to_move g.board))).cur_mode ≠
                  MOVE_GEN_MODE_NORMAL
              · rw [if_pos hAm]
                obtain ⟨ka, kb, kc⟩ := ih _ aok
                refine ⟨ka.trans ab, kb, fun hne => ?_⟩
                have hmk := kc hne
                rw [ab] at hmk
                exact hmk
              · rw [if_neg hAm]
                have hAmode : (move_gen_advance 400 g
                    (players g.board (board_player_to_move g.board))).cur_mode =
                    MOVE_GEN_MODE_NORMAL := not_not.mp hAm
                rcases atri with hCKm | ⟨hmo3, hct5, hchk2⟩
                · rw [hAmode] at hCKm
                  exact absurd hCKm (by decide)
                · have hland := (check_square_one_iff _ _).mp hchk2
                  rw [Nat.testBit_land, Bool.and_eq_true] at hland
                  obtain ⟨hpb0, hplb0⟩ := hland
                  have hpb : (pieces (move_gen_advance 400 g
                      (players g.board (board_player_to_move g.board))).board
                      (move_gen_advance 400 g
                        (players g.board (board_player_to_move g.board))).cur_piece_type).testBit
                      (move_gen_advance 400 g
                        (players g.board (board_player_to_move g.board))).cur_square = true := by
                    rw [ab]
                    exact hpb0
                  have hplb : (players (move_gen_advance 400 g
                      (players g.board (board_player_to_move g.board))).board
                      (board_player_to_move (move_gen_advance 400 g
                        (players g.board (board_player_to_move g.board))).board)).testBit
                      (move_gen_advance 400 g
                        (players g.board (board_player_to_move g.board))).cur_square = true := by
                    rw [ab]
                    exact hplb0
                  have hokS := genok_refill _ (board_player_to_move g.board) aok hct5 hpb hplb
                  obtain ⟨ka, kb, kc⟩ := ih _ hokS
                  refine ⟨ka.trans ab, kb, fun hne => ?_⟩
                  have hmk := kc hne
                  nth_rewrite 1 [← ab]
                  exact hmk
          · rw [if_neg hN]
            exact ⟨rfl, hok, fun hne => absurd rfl hne⟩

theorem move_gen_run_ok : ∀ (fuel : Nat) (g : MoveGen), GenOk g →
    ∀ m ∈ (move_gen_run fuel g).1, MoveOk g.board m := by
  intro fuel
  induction fuel with
  | zero =>
    intro g hok m hm
    exact absurd hm (List.not_mem_nil m)
  | succ fuel ih =>
    intro g hok m hm
    simp only [move_gen_run] at hm
    obtain ⟨hb, hok1, hmok⟩ := move_gen_next_preserves MOVE_GEN_FUEL g hok
    rcases hnm : move_gen_next_move g with ⟨mv, g1⟩
    rw [hnm] at hm
    have hnm2 : move_gen_next MOVE_GEN_FUEL g 1 = (mv, g1) := hnm
    rw [hnm2] at hb hok1 hmok
    by_cases hend : mv = MOVE_END
    · rw [if_pos hend] at hm
      exact absurd hm (List.not_mem_nil m)
    · rw [if_neg hend] at hm
      rcases hrun : move_gen_run fuel g1 with ⟨rest, g2⟩
      rw [hrun] at hm
      simp only [] at hm
      rcases List.mem_cons.mp hm with hm1 | hm2
      · rw [hm1]
        exact hmok hend
      · have hmr : MoveOk g1.board m := ih g1 hok1 m (by rw [hrun]; exact hm2)
        rw [hb] at hmr
        exact hmr

theorem genok_init (b : Board) (hcons : boardConsistent b) : GenOk (move_gen_init b) :=
  ⟨hcons, rfl, rfl, (by decide : (0 : Nat) < 64), (by decide : (0 : Int) ≤ 0),
    (by decide : (0 : Nat) < 2 ^ 64), (by decide : (2 : Int) ≤ KNIGHT),
    (by decide : (KNIGHT : Int) ≤ 5), fun _ h => absurd rfl h⟩

/-- C1 (amended): for every position that satisfies `boardConsistent`
(the checked board invariants together with occupancy agreement between the
color and piece bitboards, home-square backing of every set castling right,
and pawn backing of a set en-passant target, all words in range) and every
move the generator emits from it (`board_legal_moves`), applying
`board_make_move` and then `board_unmake_move` with the same move restores
the position bit-for-bit. -/
theorem make_unmake_roundtrip_of_legal (b : Board) (m : Nat)
    (hcons : boardConsistent b) (hm : m ∈ board_legal_moves b) :
    board_unmake_move (board_make_move b m) m = b :=
  make_unmake_roundtrip b m hcons
    (move_gen_run_ok 512 (move_gen_init b) (genok_init b hcons) m hm)

set_option maxRecDepth 100000 in
theorem make_unmake_roundtrip_of_legal_witness :
    boardConsistent boardKings ∧ 1086586880 ∈ board_legal_moves boardKings ∧
    board_unmake_move (board_make_move boardKings 1086586880) 1086586880 = boardKings :=
  ⟨by decide, by decide,
    make_unmake_roundtrip_of_legal boardKings 1086586880 (by decide) (by decide)⟩

/-- C8: `move_gen_next_move` (the undo_after variant) returns with the
generator's underlying board bit-for-bit equal to its state before the
call, whether it returns a move or `MOVE_END`, from any well-formed
generator state (`GenOk`, established by `move_gen_init` on a consistent
board and preserved across calls). -/
theorem move_gen_next_move_board_unchanged (g : MoveGen) (hok : GenOk g) :
    (move_gen_next_move g).2.board = g.board :=
  (move_gen_next_preserves MOVE_GEN_FUEL g hok).1

theorem move_gen_next_move_board_unchanged_witness :
    GenOk (move_gen_init startBoard) ∧
    (move_gen_next_move (move_gen_init startBoard)).2.board = startBoard :=
  ⟨genok_init startBoard (by decide),
    move_gen_next_move_board_unchanged (move_gen_init startBoard)
      (genok_init startBoard (by decide))⟩
